import Mathlib

/-!
# rtpproxy control-command engine: parser, reply path and dispatcher

A shallow embedding of `src/rtpp_command.c`.  C strings are lists of
characters (the bytes before the terminating NUL); raw buffers are lists of
characters that may contain NUL.  Effects of the code on its surroundings
(datagrams sent, bytes written to the control descriptor, retransmit-cache
contents, command counters) are threaded explicitly through a `World` value,
and calls into collaborators whose code lives in other files are recorded in
a call log and answered by an environment of result functions.
-/

set_option maxRecDepth 100000

namespace Rtpproxy

/-! ## Characters and C strings -/

/-- The C string terminator. -/
def NUL : Char := Char.ofNat 0

/-- Horizontal tab. -/
def TAB : Char := Char.ofNat 9

/-- Line feed. -/
def LF : Char := Char.ofNat 10

/-- Carriage return. -/
def CR : Char := Char.ofNat 13

/-- Space. -/
def SP : Char := Char.ofNat 32

/-- The C string held in a raw buffer: the bytes before the first NUL. -/
def cstr (buf : List Char) : List Char :=
  buf.takeWhile (fun c => c != NUL)

/-- The delimiter set that `rtpp_command_split` passes to `rtpp_strsep`, the
string literal "\r\n\t ". -/
def split_delims : List Char := [CR, LF, TAB, SP]

/-- Modelled from the spec: `rtpp_strsep` lives in rtpp_util.c, which is not
among the sources.  The spec says the separators are any of CR, LF, TAB and
space and that tokens are what lies between them; this is strsep(3): the
token is the run of bytes before the first delimiter or NUL, the delimiter is
overwritten by NUL, and the cursor moves behind it, or becomes NULL when the
string ended.  First component: the returned token (NULL when the cursor
already was NULL); second component: the new cursor. -/
def rtpp_strsep (stringp : Option (List Char)) (delim : List Char) :
    Option (List Char) × Option (List Char) :=
  match stringp with
  | none => (none, none)
  | some s =>
    let stop : Char → Bool := fun c => c == NUL || delim.contains c
    let tok := s.takeWhile (fun c => !stop c)
    match s.dropWhile (fun c => !stop c) with
    | [] => (some tok, none)
    | c :: rest => if c == NUL then (some tok, none) else (some tok, some rest)

/-- The macro `ISAMPAMP(v)`: `v[0] == '&' && v[1] == '&' && v[2] == 0`, read
on a C string (the byte behind its last character is NUL). -/
def ISAMPAMP (v : List Char) : Bool :=
  v.getD 0 NUL == '&' && v.getD 1 NUL == '&' && v.getD 2 NUL == NUL

/-! ## Data model -/

/-- Opcodes, `enum rtpp_cmd_op`. -/
inductive rtpp_cmd_op where
  | DELETE | RECORD | PLAY | NOPLAY | COPY | UPDATE | LOOKUP | INFO
  | QUERY | VER_FEATURE | GET_VER | DELETE_ALL | GET_STATS
deriving DecidableEq, Repr

/-- An argument vector, `struct rtpp_command_args`: `v` has `RTPC_MAX_ARGC`
slots, each a pointer to a token or NULL; `c` is the argument count. -/
structure rtpp_command_args where
  v : List (Option (List Char))
  c : Nat
deriving DecidableEq, Repr

/-- The common arguments that pre-parse extracts, `struct common_cmd_args`. -/
structure common_cmd_args where
  op : rtpp_cmd_op
  rname : List Char
  call_id : List Char
  from_tag : List Char
  to_tag : Option (List Char)
deriving DecidableEq, Repr

/-- A stream of a session, as far as the dispatcher reads it: the codecs
recorded at the last update (NULL when none) and the packet time. -/
structure rtpp_stream where
  codecs : Option (List Char)
  ptime : Int
deriving DecidableEq, Repr

/-- A session as `find_stream` hands it out: the two RTP streams. -/
structure rtpp_session where
  stream0 : rtpp_stream
  stream1 : rtpp_stream
deriving DecidableEq, Repr

/-- One request in flight: `struct rtpp_command_priv` with its embedded public
part.  `dtime` is a double in the source that is only stored and passed on,
so it is kept as an uninterpreted time stamp; `raddr` stands for the source
address with its length; `rcache_obj` tells whether the command holds a
reference to the retransmit cache. -/
structure rtpp_command where
  buf : List Char
  args : rtpp_command_args
  subc_args : rtpp_command_args
  cca : common_cmd_args
  dtime : Nat
  raddr : Nat
  sp : Option rtpp_session
  controlfd : Int
  cookie : Option (List Char)
  umode : Int
  buf_r : List Char
  rcache_obj : Bool
deriving DecidableEq, Repr

/-- Command counters, `struct rtpp_command_stats`; each `cnt` is a 64-bit
unsigned value. -/
structure rtpp_command_stats where
  ncmds_rcvd : Nat
  ncmds_rcvd_ndups : Nat
  ncmds_succd : Nat
  ncmds_errs : Nat
  ncmds_repld : Nat
deriving DecidableEq, Repr

/-- The increment `cnt++` of a 64-bit unsigned counter. -/
def cnt_inc (x : Nat) : Nat := (x + 1) % 2 ^ 64

/-- The decrement `cnt--` of a 64-bit unsigned counter. -/
def cnt_dec (x : Nat) : Nat := (x + 2 ^ 64 - 1) % 2 ^ 64

/-- One entry of the retransmit cache. -/
structure rcache_entry where
  cookie : List Char
  reply : List Char
  etime : Nat
deriving DecidableEq, Repr

/-- Modelled from the spec: the retransmit cache (rtpp_command_rcache.c is
not among the sources) maps a cookie to the reply bytes last sent for that
cookie.  The newest entry is at the head, so the first match is the last
insertion.  Expiry is driven by a separate timed task and is not part of a
lookup. -/
abbrev rtpp_cmd_rcache := List rcache_entry

/-- Modelled from the spec: `insert(cookie, reply, time)` records a new
entry. -/
def rtpp_cmd_rcache.insert (rc : rtpp_cmd_rcache) (cookie reply : List Char) (dtime : Nat) :
    rtpp_cmd_rcache :=
  { cookie := cookie, reply := reply, etime := dtime } :: rc

/-- Modelled from the spec: `lookup(cookie, buf, bufsz)` copies the cached
reply into `buf` if present; `none` is the result 0, `some s` is the result 1
with the C string `s` left in the buffer of `bufsz` bytes. -/
def rtpp_cmd_rcache.lookup (rc : rtpp_cmd_rcache) (cookie : List Char) (bufsz : Nat) :
    Option (List Char) :=
  (rc.find? (fun e => e.cookie == cookie)).map (fun e => e.reply.take (bufsz - 1))

/-- What the code hands to the operating system: `write(fd, buf, len)` and
`rtpp_anetio_sendto(.., fd, buf, len, 0, raddr, rlen)`.  `buf` is the known
content of the object the pointer refers to and `len` the byte count that was
passed. -/
inductive net_event where
  | write (fd : Int) (buf : List Char) (len : Nat)
  | sendto (fd : Int) (buf : List Char) (len : Nat) (raddr : Nat)
deriving DecidableEq, Repr

/-- The bytes a send transmits, when they are determined: the first `len`
bytes of the object, provided the object has that many. -/
def net_event.bytes : net_event → Option (List Char)
  | .write _ buf len => if len ≤ buf.length then some (buf.take len) else none
  | .sendto _ buf len _ => if len ≤ buf.length then some (buf.take len) else none

/-- The surroundings of a command: the counters `cmd->csp` points to, the
retransmit cache with its reference count, and the log of what was sent. -/
structure World where
  csp : rtpp_command_stats
  rcache : rtpp_cmd_rcache
  rcache_rcnt : Nat
  sent : List net_event
deriving DecidableEq, Repr

/-- Constants of headers that are not among the sources. -/
structure Consts where
  RTPC_MAX_ARGC : Nat
  ECODE_PARSE_1 : Int
  ECODE_PARSE_2 : Int
  ECODE_PARSE_3 : Int
  ECODE_PARSE_4 : Int
  ECODE_PARSE_5 : Int
  ECODE_PARSE_6 : Int
  ECODE_PARSE_7 : Int
  ECODE_SESUNKN : Int
  ECODE_INVLARG_5 : Int
  ECODE_PLRFAIL : Int
  ECODE_CPYFAIL : Int
  CPROTOVER : Int
deriving DecidableEq, Repr

/-! ## Reply path -/

/-- The size of `buf_r`, `char buf_r[256]`. -/
def BUF_R_SIZE : Nat := 256

/-- The call `snprintf(dst, size, "%s %s", a, b)`: the string stored in `dst`
(cut to `size - 1` characters) and the returned length, that of the
untruncated output. -/
def snprintf_s_s (size : Nat) (a b : List Char) : List Char × Nat :=
  ((a ++ SP :: b).take (size - 1), (a ++ SP :: b).length)

/-- Decimal rendering of an int, the conversion `%d`. -/
def fmt_d (n : Int) : List Char := (toString n).toList

/-- The function `rtpc_doreply(cmd, buf, len, errd)`.  `buf` is the content
of the caller's buffer.  The cache that `pvt->rcache_obj` points to is the
cache of the world: the pointer is set where the cookie is set. -/
def rtpc_doreply (cmd : rtpp_command) (w : World) (buf : List Char) (len : Nat) (errd : Int) :
    rtpp_command × World :=
  -- buf[len] = 0: from here on the C string at buf is cstr (buf.take len)
  let cw : rtpp_command × World :=
    if cmd.umode = 0 then
      (cmd, { w with sent := w.sent ++ [net_event.write cmd.controlfd (buf.take len) len] })
    else
      match cmd.cookie with
      | some cookie =>
        let r := snprintf_s_s BUF_R_SIZE cookie (cstr (buf.take len))
        ({ cmd with buf_r := r.1 },
         { w with rcache := w.rcache.insert cookie r.1 cmd.dtime,
                  sent := w.sent ++ [net_event.sendto cmd.controlfd r.1 r.2 cmd.raddr] })
      | none =>
        (cmd, { w with sent := w.sent ++
                  [net_event.sendto cmd.controlfd (buf.take len) len cmd.raddr] })
  let csp1 := { cw.2.csp with ncmds_repld := cnt_inc cw.2.csp.ncmds_repld }
  let csp2 :=
    if errd = 0 then { csp1 with ncmds_succd := cnt_inc csp1.ncmds_succd }
    else { csp1 with ncmds_errs := cnt_inc csp1.ncmds_errs }
  (cw.1, { cw.2 with csp := csp2 })

/-- The function `reply_number`: formats "%d\n" and replies as a success. -/
def reply_number (cmd : rtpp_command) (w : World) (number : Int) : rtpp_command × World :=
  let s := fmt_d number ++ [LF]
  rtpc_doreply cmd w s s.length 0

/-- The function `reply_ok`. -/
def reply_ok (cmd : rtpp_command) (w : World) : rtpp_command × World :=
  reply_number cmd w 0

/-- The function `reply_error`: formats "E%d\n" and replies as an error. -/
def reply_error (cmd : rtpp_command) (w : World) (ecode : Int) : rtpp_command × World :=
  let s := 'E' :: fmt_d ecode ++ [LF]
  rtpc_doreply cmd w s s.length 1

/-! ## Collaborators -/

/-- The calls the command engine makes into code of other files, with the
arguments that matter. -/
inductive call_event where
  | rtpp_command_pre_parse (cmd : rtpp_command)
  | sessions_wrt_purge
  | sessions_ht_purge
  | rtpp_command_ul_opts_parse (cmd : rtpp_command)
  | handle_get_stats (verbose : Int)
  | handle_delete (cca : common_cmd_args) (weak : Int)
  | handle_record (cca : common_cmd_args) (record_single_file : Int)
  | find_stream (call_id from_tag : List Char) (to_tag : Option (List Char))
  | rtpp_command_ul_opts_free (ulop : Nat)
  | ul_reply_port (ulr : Option Nat)
  | handle_noplay (sidx : Int)
  | handle_play (sidx : Int) (codecs pname : Option (List Char)) (playcount : Int) (ptime : Int)
  | handle_copy (sidx : Int) (recording_name : Option (List Char)) (record_single_file : Int)
  | handle_query (sidx : Int)
  | rtpp_command_ul_handle (ulop : Nat) (sidx : Int)
deriving DecidableEq, Repr

/-- The answers of the collaborators whose code is in other files, and the
configuration values the engine reads.  A collaborator that replies on its
own takes the command and the world and hands back the world it leaves. -/
structure Env where
  rtpp_command_pre_parse : rtpp_command → World → Int × rtpp_command × World
  rtpp_command_ul_opts_parse : rtpp_command → World → Option Nat × World
  handle_get_stats : rtpp_command → World → Int → Int × World
  handle_delete : common_cmd_args → Int → Int
  handle_record : common_cmd_args → Int → Int
  find_stream : List Char → List Char → Option (List Char) → Int × Option rtpp_session
  ul_reply_port : rtpp_command → World → Option Nat → World
  handle_play : Int → Option (List Char) → Option (List Char) → Int → Int → Int
  handle_copy : Int → Option (List Char) → Int → Int
  handle_query : rtpp_command → World → Int → Int × World
  rtpp_command_ul_handle : rtpp_command → World → Nat → Int → World
  record_pcap : Int
  tnset_isenabled : Bool
  getlvalbyname : List Char → Nat
  rtp_streams_length : Int
  aload_text : List Char

/-! ## Command construction and the parser -/

/-- The function `rtpp_command_ctor`: a zeroed command with the control
descriptor, the arrival time and the transport mode filled in. -/
def rtpp_command_ctor (K : Consts) (controlfd : Int) (dtime : Nat) (umode : Int) : rtpp_command :=
  { buf := [],
    args := { v := List.replicate K.RTPC_MAX_ARGC none, c := 0 },
    subc_args := { v := List.replicate K.RTPC_MAX_ARGC none, c := 0 },
    cca := { op := rtpp_cmd_op.DELETE, rname := [], call_id := [], from_tag := [],
             to_tag := none },
    dtime := dtime, raddr := 0, sp := none, controlfd := controlfd, cookie := none,
    umode := umode, buf_r := [], rcache_obj := false }

/-- The function `rtpp_command_guard_retrans`.  First component: the return
value.  The cache `rcache_obj` of the source is the cache of the world; the
cookie is non-NULL at the only call site. -/
def rtpp_command_guard_retrans (cmd : rtpp_command) (w : World) : Int × rtpp_command × World :=
  match w.rcache.lookup (cmd.cookie.getD []) BUF_R_SIZE with
  | some reply =>
    let len := reply.length
    (1, { cmd with buf_r := reply },
     { w with sent := w.sent ++ [net_event.sendto cmd.controlfd reply len cmd.raddr],
              csp := { w.csp with ncmds_rcvd := cnt_dec w.csp.ncmds_rcvd,
                                  ncmds_rcvd_ndups := cnt_inc w.csp.ncmds_rcvd_ndups } })
  | none =>
    (0, { cmd with rcache_obj := true }, { w with rcache_rcnt := w.rcache_rcnt + 1 })

/-- Which argument vector `cap` points to. -/
inductive cap_t where
  | args
  | subc_args
deriving DecidableEq, Repr

/-- The variables of the tokenizing loop of `rtpp_command_split` besides the
cursor `cp`: the command, the world, `cap`, and `ap` as an index into
`cap->v`. -/
structure split_state where
  cmd : rtpp_command
  w : World
  cap : cap_t
  ap : Nat
deriving DecidableEq, Repr

/-- The store `*ap = x`. -/
def split_state.store (st : split_state) (x : Option (List Char)) : split_state :=
  match st.cap with
  | cap_t.args =>
    { st with cmd := { st.cmd with args := { st.cmd.args with v := st.cmd.args.v.set st.ap x } } }
  | cap_t.subc_args =>
    { st with cmd := { st.cmd with
        subc_args := { st.cmd.subc_args with v := st.cmd.subc_args.v.set st.ap x } } }

/-- The increment `cap->c++`. -/
def split_state.inc_c (st : split_state) : split_state :=
  match st.cap with
  | cap_t.args =>
    { st with cmd := { st.cmd with args := { st.cmd.args with c := st.cmd.args.c + 1 } } }
  | cap_t.subc_args =>
    { st with cmd := { st.cmd with
        subc_args := { st.cmd.subc_args with c := st.cmd.subc_args.c + 1 } } }

/-- How the tokenizing loop is left: `eol` when `rtpp_strsep` returned NULL,
`retrans` by the `return (1)` after a retransmit hit, `etoomany` by the
`goto etoomany`. -/
inductive split_exit where
  | eol (st : split_state)
  | retrans (st : split_state)
  | etoomany (st : split_state)
deriving DecidableEq, Repr

/-- Outcome of one pass through the loop body. -/
inductive split_step where
  | next (st : split_state)
  | exit (e : split_exit)
deriving DecidableEq, Repr

/-- The body of the tokenizing loop for the token `tok` that was just stored
in `*ap`. -/
def rtpp_command_split_body (K : Consts) (tok : List Char) (st : split_state) : split_step :=
  if tok.headD NUL != NUL then
    if st.cap = cap_t.args ∧ st.cmd.umode ≠ 0 ∧ st.cmd.args.c = 0 ∧ st.cmd.cookie = none then
      let r := rtpp_command_guard_retrans { st.cmd with cookie := some tok } st.w
      if r.1 ≠ 0 then split_step.exit (split_exit.retrans { st with cmd := r.2.1, w := r.2.2 })
      else split_step.next { st with cmd := r.2.1, w := r.2.2 }
    else if st.cap = cap_t.args ∧ ISAMPAMP tok = true then
      split_step.next { st.store none with cap := cap_t.subc_args, ap := 0 }
    else
      let st1 := st.inc_c
      let st2 := { st1 with ap := st1.ap + 1 }
      if K.RTPC_MAX_ARGC ≤ st2.ap then split_step.exit (split_exit.etoomany st2)
      else split_step.next st2
  else split_step.next st

/-- One iteration of the tokenizing loop: the loop condition
`(*ap = rtpp_strsep(&cp, "\r\n\t ")) != NULL` and then the body.  Second
component: the cursor `cp` afterwards. -/
def rtpp_command_split_iter (K : Consts) (cp : Option (List Char)) (st : split_state) :
    split_step × Option (List Char) :=
  let r := rtpp_strsep cp split_delims
  match r.1 with
  | none => (split_step.exit (split_exit.eol (st.store none)), r.2)
  | some tok => (rtpp_command_split_body K tok (st.store (some tok)), r.2)

/-- The tokenizing loop of `rtpp_command_split`, run for at most `fuel`
iterations; `none` when the fuel did not suffice. -/
def rtpp_command_split_loop (K : Consts) :
    Nat → Option (List Char) → split_state → Option split_exit
  | 0, _, _ => none
  | fuel + 1, cp, st =>
    match rtpp_command_split_iter K cp st with
    | (split_step.next st1, cp1) => rtpp_command_split_loop K fuel cp1 st1
    | (split_step.exit e, _) => some e

/-- The tokenizing stage of `rtpp_command_split`: the counter increment and
the loop over `cmd->buf`.  Every iteration but the last two consumes at least
one byte of the buffer, so `length + 2` iterations always suffice. -/
def rtpp_command_split_tokenize (K : Consts) (cmd : rtpp_command) (w : World) :
    Option split_exit :=
  let w1 := { w with csp := { w.csp with ncmds_rcvd := cnt_inc w.csp.ncmds_rcvd } }
  rtpp_command_split_loop K (cmd.buf.length + 2) (some cmd.buf)
    { cmd := cmd, w := w1, cap := cap_t.args, ap := 0 }

/-- What a function of the engine leaves behind: its return value, the
command, the world and the calls it made. -/
structure cmd_result where
  rval : Int
  cmd : rtpp_command
  w : World
  calls : List call_event
deriving DecidableEq, Repr

/-- The test after the loop of `rtpp_command_split` that sends the command
to the label `etoomany`. -/
def split_syntax_error (st : split_state) : Bool :=
  decide (st.cmd.args.c < 1) || (st.cmd.umode != 0 && st.cmd.cookie == none) ||
    (st.cap == cap_t.subc_args && decide (st.cmd.subc_args.c < 1))

/-- The function `rtpp_command_split`; `none` only if the loop ran out of
fuel, which `tokenize_eq_feed` shows never to happen.  The parameter `len`
of the source is used for the debug log only, and its `rcache_obj` is the
cache of the world. -/
def rtpp_command_split (K : Consts) (E : Env) (cmd : rtpp_command) (w : World) :
    Option cmd_result :=
  match rtpp_command_split_tokenize K cmd w with
  | none => none
  | some (split_exit.retrans st) => some { rval := 1, cmd := st.cmd, w := st.w, calls := [] }
  | some (split_exit.etoomany st) =>
    let r := reply_error st.cmd st.w K.ECODE_PARSE_1
    some { rval := 1, cmd := r.1, w := r.2, calls := [] }
  | some (split_exit.eol st) =>
    if split_syntax_error st = true then
      let r := reply_error st.cmd st.w K.ECODE_PARSE_1
      some { rval := 1, cmd := r.1, w := r.2, calls := [] }
    else
      let r := E.rtpp_command_pre_parse st.cmd st.w
      if r.1 ≠ 0 then
        some { rval := 1, cmd := r.2.1, w := r.2.2,
               calls := [call_event.rtpp_command_pre_parse st.cmd] }
      else
        some { rval := 0, cmd := r.2.1, w := r.2.2,
               calls := [call_event.rtpp_command_pre_parse st.cmd] }

/-- The command as `get_command` hands it to `rtpp_command_split` after a
successful read of the bytes `data` from the control descriptor (for a
datagram, from the address `raddr`): built by `rtpp_command_ctor`, with the
bytes stored in `cmd->buf` and terminated. -/
def command_read (K : Consts) (controlfd : Int) (dtime : Nat) (umode : Int) (raddr : Nat)
    (data : List Char) : rtpp_command :=
  { rtpp_command_ctor K controlfd dtime umode with
    buf := data, raddr := if umode = 0 then 0 else raddr }

/-- The function `get_command` after a successful read.  The first component
of the result is the command handed back, NULL (`none`) when the split
returned non-zero, in which case the command has been freed. -/
def get_command (K : Consts) (E : Env) (w : World) (controlfd : Int) (dtime : Nat) (umode : Int)
    (raddr : Nat) (data : List Char) : Option (Option rtpp_command × World × List call_event) :=
  match rtpp_command_split K E (command_read K controlfd dtime umode raddr data) w with
  | none => none
  | some r =>
    if r.rval ≠ 0 then
      some (none, { r.w with rcache_rcnt := if r.cmd.rcache_obj then r.w.rcache_rcnt - 1
                                              else r.w.rcache_rcnt }, r.calls)
    else some (some r.cmd, r.w, r.calls)

/-! ## The dispatcher -/

/-- The capability list `proto_caps`: the datestamps, in order. -/
def proto_caps : List (List Char) :=
  ["20040107".toList, "20050322".toList, "20060704".toList, "20071116".toList,
   "20071218".toList, "20080403".toList, "20081102".toList, "20081224".toList,
   "20090810".toList, "20140323".toList, "20140617".toList, "20141004".toList,
   "20150330".toList, "20150420".toList, "20150617".toList, "20191015".toList]

/-- The argument `cmd->args.v[i]` as a pointer: NULL or a token. -/
def rtpp_command.argv (cmd : rtpp_command) (i : Nat) : Option (List Char) :=
  cmd.args.v.getD i none

/-- The modifier string `&cmd->args.v[0][1]`: the first argument without its
opcode letter.  The split has made sure that `args.v[0]` is a non-empty
token. -/
def rtpp_command.mods (cmd : rtpp_command) : List Char :=
  ((cmd.argv 0).getD []).tail

/-- Conversion of a value to `int`: wrap-around to 32 bits, two's
complement. -/
def to_int32 (x : Int) : Int := (x + 2 ^ 31) % 2 ^ 32 - 2 ^ 31

/-- The characters `isspace` accepts in the C locale. -/
def c_isspace (c : Char) : Bool := c == SP || (9 ≤ c.toNat && c.toNat ≤ 13)

/-- The value of a run of decimal digits, most significant first. -/
def digits_value (ds : List Char) : Int :=
  ds.foldl (fun acc d => acc * 10 + ((d.toNat : Int) - 48)) 0

/-- The call `strtol(s, &cp, 10)` with a 64-bit `long`: leading white space
and an optional sign are skipped, the longest run of digits is converted and
clamped to the range of `long`.  First component: the value; second: the
string `cp` points to, which is `s` itself when there was no digit. -/
def strtol10 (s : List Char) : Int × List Char :=
  let s1 := s.dropWhile c_isspace
  let neg := s1.head? == some '-'
  let s2 := if s1.head? == some '-' || s1.head? == some '+' then s1.tail else s1
  let ds := s2.takeWhile Char.isDigit
  if ds.isEmpty then (0, s)
  else
    let v := if neg then - digits_value ds else digits_value ds
    (max (-(2 ^ 63)) (min v (2 ^ 63 - 1)), s2.dropWhile Char.isDigit)

/-- The macro `NOT(x)`. -/
def NOT (x : Int) : Int := if x = 0 then 1 else 0

/-- The stream `spa->rtp->stream[i]`; `find_stream` hands back a session and
an index 0 or 1 whenever its result is not -1. -/
def stream_at (spa : Option rtpp_session) (i : Int) : rtpp_stream :=
  match spa with
  | some s => if i = 0 then s.stream0 else s.stream1
  | none => { codecs := none, ptime := 0 }

/-- How `handle_command` ends: by `return 0`, in `abort()`, or in a call of
`strcmp` on a NULL pointer.  The behaviour of that call is undefined and the
function does not return from it; `crashed` keeps the command, the world and
the calls made up to it. -/
inductive handle_outcome where
  | returned (r : cmd_result)
  | aborted (r : cmd_result)
  | crashed (cmd : rtpp_command) (w : World) (calls : List call_event)
deriving DecidableEq, Repr

/-- The function `handle_ver_feature`.  The pointer `cmd->args.v[1]` is
handed to `strcmp` without a test: the result is `none` when it is NULL,
where the function does not return. -/
def handle_ver_feature (E : Env) (cmd : rtpp_command) (w : World) :
    Option (rtpp_command × World) :=
  match cmd.argv 1 with
  | none => none
  | some id =>
    if id = "20081224".toList ∧ E.tnset_isenabled = false then
      some (reply_number cmd w 0)
    else
      let known : Int := if (proto_caps.any (fun pc_id => id == pc_id)) then 1 else 0
      some (reply_number cmd w known)

/-- The option loop of `handle_info`: the value of `load` after the options
`opts`, or `none` at an unknown option. -/
def handle_info_opts : List Char → Int → Option Int
  | [], load => some load
  | c :: cs, load =>
    if c = 'b' ∨ c = 'B' then handle_info_opts cs load
    else if c = 'l' ∨ c = 'L' then handle_info_opts cs 1
    else none

/-- Decimal rendering of an unsigned value, the conversion `%llu`. -/
def fmt_llu (n : Nat) : List Char := (toString n).toList

/-- The function `handle_info`.  The counters are 64-bit unsigned values;
`sessions_active` is their difference converted to `int`; the text of the
load, which the source renders with `%f`, is taken from the environment.
The text never fills the 8192 bytes of `buf`, so `snprintf` does not cut
it. -/
def handle_info (K : Consts) (E : Env) (cmd : rtpp_command) (w : World) (opts : List Char) :
    rtpp_command × World :=
  match handle_info_opts opts 0 with
  | none => reply_error cmd w K.ECODE_PARSE_7
  | some load =>
    let packets_in : Nat := E.getlvalbyname "npkts_rcvd".toList % 2 ^ 64
    let packets_out : Nat :=
      (E.getlvalbyname "npkts_relayed".toList + E.getlvalbyname "npkts_played".toList) % 2 ^ 64
    let sessions_created : Nat := E.getlvalbyname "nsess_created".toList % 2 ^ 64
    let sessions_active : Int :=
      to_int32 ((sessions_created : Int) - (E.getlvalbyname "nsess_destroyed".toList : Int))
    let rtp_streams_active := E.rtp_streams_length
    let body :=
      "sessions created: ".toList ++ fmt_llu sessions_created ++ [LF] ++
      "active sessions: ".toList ++ fmt_d sessions_active ++ [LF] ++
      "active streams: ".toList ++ fmt_d rtp_streams_active ++ [LF] ++
      "packets received: ".toList ++ fmt_llu packets_in ++ [LF] ++
      "packets transmitted: ".toList ++ fmt_llu packets_out ++ [LF]
    let buf := if load ≠ 0 then body ++ "average load: ".toList ++ E.aload_text ++ [LF] else body
    if 0 < buf.length then rtpc_doreply cmd w buf buf.length 0 else (cmd, w)

/-- The modifier loop of DELETE: the value of `dopt.weak` after the
modifiers, or `none` at an unknown modifier. -/
def delete_mods : List Char → Int → Option Int
  | [], weak => some weak
  | c :: cs, _ => if c = 'w' ∨ c = 'W' then delete_mods cs 1 else none

/-- The modifier loop of GET_STATS: the value of `verbose` after the
modifiers, or `none` at an unknown modifier. -/
def get_stats_mods : List Char → Int → Option Int
  | [], verbose => some verbose
  | c :: cs, _ => if c = 'v' ∨ c = 'V' then get_stats_mods cs 1 else none

/-- The local variables of `handle_command` that live on after its first
switch, with the world and the calls made so far.  A variable that the
source leaves uninitialised on a path holds a default here; it is not read on
that path. -/
structure hc_locals where
  playcount : Int
  pname : Option (List Char)
  codecs : Option (List Char)
  recording_name : Option (List Char)
  record_single_file : Int
  weak : Int
  ulop : Nat
  w : World
  calls : List call_event
deriving DecidableEq, Repr

/-- The locals at the entry of `handle_command`. -/
def hc_locals_init (w : World) : hc_locals :=
  { playcount := 0, pname := none, codecs := none, recording_name := none,
    record_single_file := 0, weak := 0, ulop := 0, w := w, calls := [] }

/-- The result `return 0` with the outcome of a reply. -/
def hc_return (r : rtpp_command × World) (calls : List call_event) : cmd_result :=
  { rval := 0, cmd := r.1, w := r.2, calls := calls }

/-- Step II of `handle_command`, its first switch: the simple opcodes are
run and the modifiers of the others are parsed.  `Except.error` is the end
of the function inside the switch (an early `return 0`, or the NULL argument
of VER_FEATURE), `Except.ok` the `break` into the rest of the function. -/
def handle_command_parse (K : Consts) (E : Env) (cmd : rtpp_command) (w : World) :
    Except handle_outcome hc_locals :=
  let l := hc_locals_init w
  match cmd.cca.op with
  | rtpp_cmd_op.VER_FEATURE =>
    match handle_ver_feature E cmd w with
    | some r => Except.error (handle_outcome.returned (hc_return r []))
    | none => Except.error (handle_outcome.crashed cmd w [])
  | rtpp_cmd_op.GET_VER =>
    Except.error (handle_outcome.returned (hc_return (reply_number cmd w K.CPROTOVER) []))
  | rtpp_cmd_op.DELETE_ALL =>
    Except.error (handle_outcome.returned (hc_return (reply_ok cmd w)
      [call_event.sessions_wrt_purge, call_event.sessions_ht_purge]))
  | rtpp_cmd_op.INFO =>
    Except.error (handle_outcome.returned (hc_return (handle_info K E cmd w cmd.mods) []))
  | rtpp_cmd_op.PLAY =>
    let l1 := { l with playcount := 1, pname := cmd.argv 2, codecs := cmd.argv 3 }
    if cmd.mods.headD NUL ≠ NUL then
      let r := strtol10 cmd.mods
      if r.2 = cmd.mods ∨ r.2.headD NUL ≠ NUL then
        Except.error (handle_outcome.returned (hc_return (reply_error cmd w K.ECODE_PARSE_6) []))
      else Except.ok { l1 with playcount := to_int32 r.1 }
    else Except.ok l1
  | rtpp_cmd_op.COPY =>
    let l1 := { l with recording_name := cmd.argv 2 }
    if cmd.mods.headD NUL = 'S' ∨ cmd.mods.headD NUL = 's' then
      if cmd.mods.getD 1 NUL ≠ NUL then
        Except.error (handle_outcome.returned (hc_return (reply_error cmd w K.ECODE_PARSE_2) []))
      else Except.ok { l1 with record_single_file := if E.record_pcap = 0 then 0 else 1 }
    else
      if cmd.mods.headD NUL ≠ NUL then
        Except.error (handle_outcome.returned (hc_return (reply_error cmd w K.ECODE_PARSE_3) []))
      else Except.ok { l1 with record_single_file := 0 }
  | rtpp_cmd_op.RECORD =>
    if cmd.mods.headD NUL = 'S' ∨ cmd.mods.headD NUL = 's' then
      if cmd.mods.getD 1 NUL ≠ NUL then
        Except.error (handle_outcome.returned (hc_return (reply_error cmd w K.ECODE_PARSE_2) []))
      else Except.ok { l with record_single_file := if E.record_pcap = 0 then 0 else 1 }
    else
      if cmd.mods.headD NUL ≠ NUL then
        Except.error (handle_outcome.returned (hc_return (reply_error cmd w K.ECODE_PARSE_3) []))
      else Except.ok { l with record_single_file := 0 }
  | rtpp_cmd_op.DELETE =>
    match delete_mods cmd.mods 0 with
    | none =>
      Except.error (handle_outcome.returned (hc_return (reply_error cmd w K.ECODE_PARSE_4) []))
    | some weak => Except.ok { l with weak := weak }
  | rtpp_cmd_op.UPDATE | rtpp_cmd_op.LOOKUP =>
    let r := E.rtpp_command_ul_opts_parse cmd w
    match r.1 with
    | none =>
      Except.error (handle_outcome.returned
        { rval := 0, cmd := cmd, w := r.2,
          calls := [call_event.rtpp_command_ul_opts_parse cmd] })
    | some ulop =>
      Except.ok { l with ulop := ulop, w := r.2,
                         calls := [call_event.rtpp_command_ul_opts_parse cmd] }
  | rtpp_cmd_op.GET_STATS =>
    match get_stats_mods cmd.mods 0 with
    | none =>
      Except.error (handle_outcome.returned (hc_return (reply_error cmd w K.ECODE_PARSE_5) []))
    | some verbose =>
      let r := E.handle_get_stats cmd w verbose
      if r.1 ≠ 0 then
        Except.error (handle_outcome.returned
          (hc_return (reply_error cmd r.2 r.1) [call_event.handle_get_stats verbose]))
      else
        Except.error (handle_outcome.returned
          { rval := 0, cmd := cmd, w := r.2, calls := [call_event.handle_get_stats verbose] })
  | rtpp_cmd_op.NOPLAY | rtpp_cmd_op.QUERY => Except.ok l

/-- The second switch of `handle_command`: the session lookup.  Result: the
value of `i`, the session `spa`, the command (with `cmd->sp` set when a
stream was found) and the call made. -/
def handle_command_lookup (E : Env) (cmd : rtpp_command) (l : hc_locals) :
    Int × Option rtpp_session × rtpp_command × call_event :=
  match cmd.cca.op with
  | rtpp_cmd_op.DELETE =>
    (E.handle_delete cmd.cca l.weak, none, cmd, call_event.handle_delete cmd.cca l.weak)
  | rtpp_cmd_op.RECORD =>
    (E.handle_record cmd.cca l.record_single_file, none, cmd,
     call_event.handle_record cmd.cca l.record_single_file)
  | _ =>
    let r := E.find_stream cmd.cca.call_id cmd.cca.from_tag cmd.cca.to_tag
    let ev := call_event.find_stream cmd.cca.call_id cmd.cca.from_tag cmd.cca.to_tag
    if r.1 ≠ -1 then
      (if cmd.cca.op ≠ rtpp_cmd_op.UPDATE then NOT r.1 else r.1, r.2, { cmd with sp := r.2 }, ev)
    else (r.1, none, cmd, ev)

/-- The third switch of `handle_command`: the operation on the session that
was found (for UPDATE also when none was found).  PLAY hands its `codecs`
argument to `strcmp` without a test: with a NULL argument the function does
not return. -/
def handle_command_run (K : Consts) (E : Env) (cmd : rtpp_command) (l : hc_locals)
    (i : Int) (spa : Option rtpp_session) (calls : List call_event) : handle_outcome :=
  match cmd.cca.op with
  | rtpp_cmd_op.DELETE | rtpp_cmd_op.RECORD =>
    handle_outcome.returned (hc_return (reply_ok cmd l.w) calls)
  | rtpp_cmd_op.NOPLAY =>
    handle_outcome.returned (hc_return (reply_ok cmd l.w) (calls ++ [call_event.handle_noplay i]))
  | rtpp_cmd_op.PLAY =>
    let calls1 := calls ++ [call_event.handle_noplay i]
    match l.codecs with
    | none => handle_outcome.crashed cmd l.w calls1
    | some arg =>
      if arg = "session".toList ∧ (stream_at spa i).codecs = none then
        handle_outcome.returned (hc_return (reply_error cmd l.w K.ECODE_INVLARG_5) calls1)
      else
        let codecs := if arg = "session".toList then (stream_at spa i).codecs else some arg
        let ptime := if arg = "session".toList then (stream_at spa i).ptime else -1
        if l.playcount ≠ 0 then
          let calls2 := calls1 ++ [call_event.handle_play i codecs l.pname l.playcount ptime]
          if E.handle_play i codecs l.pname l.playcount ptime ≠ 0 then
            handle_outcome.returned (hc_return (reply_error cmd l.w K.ECODE_PLRFAIL) calls2)
          else handle_outcome.returned (hc_return (reply_ok cmd l.w) calls2)
        else handle_outcome.returned (hc_return (reply_ok cmd l.w) calls1)
  | rtpp_cmd_op.COPY =>
    let calls1 := calls ++ [call_event.handle_copy i l.recording_name l.record_single_file]
    if E.handle_copy i l.recording_name l.record_single_file ≠ 0 then
      handle_outcome.returned (hc_return (reply_error cmd l.w K.ECODE_CPYFAIL) calls1)
    else handle_outcome.returned (hc_return (reply_ok cmd l.w) calls1)
  | rtpp_cmd_op.QUERY =>
    let r := E.handle_query cmd l.w i
    let calls1 := calls ++ [call_event.handle_query i]
    if r.1 ≠ 0 then handle_outcome.returned (hc_return (reply_error cmd r.2 r.1) calls1)
    else handle_outcome.returned { rval := 0, cmd := cmd, w := r.2, calls := calls1 }
  | rtpp_cmd_op.LOOKUP | rtpp_cmd_op.UPDATE =>
    handle_outcome.returned
      { rval := 0, cmd := cmd, w := E.rtpp_command_ul_handle cmd l.w l.ulop i,
        calls := calls ++ [call_event.rtpp_command_ul_handle l.ulop i] }
  | _ => handle_outcome.aborted { rval := 0, cmd := cmd, w := l.w, calls := calls }

/-- The function `handle_command`. -/
def handle_command (K : Consts) (E : Env) (cmd : rtpp_command) (w : World) : handle_outcome :=
  match handle_command_parse K E cmd w with
  | Except.error o => o
  | Except.ok l =>
    let lk := handle_command_lookup E cmd l
    let i := lk.1
    let spa := lk.2.1
    let cmd1 := lk.2.2.1
    let calls := l.calls ++ [lk.2.2.2]
    if i = -1 ∧ cmd1.cca.op ≠ rtpp_cmd_op.UPDATE then
      if cmd1.cca.op = rtpp_cmd_op.LOOKUP then
        handle_outcome.returned
          { rval := 0, cmd := cmd1, w := E.ul_reply_port cmd1 l.w none,
            calls := calls ++ [call_event.rtpp_command_ul_opts_free l.ulop,
                               call_event.ul_reply_port none] }
      else
        handle_outcome.returned (hc_return (reply_error cmd1 l.w K.ECODE_SESUNKN) calls)
    else handle_command_run K E cmd1 l i spa calls

/-! ## Reference tokenization and the token-level view of the loop -/

/-- Whether a character is one of the separators CR, LF, TAB and space. -/
def is_sep (c : Char) : Bool := c == CR || c == LF || c == TAB || c == SP

/-- The reference split, after the words of the spec: the text is cut at
every separator and the empty pieces are dropped, which leaves the maximal
non-empty runs of characters other than CR, LF, TAB and space, in input
order. -/
def ref_tokens (s : List Char) : List (List Char) :=
  (s.splitOnP is_sep).filter (fun t => !t.isEmpty)

/-- A token as the claims use the word: a non-empty C string (so without NUL)
free of CR, LF, TAB and space. -/
def is_token (t : List Char) : Bool :=
  !t.isEmpty && t.all (fun c => c != NUL && !is_sep c)

/-- The text "t1 t2 .. tn": the tokens joined by single spaces. -/
def join_tokens (ts : List (List Char)) : List Char :=
  [SP].intercalate ts

/-- The token "&&". -/
def AMPAMP : List Char := ['&', '&']

/-- The loop of `rtpp_command_split` seen on the list of non-empty tokens:
the loop body is run on each token in turn, and when the tokens are used up
the final NULL is stored.  Used to reason about the loop. -/
def feed_tokens (K : Consts) : List (List Char) → split_state → split_exit
  | [], st => split_exit.eol (st.store none)
  | t :: ts, st =>
    match rtpp_command_split_body K t (st.store (some t)) with
    | split_step.next st1 => feed_tokens K ts st1
    | split_step.exit e => e

/-- The effect of the loop body on a state for an ordinary argument token:
the token is stored at `ap`, the count and `ap` move on by one. -/
def push_token (st : split_state) (t : List Char) : split_state :=
  { (st.store (some t)).inc_c with ap := st.ap + 1 }

/-- The state of the command and the world of the split_exit, whichever way
the loop was left. -/
def split_exit.st : split_exit → split_state
  | split_exit.eol st => st
  | split_exit.retrans st => st
  | split_exit.etoomany st => st

/-- The arguments held in a vector: its first `c` slots. -/
def rtpp_command_args.held (a : rtpp_command_args) : List (Option (List Char)) :=
  a.v.take a.c

/-- The slots of a vector after the tokens `ts` were stored from index `i`
on. -/
def store_tokens (v : List (Option (List Char))) (i : Nat) :
    List (List Char) → List (Option (List Char))
  | [] => v
  | t :: ts => store_tokens (v.set i (some t)) (i + 1) ts

/-- The state after the loop body has taken the ordinary argument tokens `ts`
one after the other. -/
def push_tokens (st : split_state) (ts : List (List Char)) : split_state :=
  match st.cap with
  | cap_t.args =>
    { st with
      ap := st.ap + ts.length,
      cmd := { st.cmd with
        args := { v := store_tokens st.cmd.args.v st.ap ts, c := st.cmd.args.c + ts.length } } }
  | cap_t.subc_args =>
    { st with
      ap := st.ap + ts.length,
      cmd := { st.cmd with
        subc_args := { v := store_tokens st.cmd.subc_args.v st.ap ts,
                       c := st.cmd.subc_args.c + ts.length } } }

/-- The cookie branch of the loop body is closed: the transport is a stream,
or an argument has been counted, or the cookie is set. -/
def cookie_off (st : split_state) : Prop :=
  ¬ (st.cmd.umode ≠ 0 ∧ st.cmd.args.c = 0 ∧ st.cmd.cookie = none)

/-- The switch to the sub-command vector that the loop body makes at a "&&"
token. -/
def switch_to_subc (st : split_state) : split_state :=
  { st.store none with cap := cap_t.subc_args, ap := 0 }


/-- The main part of a token list: the tokens before the first "&&". -/
def main_part (toks : List (List Char)) : List (List Char) :=
  toks.takeWhile (fun t => t != AMPAMP)

/-- The rest of a token list from the first "&&" on (empty when there is
none). -/
def amp_part (toks : List (List Char)) : List (List Char) :=
  toks.dropWhile (fun t => t != AMPAMP)

/-- The sub-command part of a token list: the tokens behind the first "&&". -/
def sub_part (toks : List (List Char)) : List (List Char) :=
  (amp_part toks).tail

/-- How the loop is left, in closed form, when it is fed the tokens `toks`
from a state `st` that fills the main vector with the cookie branch closed. -/
def plain_outcome (K : Consts) (st : split_state) (toks : List (List Char)) : split_exit :=
  if K.RTPC_MAX_ARGC ≤ st.ap + (main_part toks).length then
    split_exit.etoomany (push_tokens st ((main_part toks).take (K.RTPC_MAX_ARGC - st.ap)))
  else
    match amp_part toks with
    | [] => split_exit.eol ((push_tokens st (main_part toks)).store none)
    | _ :: sub =>
      if K.RTPC_MAX_ARGC ≤ sub.length then
        split_exit.etoomany
          (push_tokens (switch_to_subc (push_tokens st (main_part toks)))
            (sub.take K.RTPC_MAX_ARGC))
      else
        split_exit.eol
          ((push_tokens (switch_to_subc (push_tokens st (main_part toks))) sub).store none)

/-- The state in which the tokenizing loop is entered. -/
def split_start (cmd : rtpp_command) (w : World) : split_state :=
  { cmd := cmd, w := { w with csp := { w.csp with ncmds_rcvd := cnt_inc w.csp.ncmds_rcvd } },
    cap := cap_t.args, ap := 0 }

/-- The state of the loop after the first token `ck` of a datagram command
was taken as the cookie and the retransmit cache had no entry for it. -/
def cookie_state (cmd : rtpp_command) (w : World) (ck : List Char) : split_state :=
  { cmd := { cmd with args := { cmd.args with v := cmd.args.v.set 0 (some ck) },
                      cookie := some ck, rcache_obj := true },
    w := { w with csp := { w.csp with ncmds_rcvd := cnt_inc w.csp.ncmds_rcvd },
                  rcache_rcnt := w.rcache_rcnt + 1 },
    cap := cap_t.args, ap := 0 }

/-- The state in which the loop is left after the first token `ck` of a
datagram command was taken as the cookie and the retransmit cache answered
with `reply`. -/
def retrans_state (cmd : rtpp_command) (w : World) (ck reply : List Char) : split_state :=
  { cmd := { cmd with args := { cmd.args with v := cmd.args.v.set 0 (some ck) },
                      cookie := some ck, buf_r := reply },
    w := { w with
      sent := w.sent ++ [net_event.sendto cmd.controlfd reply reply.length cmd.raddr],
      csp := { w.csp with ncmds_rcvd := cnt_dec (cnt_inc w.csp.ncmds_rcvd),
                          ncmds_rcvd_ndups := cnt_inc w.csp.ncmds_rcvd_ndups } },
    cap := cap_t.args, ap := 0 }

/-! ## Sample values -/

/-- Sample constants: the values of the headers of the 2.x series. -/
def sample_consts : Consts :=
  { RTPC_MAX_ARGC := 20, ECODE_PARSE_1 := 1, ECODE_PARSE_2 := 2, ECODE_PARSE_3 := 3,
    ECODE_PARSE_4 := 4, ECODE_PARSE_5 := 5, ECODE_PARSE_6 := 6, ECODE_PARSE_7 := 7,
    ECODE_SESUNKN := 8, ECODE_INVLARG_5 := 15, ECODE_PLRFAIL := 60, ECODE_CPYFAIL := 65,
    CPROTOVER := 20040107 }

/-- A sample world: zero counters, an empty cache, nothing sent. -/
def sample_world : World :=
  { csp := { ncmds_rcvd := 0, ncmds_rcvd_ndups := 0, ncmds_succd := 0, ncmds_errs := 0,
             ncmds_repld := 0 },
    rcache := [], rcache_rcnt := 1, sent := [] }

/-- A sample environment: every collaborator succeeds and leaves the world
alone; no session is ever found. -/
def sample_env : Env :=
  { rtpp_command_pre_parse := fun c w => (0, c, w),
    rtpp_command_ul_opts_parse := fun _ w => (some 0, w),
    handle_get_stats := fun _ w _ => (0, w),
    handle_delete := fun _ _ => -1,
    handle_record := fun _ _ => -1,
    find_stream := fun _ _ _ => (-1, none),
    ul_reply_port := fun _ w _ => w,
    handle_play := fun _ _ _ _ _ => 0,
    handle_copy := fun _ _ _ => 0,
    handle_query := fun _ w _ => (0, w),
    rtpp_command_ul_handle := fun _ w _ _ => w,
    record_pcap := 0,
    tnset_isenabled := false,
    getlvalbyname := fun _ => 0,
    rtp_streams_length := 0,
    aload_text := [] }

/-- A sample cookie of 254 characters. -/
def sample_long_cookie : List Char := List.replicate 254 'c'

/-- A sample datagram command that carries the cookie `ck`, read from
descriptor 3 and sent from address 7. -/
def sample_dgram_command (ck : List Char) : rtpp_command :=
  { command_read sample_consts 3 0 1 7 [] with cookie := some ck, rcache_obj := true }

/-- The reply text "0\n". -/
def reply_text_ok : List Char := ['0', LF]

/-- The characters a token returned by `rtpp_strsep` consists of: neither NUL
nor a separator. -/
def tok_chars (tok : List Char) : Prop :=
  ∀ x ∈ tok, x ≠ NUL ∧ is_sep x = false

/-- The tokens that count as arguments: all of them on a stream, those
behind the cookie on a datagram. -/
def arg_tokens (umode : Int) (toks : List (List Char)) : List (List Char) :=
  if umode = 0 then toks else toks.tail

/-- The cookie of a command: none on a stream, the first token on a
datagram. -/
def cookie_token (umode : Int) (toks : List (List Char)) : Option (List Char) :=
  if umode = 0 then none else toks.head?

/-- What the tokenizing loop leaves behind when no retransmission was
detected, for a command `cmd` read into a world `w`, with cookie `cookie` and
argument tokens `atoks`; `e` is the way the loop was left. -/
structure split_outcome (K : Consts) (cmd : rtpp_command) (w : World)
    (cookie : Option (List Char)) (atoks : List (List Char)) (e : split_exit) : Prop where
  sent : e.st.w.sent = w.sent
  rcache : e.st.w.rcache = w.rcache
  csp : e.st.w.csp = { w.csp with ncmds_rcvd := cnt_inc w.csp.ncmds_rcvd }
  frame : e.st.cmd = { cmd with args := e.st.cmd.args, subc_args := e.st.cmd.subc_args,
                                cookie := cookie,
                                rcache_obj := if cookie.isSome then true else cmd.rcache_obj }
  args_c : e.st.cmd.args.c = min (main_part atoks).length K.RTPC_MAX_ARGC
  args_held : e.st.cmd.args.held = ((main_part atoks).take K.RTPC_MAX_ARGC).map some
  args_null : (main_part atoks).length < K.RTPC_MAX_ARGC →
    e.st.cmd.args.v[(main_part atoks).length]? = some none
  subc_c : e.st.cmd.subc_args.c =
    (if (main_part atoks).length < K.RTPC_MAX_ARGC
      then min (sub_part atoks).length K.RTPC_MAX_ARGC else 0)
  subc_held : e.st.cmd.subc_args.held =
    (if (main_part atoks).length < K.RTPC_MAX_ARGC
      then ((sub_part atoks).take K.RTPC_MAX_ARGC).map some else [])
  subc_null : (main_part atoks).length < K.RTPC_MAX_ARGC → amp_part atoks ≠ [] →
    (sub_part atoks).length < K.RTPC_MAX_ARGC →
    e.st.cmd.subc_args.v[(sub_part atoks).length]? = some none
  cap_subc : e.st.cap = cap_t.subc_args ↔
    (main_part atoks).length < K.RTPC_MAX_ARGC ∧ amp_part atoks ≠ []
  etoomany_iff : e = split_exit.etoomany e.st ↔
    K.RTPC_MAX_ARGC ≤ (main_part atoks).length ∨ K.RTPC_MAX_ARGC ≤ (sub_part atoks).length
  eol_iff : e = split_exit.eol e.st ↔
    (main_part atoks).length < K.RTPC_MAX_ARGC ∧ (sub_part atoks).length < K.RTPC_MAX_ARGC

/-- A sample buffer with leading, doubled and trailing separators:
" a  b<TAB>c<CR><LF>". -/
def sample_spaced_buffer : List Char :=
  [SP, 'a', SP, SP, 'b', TAB, 'c', CR, LF]

/-- A sample buffer with a NUL byte among the bytes read: "a<NUL>b c". -/
def sample_nul_buffer : List Char :=
  ['a', NUL, 'b', SP, 'c']

/-- A sample datagram: the cookie "ck" followed by 21 arguments "a". -/
def sample_long_datagram : List Char :=
  join_tokens ("ck".toList :: List.replicate 21 ['a'])

/-- The rejection conditions of the tokenizing stage, read off the tokens of
the input: the main argument vector is empty, or the transport is datagram
and there is no cookie token, or there is a "&&" with an empty sub-command
behind it, or one of the two argument vectors overflows.  (A "&&" behind an
overflowing main part is never reached; the overflow disjunct covers that
case.) -/
def reject_conditions (K : Consts) (umode : Int) (toks : List (List Char)) : Bool :=
  (main_part (arg_tokens umode toks)).isEmpty ||
  (umode != 0 && (cookie_token umode toks).isNone) ||
  (!(amp_part (arg_tokens umode toks)).isEmpty && (sub_part (arg_tokens umode toks)).isEmpty) ||
  decide (K.RTPC_MAX_ARGC ≤ (main_part (arg_tokens umode toks)).length) ||
  decide (K.RTPC_MAX_ARGC ≤ (sub_part (arg_tokens umode toks)).length)

/-- What `rtpp_command_split` returns when it rejects the command in state
`st`: the outcome of `reply_error(cmd, ECODE_PARSE_1)`, the value 1 and no
call. -/
def split_rejected (K : Consts) (st : split_state) : cmd_result :=
  { rval := 1, cmd := (reply_error st.cmd st.w K.ECODE_PARSE_1).1,
    w := (reply_error st.cmd st.w K.ECODE_PARSE_1).2, calls := [] }

/-- What `rtpp_command_split` returns when it hands the command in state `st`
to pre-parse. -/
def split_pre_parsed (E : Env) (st : split_state) : cmd_result :=
  { rval := if (E.rtpp_command_pre_parse st.cmd st.w).1 ≠ 0 then 1 else 0,
    cmd := (E.rtpp_command_pre_parse st.cmd st.w).2.1,
    w := (E.rtpp_command_pre_parse st.cmd st.w).2.2,
    calls := [call_event.rtpp_command_pre_parse st.cmd] }

/-- A sample stream line of 20 tokens. -/
def sample_twenty_tokens : List Char :=
  join_tokens (List.replicate 20 ['a'])

/-- A sample stream line of 19 tokens. -/
def sample_nineteen_tokens : List Char :=
  join_tokens (List.replicate 19 ['a'])

/-- The reply text "E1\n". -/
def reply_text_E1 : List Char := ['E', '1', LF]

/-- The session lookup of `handle_command` fails: `handle_delete` (for
DELETE), `handle_record` (for RECORD) or `find_stream` (for every other
opcode) yields -1. -/
def lookup_fails (E : Env) (cmd : rtpp_command) (l : hc_locals) : Prop :=
  match cmd.cca.op with
  | rtpp_cmd_op.DELETE => E.handle_delete cmd.cca l.weak = -1
  | rtpp_cmd_op.RECORD => E.handle_record cmd.cca l.record_single_file = -1
  | _ => (E.find_stream cmd.cca.call_id cmd.cca.from_tag cmd.cca.to_tag).1 = -1

/-- The lookup call that `handle_command` makes for the command. -/
def lookup_call (cmd : rtpp_command) (l : hc_locals) : call_event :=
  match cmd.cca.op with
  | rtpp_cmd_op.DELETE => call_event.handle_delete cmd.cca l.weak
  | rtpp_cmd_op.RECORD => call_event.handle_record cmd.cca l.record_single_file
  | _ => call_event.find_stream cmd.cca.call_id cmd.cca.from_tag cmd.cca.to_tag

/-- A sample stream command after pre-parse: opcode `op`, the argument
tokens `args`, call-id "cid" and from-tag "ft". -/
def sample_stream_command (op : rtpp_cmd_op) (args : List (List Char)) : rtpp_command :=
  { command_read sample_consts 3 0 0 7 [] with
    cca := { op := op, rname := [], call_id := "cid".toList, from_tag := "ft".toList,
             to_tag := none },
    args := { v := args.map some ++ List.replicate (20 - args.length) none,
              c := args.length } }

/-- The sample command "D cid ft" on a stream. -/
def sample_delete_command : rtpp_command :=
  sample_stream_command rtpp_cmd_op.DELETE [['D'], "cid".toList, "ft".toList]

/-- The sample command "U cid 1.2.3.4 5000 ft" on a stream. -/
def sample_update_command : rtpp_command :=
  sample_stream_command rtpp_cmd_op.UPDATE
    [['U'], "cid".toList, "1.2.3.4".toList, "5000".toList, "ft".toList]

/-- The reply text "1\n". -/
def reply_text_one : List Char := ['1', LF]

/-- The feature probe "VF <id>" on a stream. -/
def sample_ver_feature_command (id : List Char) : rtpp_command :=
  sample_stream_command rtpp_cmd_op.VER_FEATURE [['V', 'F'], id]

/-- A sample session: the first stream has the recorded codecs "0,8" and the
packet time 20, the second stream has no recorded codecs. -/
def sample_session : rtpp_session :=
  { stream0 := { codecs := some "0,8".toList, ptime := 20 },
    stream1 := { codecs := none, ptime := -1 } }

/-- A sample environment in which the session exists: `handle_delete` and
`handle_record` return 0, `find_stream` returns `idx` with `sample_session`,
and PCAP recording is configured. -/
def sample_env_found (idx : Int) : Env :=
  { sample_env with
    handle_delete := fun _ _ => 0,
    handle_record := fun _ _ => 0,
    find_stream := fun _ _ _ => (idx, some sample_session),
    record_pcap := 1 }

/-- The sample command "Dw cid ft" on a stream. -/
def sample_delete_weak_command : rtpp_command :=
  sample_stream_command rtpp_cmd_op.DELETE [['D', 'w'], "cid".toList, "ft".toList]

/-- The sample command "X" (DELETE_ALL) on a stream. -/
def sample_delete_all_command : rtpp_command :=
  sample_stream_command rtpp_cmd_op.DELETE_ALL [['X']]

/-- The sample command "P cid prompt session ft" on a stream: play the prompt
once with the codecs recorded for the session. -/
def sample_play_session_command : rtpp_command :=
  sample_stream_command rtpp_cmd_op.PLAY
    [['P'], "cid".toList, "prompt".toList, "session".toList, "ft".toList]

/-- The sample command "P3 cid prompt 0,8 ft" on a stream: play the prompt
three times with the codecs "0,8". -/
def sample_play_codecs_command : rtpp_command :=
  sample_stream_command rtpp_cmd_op.PLAY
    [['P', '3'], "cid".toList, "prompt".toList, "0,8".toList, "ft".toList]

/-- A string that `strtol` converts completely in base 10: optional white
space (of the white space characters only `\v` and `\f` can stand inside a
token), an optional sign `+` or `-`, then at least one decimal digit, and
nothing behind. -/
def is_int10 (s : List Char) : Bool :=
  let s1 := s.dropWhile c_isspace
  let s2 := if s1.head? == some '-' || s1.head? == some '+' then s1.tail else s1
  !s2.isEmpty && s2.all Char.isDigit

/-- The sample command "Ix" on a stream: INFO with the unknown modifier x. -/
def sample_info_bad_command : rtpp_command :=
  sample_stream_command rtpp_cmd_op.INFO [['I', 'x']]

/-- The sample command "P3x cid prompt session ft" on a stream: PLAY whose
modifier is not a complete integer. -/
def sample_play_bad_command : rtpp_command :=
  sample_stream_command rtpp_cmd_op.PLAY
    [['P', '3', 'x'], "cid".toList, "prompt".toList, "session".toList, "ft".toList]

/-- An integer written in base 10, after the words of the claim on the PLAY
modifier: an optional sign and at least one decimal digit, nothing else. -/
def is_decimal_integer (s : List Char) : Bool :=
  let s2 := if s.head? == some '-' || s.head? == some '+' then s.tail else s
  !s2.isEmpty && s2.all Char.isDigit

/-- The sample command "P0 cid prompt 0,8 ft" on a stream: PLAY with the play
count 0. -/
def sample_play_zero_command : rtpp_command :=
  sample_stream_command rtpp_cmd_op.PLAY
    [['P', '0'], "cid".toList, "prompt".toList, "0,8".toList, "ft".toList]

/-- The sample command "P4294967296 cid prompt 0,8 ft" on a stream: PLAY with
a number that `strtol` reads in full and that becomes 0 when it is stored in
the `int` variable `playcount`. -/
def sample_play_wrap_command : rtpp_command :=
  sample_stream_command rtpp_cmd_op.PLAY
    ["P4294967296".toList, "cid".toList, "prompt".toList, "0,8".toList, "ft".toList]

/-- The sample command "P<VT>5 cid prompt 0,8 ft" on a stream, where <VT> is
the vertical tab (11), a white space character that does not end a token. -/
def sample_play_vt_command : rtpp_command :=
  sample_stream_command rtpp_cmd_op.PLAY
    [['P', Char.ofNat 11, '5'], "cid".toList, "prompt".toList, "0,8".toList, "ft".toList]

/-- A sample environment in which the session exists and recording is not in
the PCAP format (`record_pcap` is 0). -/
def sample_env_nopcap : Env := { sample_env_found 1 with record_pcap := 0 }

/-- The sample command "RS cid ft" on a stream: RECORD, single file. -/
def sample_record_single_command : rtpp_command :=
  sample_stream_command rtpp_cmd_op.RECORD [['R', 'S'], "cid".toList, "ft".toList]

/-- The sample command "Cs cid rec ft" on a stream: COPY, single file. -/
def sample_copy_single_command : rtpp_command :=
  sample_stream_command rtpp_cmd_op.COPY
    [['C', 's'], "cid".toList, "rec".toList, "ft".toList]

/-! ## The twin listener -/

/-- Constants that `create_twinlistener` takes from headers that are not
among the sources: the results of a port-table callback, two `errno` values
and the address family of IPv4. -/
structure TwinConsts where
  RTPP_PTU_OK : Int
  RTPP_PTU_ONEMORE : Int
  RTPP_PTU_BRKERR : Int
  EADDRINUSE : Int
  EACCES : Int
  AF_INET : Int
deriving DecidableEq, Repr

/-- The three results of a port-table callback are different values. -/
def TwinConsts.distinct (T : TwinConsts) : Prop :=
  T.RTPP_PTU_OK ≠ T.RTPP_PTU_ONEMORE ∧ T.RTPP_PTU_OK ≠ T.RTPP_PTU_BRKERR ∧
  T.RTPP_PTU_ONEMORE ≠ T.RTPP_PTU_BRKERR

instance (T : TwinConsts) : Decidable T.distinct := by
  unfold TwinConsts.distinct
  infer_instance

/-- What the socket layer answers to `create_twinlistener`, and the
configuration it reads.  A socket is named by the index `i` of the slot
`fds[i]` it is created for.  `bind` gives the result of the method and the
`errno` it leaves. -/
structure SockEnv where
  sa_family : Int
  tos : Int
  rtpp_socket_ctor : Nat → Bool
  bind : Nat → Nat → Int × Int
  settos : Nat → Int → Int
  setrbuf : Nat → Int → Int

/-- The error messages `create_twinlistener` logs. -/
inductive twin_elog where
  | cant_create_socket
  | cant_bind (port : Nat)
  | unable_to_set_tos (tos : Int)
  | unable_to_set_rbuf
deriving DecidableEq, Repr

/-- The calls `create_twinlistener` makes.  `rtpp_socket_ctor i ok` is the
creation for slot `i`, `ok` telling whether a socket came back; `bind i port`
is the bind of that socket to the address `ia` with the port replaced by
`port`; `decref i` drops the reference of that socket; `elog` is a call of
`RTPP_ELOG`. -/
inductive sock_event where
  | rtpp_socket_ctor (i : Nat) (ok : Bool)
  | bind (i : Nat) (port : Nat)
  | settos (i : Nat) (tos : Int)
  | setrbuf (i : Nat) (so_rcvbuf : Int)
  | setnonblock (i : Nat)
  | settimestamp (i : Nat)
  | decref (i : Nat)
  | elog (msg : twin_elog)
deriving DecidableEq, Repr

/-- The parts of `struct create_twinlistener_args` that are written: the two
slots `fds[0]` and `fds[1]` (NULL or a socket) and the caller's variable
`*port`. -/
structure create_twinlistener_args where
  fds0 : Option Nat
  fds1 : Option Nat
  port : Int
deriving DecidableEq, Repr

/-- The slot `fds[i]`. -/
def create_twinlistener_args.fds (a : create_twinlistener_args) (i : Nat) : Option Nat :=
  if i = 0 then a.fds0 else a.fds1

/-- The assignment `fds[i] = v`. -/
def create_twinlistener_args.set_fds (a : create_twinlistener_args) (i : Nat)
    (v : Option Nat) : create_twinlistener_args :=
  if i = 0 then { a with fds0 := v } else { a with fds1 := v }

/-- The state `create_twinlistener` works on: the arguments and the calls
made so far. -/
structure twin_state where
  ctap : create_twinlistener_args
  events : List sock_event
deriving DecidableEq, Repr

/-- One round of the loop of `create_twinlistener`, for the slot `i` and the
current value of the 16-bit variable `port`.  `Except.error rval` is the
`goto failure` with the value of `rval` at that point, `Except.ok` carries
the value of `port` after `port++`. -/
def create_twinlistener_round (T : TwinConsts) (S : SockEnv) (i : Nat) (port : Nat)
    (st : twin_state) : Except (Int × twin_state) (Nat × twin_state) :=
  if S.rtpp_socket_ctor i = false then
    Except.error (T.RTPP_PTU_BRKERR,
      { ctap := st.ctap.set_fds i none,
        events := st.events ++ [sock_event.rtpp_socket_ctor i false,
                                sock_event.elog twin_elog.cant_create_socket] })
  else
    let st1 : twin_state :=
      { ctap := st.ctap.set_fds i (some i),
        events := st.events ++ [sock_event.rtpp_socket_ctor i true, sock_event.bind i port] }
    if (S.bind i port).1 ≠ 0 then
      if (S.bind i port).2 ≠ T.EADDRINUSE ∧ (S.bind i port).2 ≠ T.EACCES then
        Except.error (T.RTPP_PTU_BRKERR,
          { st1 with events := st1.events ++ [sock_event.elog (twin_elog.cant_bind port)] })
      else Except.error (T.RTPP_PTU_ONEMORE, st1)
    else
      let port1 := (port + 1) % 2 ^ 16
      let tos_events :=
        if S.sa_family = T.AF_INET ∧ 0 ≤ S.tos then
          if S.settos i S.tos = -1 then
            [sock_event.settos i S.tos, sock_event.elog (twin_elog.unable_to_set_tos S.tos)]
          else [sock_event.settos i S.tos]
        else []
      let rbuf_events :=
        if S.setrbuf i (256 * 1024) = -1 then
          [sock_event.setrbuf i (256 * 1024), sock_event.elog twin_elog.unable_to_set_rbuf]
        else [sock_event.setrbuf i (256 * 1024)]
      Except.ok (port1,
        { st1 with
          events := st1.events ++ tos_events ++ rbuf_events ++
            [sock_event.setnonblock i, sock_event.settimestamp i] })

/-- The loop `for (i = 0; i < 2; i++)` of `create_twinlistener`, with `n`
rounds left. -/
def create_twinlistener_loop (T : TwinConsts) (S : SockEnv) :
    Nat → Nat → Nat → twin_state → Except (Int × twin_state) (Nat × twin_state)
  | 0, _, port, st => Except.ok (port, st)
  | n + 1, i, port, st =>
    match create_twinlistener_round T S i port st with
    | Except.error e => Except.error e
    | Except.ok r => create_twinlistener_loop T S n (i + 1) r.1 r.2

/-- One round of the loop behind the label `failure`: a slot that holds a
socket drops its reference and is set to NULL. -/
def create_twinlistener_release (st : twin_state) (i : Nat) : twin_state :=
  match st.ctap.fds i with
  | some s => { ctap := st.ctap.set_fds i none, events := st.events ++ [sock_event.decref s] }
  | none => st

/-- The function `create_twinlistener`.  The parameter `port` is a
`uint16_t`, `port - 2` is computed in `int`.  The result is the return value
with the arguments as they are left and the calls made. -/
def create_twinlistener (T : TwinConsts) (S : SockEnv) (port : Nat)
    (ctap : create_twinlistener_args) : Int × twin_state :=
  let st0 : twin_state := { ctap := { ctap with fds0 := none, fds1 := none }, events := [] }
  match create_twinlistener_loop T S 2 0 (port % 2 ^ 16) st0 with
  | Except.error e =>
    (e.1, create_twinlistener_release (create_twinlistener_release e.2 0) 1)
  | Except.ok r =>
    (T.RTPP_PTU_OK, { r.2 with ctap := { r.2.ctap with port := (r.1 : Int) - 2 } })

/-- A step of an attempt that can fail: the creation of the socket for slot
`i`, or its bind, which leaves an `errno`. -/
inductive twin_failure where
  | socket_ctor (i : Nat)
  | bind (i : Nat) (errno : Int)
deriving DecidableEq, Repr

/-- The first failing step of an attempt at the candidate port `p`, after the
words of the claim: the steps are, in this order, the creation of the first
socket, its bind to `p`, the creation of the second socket and its bind to
the next port; `none` when all four succeed. -/
def first_failure (S : SockEnv) (p : Nat) : Option twin_failure :=
  if S.rtpp_socket_ctor 0 = false then some (twin_failure.socket_ctor 0)
  else if (S.bind 0 p).1 ≠ 0 then some (twin_failure.bind 0 (S.bind 0 p).2)
  else if S.rtpp_socket_ctor 1 = false then some (twin_failure.socket_ctor 1)
  else if (S.bind 1 ((p + 1) % 2 ^ 16)).1 ≠ 0 then
    some (twin_failure.bind 1 (S.bind 1 ((p + 1) % 2 ^ 16)).2)
  else none

/-- Modelled from the spec: the candidates that the port-pair allocator hands
to its callback (the port table, rtpp_port_table.c, is not among the
sources).  The allocator searches pairs of consecutive even/odd ports and
iterates over candidate base ports, the lower port of a pair being the even
one: a candidate is an even 16-bit port. -/
def port_table_candidate (p : Nat) : Prop := p < 2 ^ 16 ∧ p % 2 = 0

instance (p : Nat) : Decidable (port_table_candidate p) := by
  unfold port_table_candidate
  infer_instance

/-- Whether a call is a bind. -/
def sock_event.is_bind : sock_event → Bool
  | sock_event.bind _ _ => true
  | _ => false

/-- Sample constants: the values of Linux and of the port table. -/
def sample_twin_consts : TwinConsts :=
  { RTPP_PTU_OK := 0, RTPP_PTU_ONEMORE := 1, RTPP_PTU_BRKERR := -1,
    EADDRINUSE := 98, EACCES := 13, AF_INET := 2 }

/-- A sample socket layer on IPv4 with TOS 184 in which every step
succeeds. -/
def sample_sock_env : SockEnv :=
  { sa_family := 2, tos := 184,
    rtpp_socket_ctor := fun _ => true,
    bind := fun _ _ => (0, 0),
    settos := fun _ _ => 0,
    setrbuf := fun _ _ => 0 }

/-- A sample socket layer in which the port 35001 is in use: a bind to it
fails with `EADDRINUSE`; TOS and receive buffer cannot be set. -/
def sample_sock_env_busy : SockEnv :=
  { sample_sock_env with
    bind := fun _ port => if port = 35001 then (-1, 98) else (0, 0),
    settos := fun _ _ => -1,
    setrbuf := fun _ _ => -1 }

/-- Sample arguments: two stale slots and the caller's port variable at 7. -/
def sample_twin_args : create_twinlistener_args :=
  { fds0 := some 5, fds1 := none, port := 7 }

/-- The calls of a round that got past the bind: TOS, receive buffer,
non-blocking mode and timestamps, with the messages logged. -/
def round_tail (T : TwinConsts) (S : SockEnv) (i : Nat) : List sock_event :=
  (if S.sa_family = T.AF_INET ∧ 0 ≤ S.tos then
      if S.settos i S.tos = -1 then
        [sock_event.settos i S.tos, sock_event.elog (twin_elog.unable_to_set_tos S.tos)]
      else [sock_event.settos i S.tos]
    else []) ++
  (if S.setrbuf i (256 * 1024) = -1 then
      [sock_event.setrbuf i (256 * 1024), sock_event.elog twin_elog.unable_to_set_rbuf]
    else [sock_event.setrbuf i (256 * 1024)]) ++
  [sock_event.setnonblock i, sock_event.settimestamp i]

/-- The result that belongs to the first failing step of an attempt. -/
def twin_rval (T : TwinConsts) : Option twin_failure → Int
  | none => T.RTPP_PTU_OK
  | some (twin_failure.socket_ctor _) => T.RTPP_PTU_BRKERR
  | some (twin_failure.bind _ errno) =>
    if errno ≠ T.EADDRINUSE ∧ errno ≠ T.EACCES then T.RTPP_PTU_BRKERR else T.RTPP_PTU_ONEMORE

/-- The message logged for a failed bind, if any. -/
def bind_elog (T : TwinConsts) (errno : Int) (port : Nat) : List sock_event :=
  if errno ≠ T.EADDRINUSE ∧ errno ≠ T.EACCES then [sock_event.elog (twin_elog.cant_bind port)]
  else []

/-- The state `create_twinlistener` leaves, by the first failing step of the
attempt at the port `q`. -/
def twin_final (T : TwinConsts) (S : SockEnv) (q : Nat) (ctap : create_twinlistener_args) :
    twin_state :=
  let cleared : create_twinlistener_args := { fds0 := none, fds1 := none, port := ctap.port }
  let q1 := (q + 1) % 2 ^ 16
  let first := [sock_event.rtpp_socket_ctor 0 true, sock_event.bind 0 q]
  let second := [sock_event.rtpp_socket_ctor 1 true, sock_event.bind 1 q1]
  match first_failure S q with
  | some (twin_failure.socket_ctor 0) =>
    { ctap := cleared,
      events := [sock_event.rtpp_socket_ctor 0 false,
                 sock_event.elog twin_elog.cant_create_socket] }
  | some (twin_failure.bind 0 errno) =>
    { ctap := cleared, events := first ++ bind_elog T errno q ++ [sock_event.decref 0] }
  | some (twin_failure.socket_ctor _) =>
    { ctap := cleared,
      events := first ++ round_tail T S 0 ++
        [sock_event.rtpp_socket_ctor 1 false, sock_event.elog twin_elog.cant_create_socket,
         sock_event.decref 0] }
  | some (twin_failure.bind _ errno) =>
    { ctap := cleared,
      events := first ++ round_tail T S 0 ++ second ++ bind_elog T errno q1 ++
        [sock_event.decref 0, sock_event.decref 1] }
  | none =>
    { ctap := { fds0 := some 0, fds1 := some 1, port := (((q1 + 1) % 2 ^ 16 : Nat) : Int) - 2 },
      events := first ++ round_tail T S 0 ++ second ++ round_tail T S 1 }

/-! ## The replies of GET_VER and INFO, and one reply per command -/

/-- A sample GET_VER command ("ck V") that arrived in a datagram with the
cookie `ck`. -/
def sample_get_ver_dgram (ck : List Char) : rtpp_command :=
  { sample_dgram_command ck with
    cca := { (sample_dgram_command ck).cca with op := rtpp_cmd_op.GET_VER } }

/-- A text made of lines, each ended by a newline. -/
def lines_text (ls : List (List Char)) : List Char :=
  ls.foldr (fun l acc => l ++ LF :: acc) []

/-- The lines of the INFO reply after the words of the claim, for the counter
values C, A, S, R and T. -/
def info_lines (C : Nat) (A S : Int) (R T : Nat) : List (List Char) :=
  ["sessions created: ".toList ++ fmt_llu C,
   "active sessions: ".toList ++ fmt_d A,
   "active streams: ".toList ++ fmt_d S,
   "packets received: ".toList ++ fmt_llu R,
   "packets transmitted: ".toList ++ fmt_llu T]

/-- The body of the INFO reply after the words of the claim: C is
`nsess_created`, A is `nsess_created - nsess_destroyed` as a signed 32-bit
int, S the length of the table of RTP streams, R is `npkts_rcvd` and T is
`npkts_relayed + npkts_played`, the three unsigned ones being 64-bit values;
the line with the average load, whose number comes from the environment, is
there if `with_load` says so. -/
def info_text (E : Env) (with_load : Bool) : List Char :=
  lines_text
    (info_lines (E.getlvalbyname "nsess_created".toList % 2 ^ 64)
        (to_int32 ((E.getlvalbyname "nsess_created".toList : Int) -
          (E.getlvalbyname "nsess_destroyed".toList : Int)))
        E.rtp_streams_length
        (E.getlvalbyname "npkts_rcvd".toList % 2 ^ 64)
        ((E.getlvalbyname "npkts_relayed".toList + E.getlvalbyname "npkts_played".toList)
          % 2 ^ 64) ++
      (if with_load = true then ["average load: ".toList ++ E.aload_text] else []))

/-- Whether a modifier string of INFO asks for the load: it contains 'l' or
'L'. -/
def info_wants_load (opts : List Char) : Bool :=
  opts.any (fun c => c == 'l' || c == 'L')

/-- A sample environment with counters: 12 sessions created, 5 destroyed, 7
streams, 1000 packets received, 900 relayed and 50 played, load "0.250000". -/
def sample_env_stats : Env :=
  { sample_env with
    getlvalbyname := fun name =>
      if name = "nsess_created".toList then 12
      else if name = "nsess_destroyed".toList then 5
      else if name = "npkts_rcvd".toList then 1000
      else if name = "npkts_relayed".toList then 900
      else if name = "npkts_played".toList then 50
      else 0,
    rtp_streams_length := 7,
    aload_text := "0.250000".toList }

/-- The sample command "IbL" on a stream: INFO, brief, with the load. -/
def sample_info_command : rtpp_command :=
  sample_stream_command rtpp_cmd_op.INFO [['I', 'b', 'L']]

/-- The outcome `o` of `handle_command` on the command `cmd` and the world
`w` is a `return 0` after exactly one call of `rtpc_doreply`: the command and
the world left behind are those that one call leaves when made on `w` for
this command (with `cmd->sp` set or not). -/
def replied_once (cmd : rtpp_command) (w : World) (o : handle_outcome) : Prop :=
  ∃ (calls : List call_event) (sp : Option rtpp_session) (buf : List Char) (len : Nat)
    (errd : Int),
    o = handle_outcome.returned
      { rval := 0,
        cmd := (rtpc_doreply { cmd with sp := sp } w buf len errd).1,
        w := (rtpc_doreply { cmd with sp := sp } w buf len errd).2,
        calls := calls }

/-! ## The stores of the tokenizing loop -/

/-- The stores into an argument vector that one iteration of the tokenizing
loop makes, each given as the vector and the index stored at: the store
`*ap = rtpp_strsep(..)` of the loop condition and, in the "&&" branch, the
store `*ap = NULL`. -/
def rtpp_command_split_iter_stores (cp : Option (List Char)) (st : split_state) :
    List (cap_t × Nat) :=
  match (rtpp_strsep cp split_delims).1 with
  | none => [(st.cap, st.ap)]
  | some tok =>
    if tok.headD NUL != NUL then
      if st.cap = cap_t.args ∧ st.cmd.umode ≠ 0 ∧ st.cmd.args.c = 0 ∧ st.cmd.cookie = none then
        [(st.cap, st.ap)]
      else if st.cap = cap_t.args ∧ ISAMPAMP tok = true then
        [(st.cap, st.ap), (st.cap, st.ap)]
      else [(st.cap, st.ap)]
    else [(st.cap, st.ap)]

/-- The stores into the argument vectors that the tokenizing loop makes in at
most `fuel` iterations, in order. -/
def rtpp_command_split_stores (K : Consts) :
    Nat → Option (List Char) → split_state → List (cap_t × Nat)
  | 0, _, _ => []
  | fuel + 1, cp, st =>
    rtpp_command_split_iter_stores cp st ++
      (match rtpp_command_split_iter K cp st with
       | (split_step.next st1, cp1) => rtpp_command_split_stores K fuel cp1 st1
       | (split_step.exit _, _) => [])

/-- The stores of the tokenizing stage of `rtpp_command_split`, which runs
the loop with the fuel of `rtpp_command_split_tokenize`. -/
def rtpp_command_split_tokenize_stores (K : Consts) (cmd : rtpp_command) (w : World) :
    List (cap_t × Nat) :=
  let w1 := { w with csp := { w.csp with ncmds_rcvd := cnt_inc w.csp.ncmds_rcvd } }
  rtpp_command_split_stores K (cmd.buf.length + 2) (some cmd.buf)
    { cmd := cmd, w := w1, cap := cap_t.args, ap := 0 }

/-- What holds at the head of every iteration of the tokenizing loop: `ap`
points into the current vector, at the slot of its count; while the loop is
in `args` the count of `subc_args` is 0, and once it is in `subc_args` the
vector `args` is terminated at its count. -/
def split_inv (K : Consts) (st : split_state) : Prop :=
  st.ap < K.RTPC_MAX_ARGC ∧
  st.cmd.args.v.length = K.RTPC_MAX_ARGC ∧
  st.cmd.subc_args.v.length = K.RTPC_MAX_ARGC ∧
  (st.cap = cap_t.args → st.ap = st.cmd.args.c ∧ st.cmd.subc_args.c = 0) ∧
  (st.cap = cap_t.subc_args →
    st.ap = st.cmd.subc_args.c ∧ st.cmd.args.c < K.RTPC_MAX_ARGC ∧
    st.cmd.args.v.get? st.cmd.args.c = some none)

/-- Each vector that was used is terminated: `args.v[args.c]` is NULL with
`args.c` below `RTPC_MAX_ARGC`, and the same for `subc_args` when the loop
has gone over to it, that is when a "&&" was seen. -/
def vectors_terminated (K : Consts) (st : split_state) : Prop :=
  st.cmd.args.c < K.RTPC_MAX_ARGC ∧ st.cmd.args.v.get? st.cmd.args.c = some none ∧
  (st.cap = cap_t.subc_args →
    st.cmd.subc_args.c < K.RTPC_MAX_ARGC ∧
    st.cmd.subc_args.v.get? st.cmd.subc_args.c = some none)

/-! ## The finalizer of `rtpp_pcount` -/

/-- The four methods of `struct rtpp_pcount` that rtpp_pcount_fin.c names. -/
inductive pcount_method where
  | get_stats
  | reg_drop
  | reg_ignr
  | reg_reld
deriving DecidableEq, Repr

/-- The value of a method slot: NULL, the address of the trap thunk
`rtpp_pcount_<m>_fin` of the method `m`, or any other address. -/
inductive method_ptr where
  | NULL
  | fin (m : pcount_method)
  | addr (a : Nat)
deriving DecidableEq, Repr

/-- The method slots of `struct rtpp_pcount`. -/
structure rtpp_pcount where
  get_stats : method_ptr
  reg_drop : method_ptr
  reg_ignr : method_ptr
  reg_reld : method_ptr
deriving DecidableEq, Repr

/-- What a trap thunk does: the diagnostic on stderr, which names the object
and the method, and the trap. -/
inductive fin_event where
  | fprintf_stderr (pub : Nat) (m : pcount_method)
  | autotrap
deriving DecidableEq, Repr

/-- The surroundings of the finalizer code: what was done so far, and the
counter `_naborts`. -/
structure fin_world where
  events : List fin_event
  naborts : Int
deriving DecidableEq, Repr

/-- Modelled from the spec: the macro `RTPP_AUTOTRAP` is defined in
rtpp_debug.h, which is not among the sources.  The spec says a dispatched
call after destruction prints a diagnostic and then traps; in the build of
the finalizer tests the run goes on after a trap, which is counted in
`_naborts`, the counter `rtpp_pcount_fintest` asserts on. -/
def RTPP_AUTOTRAP (s : fin_world) : fin_world :=
  { events := s.events ++ [fin_event.autotrap], naborts := s.naborts + 1 }

/-- The trap thunk `rtpp_pcount_get_stats_fin(pub)`. -/
def rtpp_pcount_get_stats_fin (pub : Nat) (s : fin_world) : fin_world :=
  RTPP_AUTOTRAP
    { s with events := s.events ++ [fin_event.fprintf_stderr pub pcount_method.get_stats] }

/-- The trap thunk `rtpp_pcount_reg_drop_fin(pub)`. -/
def rtpp_pcount_reg_drop_fin (pub : Nat) (s : fin_world) : fin_world :=
  RTPP_AUTOTRAP
    { s with events := s.events ++ [fin_event.fprintf_stderr pub pcount_method.reg_drop] }

/-- The trap thunk `rtpp_pcount_reg_ignr_fin(pub)`. -/
def rtpp_pcount_reg_ignr_fin (pub : Nat) (s : fin_world) : fin_world :=
  RTPP_AUTOTRAP
    { s with events := s.events ++ [fin_event.fprintf_stderr pub pcount_method.reg_ignr] }

/-- The trap thunk `rtpp_pcount_reg_reld_fin(pub)`. -/
def rtpp_pcount_reg_reld_fin (pub : Nat) (s : fin_world) : fin_world :=
  RTPP_AUTOTRAP
    { s with events := s.events ++ [fin_event.fprintf_stderr pub pcount_method.reg_reld] }

/-- The function `rtpp_pcount_fin`.  `dbg` tells whether `RTPP_DBG_ASSERT`
(of rtpp_debug.h, not among the sources) checks its condition; `none` is a
failed assertion. -/
def rtpp_pcount_fin (dbg : Bool) (pub : rtpp_pcount) : Option rtpp_pcount :=
  if dbg = true ∧ (pub.get_stats = method_ptr.NULL ∨
      pub.get_stats = method_ptr.fin pcount_method.get_stats) then none
  else
    let pub1 := { pub with get_stats := method_ptr.fin pcount_method.get_stats }
    if dbg = true ∧ (pub1.reg_drop = method_ptr.NULL ∨
        pub1.reg_drop = method_ptr.fin pcount_method.reg_drop) then none
    else
      let pub2 := { pub1 with reg_drop := method_ptr.fin pcount_method.reg_drop }
      if dbg = true ∧ (pub2.reg_ignr = method_ptr.NULL ∨
          pub2.reg_ignr = method_ptr.fin pcount_method.reg_ignr) then none
      else
        let pub3 := { pub2 with reg_ignr := method_ptr.fin pcount_method.reg_ignr }
        if dbg = true ∧ (pub3.reg_reld = method_ptr.NULL ∨
            pub3.reg_reld = method_ptr.fin pcount_method.reg_reld) then none
        else some { pub3 with reg_reld := method_ptr.fin pcount_method.reg_reld }

/-- The call `((void (*)(..))p)(pub)` of the function a method slot points
to, as `CALL_TFIN` makes it: a trap thunk runs; `none` for NULL and for an
address of which nothing is known. -/
def call_method_ptr (p : method_ptr) (pub : Nat) (s : fin_world) : Option fin_world :=
  match p with
  | method_ptr.fin pcount_method.get_stats => some (rtpp_pcount_get_stats_fin pub s)
  | method_ptr.fin pcount_method.reg_drop => some (rtpp_pcount_reg_drop_fin pub s)
  | method_ptr.fin pcount_method.reg_ignr => some (rtpp_pcount_reg_ignr_fin pub s)
  | method_ptr.fin pcount_method.reg_reld => some (rtpp_pcount_reg_reld_fin pub s)
  | _ => none

/-- The slot of a method. -/
def rtpp_pcount.slot (pub : rtpp_pcount) : pcount_method → method_ptr
  | pcount_method.get_stats => pub.get_stats
  | pcount_method.reg_drop => pub.reg_drop
  | pcount_method.reg_ignr => pub.reg_ignr
  | pcount_method.reg_reld => pub.reg_reld

/-- The macro `CALL_TFIN(pub, fn)`: the slot `fn` of the object at the
address `tp` is called with `tp`. -/
def CALL_TFIN (tp : Nat) (pub : rtpp_pcount) (fn : pcount_method) (s : fin_world) :
    Option fin_world :=
  call_method_ptr (pub.slot fn) tp s

/-- Modelled from the spec: the reference counter (rtpp_refcnt.c is not among
the sources).  The spec says each shared object carries a counter and a
destructor slot, `attach(dtor, obj)` binds the destructor, and the final
`decref` runs the destructor, once. -/
structure rtpp_refcnt where
  cnt : Nat
  dtor_attached : Bool
deriving DecidableEq, Repr

/-- Modelled from the spec: `RTPP_OBJ_DECREF` on an object with the
destructor `rtpp_pcount_fin` attached: the counter goes down by one, and the
drop of the last reference runs the destructor on the object.  `none` is a
failed assertion in the destructor. -/
def RTPP_OBJ_DECREF (dbg : Bool) (rcnt : rtpp_refcnt) (pub : rtpp_pcount) :
    Option (rtpp_refcnt × rtpp_pcount) :=
  if rcnt.cnt = 1 ∧ rcnt.dtor_attached = true then
    (rtpp_pcount_fin dbg pub).map (fun p => ({ rcnt with cnt := 0 }, p))
  else some ({ rcnt with cnt := rcnt.cnt - 1 }, pub)

/-- The function `rtpp_pcount_fintest`, for an object that `rtpp_rzmalloc`
put at the address `tp` (so that the two assertions on the allocation hold)
with one reference.  Result: the world it leaves and whether its last
assertion, `(_naborts - naborts_s) == 4`, holds; `none` when the run does not
get that far. -/
def rtpp_pcount_fintest (dbg : Bool) (tp : Nat) (s : fin_world) : Option (fin_world × Bool) :=
  let naborts_s := s.naborts
  let rcnt : rtpp_refcnt := { cnt := 1, dtor_attached := false }
  let pub : rtpp_pcount :=
    { get_stats := method_ptr.addr 1, reg_drop := method_ptr.addr 1,
      reg_ignr := method_ptr.addr 1, reg_reld := method_ptr.addr 1 }
  let rcnt1 := { rcnt with dtor_attached := true }
  match RTPP_OBJ_DECREF dbg rcnt1 pub with
  | none => none
  | some r =>
    match CALL_TFIN tp r.2 pcount_method.get_stats s with
    | none => none
    | some s1 =>
      match CALL_TFIN tp r.2 pcount_method.reg_drop s1 with
      | none => none
      | some s2 =>
        match CALL_TFIN tp r.2 pcount_method.reg_ignr s2 with
        | none => none
        | some s3 =>
          match CALL_TFIN tp r.2 pcount_method.reg_reld s3 with
          | none => none
          | some s4 => some (s4, decide (s4.naborts - naborts_s = 4))

/-- The precondition of `rtpp_pcount_fin`: every slot is live, that is
neither NULL nor already its trap thunk. -/
def rtpp_pcount.live (pub : rtpp_pcount) : Prop :=
  ∀ m : pcount_method, pub.slot m ≠ method_ptr.NULL ∧ pub.slot m ≠ method_ptr.fin m

/-- The number of traps among the events. -/
def count_traps (evs : List fin_event) : Nat := evs.count fin_event.autotrap

/-- A sample object with live methods at the addresses 4096 to 4099. -/
def sample_pcount : rtpp_pcount :=
  { get_stats := method_ptr.addr 4096, reg_drop := method_ptr.addr 4097,
    reg_ignr := method_ptr.addr 4098, reg_reld := method_ptr.addr 4099 }

/-- A sample world of the finalizer code: nothing done, three aborts counted
so far. -/
def sample_fin_world : fin_world := { events := [], naborts := 3 }

/-! ## Basic facts about the tokenizing loop -/

theorem store_store (st : split_state) (x y : Option (List Char)) :
    (st.store x).store y = st.store y := by
  cases st with
  | mk cmd w cap ap =>
    cases cap <;> simp [split_state.store, List.set_set]

theorem loop_at_null (K : Consts) (n : Nat) (st : split_state) :
    rtpp_command_split_loop K (n + 1) none st = some (split_exit.eol (st.store none)) := by
  simp [rtpp_command_split_loop, rtpp_command_split_iter, rtpp_strsep]

theorem feed_tokens_store (K : Consts) (ts : List (List Char)) (st : split_state)
    (x : Option (List Char)) : feed_tokens K ts (st.store x) = feed_tokens K ts st := by
  cases ts with
  | nil => simp [feed_tokens, store_store]
  | cons t ts => simp [feed_tokens, store_store]

theorem is_sep_not_nul (c : Char) (h : is_sep c = true) : c ≠ NUL := by
  intro hc
  subst hc
  revert h
  decide

theorem contains_split_delims (c : Char) : split_delims.contains c = is_sep c := by
  rw [Bool.eq_iff_iff]
  simp [split_delims, is_sep, or_assoc]

theorem rtpp_strsep_at_sep (a : Char) (s : List Char) (hs : is_sep a = true) :
    rtpp_strsep (some (a :: s)) split_delims = (some [], some s) := by
  have hn := is_sep_not_nul a hs
  simp only [rtpp_strsep, contains_split_delims]
  simp [hn, hs]

theorem rtpp_strsep_at_nul (s : List Char) :
    rtpp_strsep (some (NUL :: s)) split_delims = (some [], none) := by
  simp [rtpp_strsep]

theorem rtpp_strsep_at_char (a : Char) (s : List Char) (hn : a ≠ NUL)
    (hs2 : is_sep a = false) :
    rtpp_strsep (some (a :: s)) split_delims =
      ((rtpp_strsep (some s) split_delims).1.map (fun t => a :: t),
       (rtpp_strsep (some s) split_delims).2) := by
  simp only [rtpp_strsep, contains_split_delims]
  have h : (!(a == NUL || is_sep a)) = true := by simp [hn, hs2]
  simp only [List.takeWhile_cons, List.dropWhile_cons, h, if_true]
  cases List.dropWhile (fun c => !(c == NUL || is_sep c)) s with
  | nil => simp
  | cons c rest =>
    by_cases hc : (c == NUL) = true <;> simp [hc]

theorem tok_chars_cons (a : Char) (tok : List Char) (hn : a ≠ NUL) (hs : is_sep a = false)
    (h : tok_chars tok) : tok_chars (a :: tok) := by
  intro x hx
  rcases List.mem_cons.mp hx with rfl | hx
  · exact ⟨hn, hs⟩
  · exact h x hx

theorem rtpp_strsep_spec (s : List Char) :
    (∃ tok, rtpp_strsep (some s) split_delims = (some tok, none) ∧ tok_chars tok ∧
        cstr s = tok) ∨
    (∃ tok c rest, rtpp_strsep (some s) split_delims = (some tok, some rest) ∧ tok_chars tok ∧
        is_sep c = true ∧ s = tok ++ c :: rest) := by
  induction s with
  | nil =>
    left
    exact ⟨[], by simp [rtpp_strsep], by simp [tok_chars], by simp [cstr]⟩
  | cons a s ih =>
    by_cases hn : a = NUL
    · left
      subst hn
      exact ⟨[], rtpp_strsep_at_nul s, by simp [tok_chars], by simp [cstr]⟩
    · by_cases hs : is_sep a = true
      · right
        exact ⟨[], a, s, rtpp_strsep_at_sep a s hs, by simp [tok_chars], hs, by simp⟩
      · have hs2 : is_sep a = false := by simpa using hs
        have hstep := rtpp_strsep_at_char a s hn hs2
        rcases ih with ⟨tok, h1, h2, h3⟩ | ⟨tok, c, rest, h1, h2, h3, h4⟩
        · left
          refine ⟨a :: tok, ?_, tok_chars_cons a tok hn hs2 h2, ?_⟩
          · rw [hstep, h1]; rfl
          · simp only [cstr] at h3 ⊢
            rw [List.takeWhile_cons_of_pos (by simpa using hn), h3]
        · right
          refine ⟨a :: tok, c, rest, ?_, tok_chars_cons a tok hn hs2 h2, h3, by simp [h4]⟩
          rw [hstep, h1]; rfl

theorem cstr_of_tok_chars (tok : List Char) (h : tok_chars tok) : cstr tok = tok := by
  simp only [cstr]
  rw [List.takeWhile_eq_self_iff]
  intro x hx
  simpa using (h x hx).1

theorem cstr_tok_append (tok : List Char) (c : Char) (rest : List Char) (h : tok_chars tok)
    (hc : is_sep c = true) : cstr (tok ++ c :: rest) = tok ++ c :: cstr rest := by
  induction tok with
  | nil =>
    have hn := is_sep_not_nul c hc
    simp only [cstr, List.nil_append]
    rw [List.takeWhile_cons_of_pos (by simpa using hn)]
  | cons a tok ih =>
    have ha := h a (List.mem_cons_self a tok)
    have ht : tok_chars tok := fun x hx => h x (List.mem_cons_of_mem a hx)
    have := ih ht
    simp only [cstr, List.cons_append] at this ⊢
    rw [List.takeWhile_cons_of_pos (by simpa using ha.1), this]

theorem ref_tokens_single (tok : List Char) (h : tok_chars tok) :
    ref_tokens tok = if tok = [] then [] else [tok] := by
  have hs : tok.splitOnP is_sep = [tok] :=
    List.splitOnP_eq_single is_sep tok (fun x hx => by simp [(h x hx).2])
  simp only [ref_tokens, hs]
  by_cases ht : tok = []
  · subst ht; rfl
  · have he : (!tok.isEmpty) = true := by simpa using ht
    simp [List.filter, he, ht]

theorem ref_tokens_tok_append (tok : List Char) (c : Char) (rest : List Char)
    (h : tok_chars tok) (hc : is_sep c = true) :
    ref_tokens (tok ++ c :: rest) = (if tok = [] then [] else [tok]) ++ ref_tokens rest := by
  have hs : (tok ++ c :: rest).splitOnP is_sep = tok :: rest.splitOnP is_sep :=
    List.splitOnP_first is_sep tok (fun x hx => by simp [(h x hx).2]) c hc rest
  simp only [ref_tokens, hs]
  by_cases ht : tok = []
  · subst ht; rfl
  · have he : (!tok.isEmpty) = true := by simpa using ht
    simp [List.filter, he, ht]

theorem split_body_empty (K : Consts) (st : split_state) :
    rtpp_command_split_body K [] st = split_step.next st := by
  simp [rtpp_command_split_body]

theorem split_iter_of_strsep (K : Consts) (cp cp1 : Option (List Char)) (tok : List Char)
    (st : split_state) (h : rtpp_strsep cp split_delims = (some tok, cp1)) :
    rtpp_command_split_iter K cp st =
      (rtpp_command_split_body K tok (st.store (some tok)), cp1) := by
  simp [rtpp_command_split_iter, h]

theorem split_loop_succ (K : Consts) (n : Nat) (cp : Option (List Char)) (st : split_state) :
    rtpp_command_split_loop K (n + 1) cp st =
      match rtpp_command_split_iter K cp st with
      | (split_step.next st1, cp1) => rtpp_command_split_loop K n cp1 st1
      | (split_step.exit e, _) => some e := rfl

/-- The loop over a buffer does what `feed_tokens` does on the reference
tokens of the C string in the buffer, and never runs out of fuel. -/
theorem loop_eq_feed_tokens (K : Consts) (n : Nat) :
    ∀ (s : List Char) (st : split_state), s.length + 2 ≤ n →
      rtpp_command_split_loop K n (some s) st =
        some (feed_tokens K (ref_tokens (cstr s)) st) := by
  induction n with
  | zero => intro s st h; omega
  | succ n ih =>
    intro s st hlen
    rw [split_loop_succ]
    rcases rtpp_strsep_spec s with ⟨tok, h1, h2, h3⟩ | ⟨tok, c, rest, h1, h2, h3, h4⟩
    · obtain ⟨m, rfl⟩ : ∃ m, n = m + 1 := ⟨n - 1, by omega⟩
      rw [h3, ref_tokens_single tok h2, split_iter_of_strsep K _ _ _ _ h1]
      by_cases ht : tok = []
      · subst ht
        simp [split_body_empty, loop_at_null, feed_tokens, store_store]
      · simp only [ht, if_false, feed_tokens]
        cases hb : rtpp_command_split_body K tok (st.store (some tok)) with
        | next st1 => simp [loop_at_null]
        | exit e => simp
    · subst h4
      have hl : rest.length + 2 ≤ n := by
        simp only [List.length_append, List.length_cons] at hlen
        omega
      rw [cstr_tok_append tok c rest h2 h3, ref_tokens_tok_append tok c _ h2 h3,
        split_iter_of_strsep K _ _ _ _ h1]
      by_cases ht : tok = []
      · subst ht
        simp [split_body_empty, ih rest _ hl, feed_tokens_store]
      · simp only [ht, if_false, feed_tokens, List.singleton_append]
        cases hb : rtpp_command_split_body K tok (st.store (some tok)) with
        | next st1 => simp [ih rest _ hl]
        | exit e => simp

/-! ## The loop body on tokens -/

theorem is_token_ne_nil (t : List Char) (h : is_token t = true) : t ≠ [] := by
  intro ht
  subst ht
  simp [is_token] at h

theorem is_token_mem (t : List Char) (h : is_token t = true) (c : Char) (hc : c ∈ t) :
    c ≠ NUL ∧ is_sep c = false := by
  simp only [is_token, Bool.and_eq_true, List.all_eq_true] at h
  have := h.2 c hc
  simpa using this

theorem is_token_head (t : List Char) (h : is_token t = true) :
    (t.headD NUL != NUL) = true := by
  cases t with
  | nil => simp [is_token] at h
  | cons a t =>
    have := (is_token_mem (a :: t) h a (List.mem_cons_self a t)).1
    simpa using this

theorem ISAMPAMP_iff (t : List Char) (h : ∀ c ∈ t, c ≠ NUL) :
    ISAMPAMP t = true ↔ t = AMPAMP := by
  constructor
  · intro ht
    match t, h, ht with
    | [], _, ht => simp [ISAMPAMP, NUL] at ht
    | [a], _, ht =>
      simp only [ISAMPAMP, List.getD_cons_zero, List.getD_cons_succ, List.getD_nil,
        Bool.and_eq_true, beq_iff_eq] at ht
      exact absurd ht.1.2 (by decide)
    | [a, b], _, ht =>
      simp only [ISAMPAMP, List.getD_cons_zero, List.getD_cons_succ,
        Bool.and_eq_true, beq_iff_eq] at ht
      rw [ht.1.1, ht.1.2]; rfl
    | a :: b :: c :: r, h, ht =>
      simp only [ISAMPAMP, List.getD_cons_zero, List.getD_cons_succ,
        Bool.and_eq_true, beq_iff_eq] at ht
      exact absurd ht.2 (h c (by simp))
  · intro ht
    subst ht
    decide

theorem ISAMPAMP_token (t : List Char) (h : is_token t = true) :
    ISAMPAMP t = true ↔ t = AMPAMP :=
  ISAMPAMP_iff t (fun c hc => (is_token_mem t h c hc).1)

theorem store_cap (st : split_state) (x : Option (List Char)) : (st.store x).cap = st.cap := by
  cases st with
  | mk cmd w cap ap => cases cap <;> rfl

theorem store_ap (st : split_state) (x : Option (List Char)) : (st.store x).ap = st.ap := by
  cases st with
  | mk cmd w cap ap => cases cap <;> rfl

theorem push_tokens_nil (st : split_state) : push_tokens st [] = st := by
  cases st with
  | mk cmd w cap ap => cases cap <;> simp [push_tokens, store_tokens]

theorem push_tokens_cons (st : split_state) (t : List Char) (ts : List (List Char)) :
    push_tokens st (t :: ts) = push_tokens (push_token st t) ts := by
  cases st with
  | mk cmd w cap ap =>
    cases cap <;>
      simp [push_tokens, push_token, store_tokens, split_state.store, split_state.inc_c,
        Nat.add_assoc, Nat.add_comm 1]

theorem push_tokens_append (st : split_state) (ts us : List (List Char)) :
    push_tokens st (ts ++ us) = push_tokens (push_tokens st ts) us := by
  induction ts generalizing st with
  | nil => simp [push_tokens_nil]
  | cons t ts ih => simp [push_tokens_cons, ih]

theorem push_tokens_cap (st : split_state) (ts : List (List Char)) :
    (push_tokens st ts).cap = st.cap := by
  cases st with
  | mk cmd w cap ap => cases cap <;> rfl

theorem push_tokens_ap (st : split_state) (ts : List (List Char)) :
    (push_tokens st ts).ap = st.ap + ts.length := by
  cases st with
  | mk cmd w cap ap => cases cap <;> rfl

theorem cookie_off_push_token (st : split_state) (t : List Char) (h : cookie_off st) :
    cookie_off (push_token st t) := by
  cases st with
  | mk cmd w cap ap =>
    cases cap <;>
      simp_all [cookie_off, push_token, split_state.store, split_state.inc_c]

/-- An ordinary argument token that fits: it is stored and counted. -/
theorem split_body_push (K : Consts) (st : split_state) (t : List Char)
    (ht : is_token t = true) (hc : st.cap = cap_t.args → cookie_off st ∧ t ≠ AMPAMP)
    (hfit : st.ap + 1 < K.RTPC_MAX_ARGC) :
    rtpp_command_split_body K t (st.store (some t)) = split_step.next (push_token st t) := by
  have hh := is_token_head t ht
  have hamp := ISAMPAMP_token t ht
  cases st with
  | mk cmd w cap ap =>
    cases cap with
    | args =>
      have h1 := (hc rfl).1
      have h2 := (hc rfl).2
      have h3 : ¬ (ISAMPAMP t = true) := fun h => h2 (hamp.mp h)
      simp only [cookie_off] at h1
      simp only [rtpp_command_split_body, hh, if_true, split_state.store, true_and, h1, h3,
        if_false, split_state.inc_c, push_token]
      simp only [] at hfit
      have hn : ¬ K.RTPC_MAX_ARGC ≤ ap + 1 := by omega
      simp [hn]
    | subc_args =>
      simp only [rtpp_command_split_body, hh, if_true, split_state.store, false_and,
        if_false, split_state.inc_c, push_token]
      simp only [] at hfit
      have hn : ¬ K.RTPC_MAX_ARGC ≤ ap + 1 := by omega
      simp [hn]

/-- An ordinary argument token that reaches the end of the vector: it is
stored and counted, and the loop is left for `etoomany`. -/
theorem split_body_push_over (K : Consts) (st : split_state) (t : List Char)
    (ht : is_token t = true) (hc : st.cap = cap_t.args → cookie_off st ∧ t ≠ AMPAMP)
    (hfit : K.RTPC_MAX_ARGC ≤ st.ap + 1) :
    rtpp_command_split_body K t (st.store (some t)) =
      split_step.exit (split_exit.etoomany (push_token st t)) := by
  have hh := is_token_head t ht
  have hamp := ISAMPAMP_token t ht
  cases st with
  | mk cmd w cap ap =>
    cases cap with
    | args =>
      have h1 := (hc rfl).1
      have h2 := (hc rfl).2
      have h3 : ¬ (ISAMPAMP t = true) := fun h => h2 (hamp.mp h)
      simp only [cookie_off] at h1
      simp only [rtpp_command_split_body, hh, if_true, split_state.store, true_and, h1, h3,
        if_false, split_state.inc_c, push_token]
      simp only [] at hfit
      simp [hfit]
    | subc_args =>
      simp only [rtpp_command_split_body, hh, if_true, split_state.store, false_and,
        if_false, split_state.inc_c, push_token]
      simp only [] at hfit
      simp [hfit]

/-- The token "&&" in the main vector: the vector is terminated and the loop
goes on in the sub-command vector. -/
theorem split_body_ampamp (K : Consts) (st : split_state) (hcap : st.cap = cap_t.args)
    (hc : cookie_off st) :
    rtpp_command_split_body K AMPAMP (st.store (some AMPAMP)) =
      split_step.next (switch_to_subc st) := by
  cases st with
  | mk cmd w cap ap =>
    simp only [] at hcap
    subst hcap
    simp only [cookie_off] at hc
    have h1 : (AMPAMP.headD NUL != NUL) = true := by decide
    have h2 : ISAMPAMP AMPAMP = true := by decide
    simp only [rtpp_command_split_body, h1, h2, if_true, split_state.store, true_and, hc,
      if_false, and_self, switch_to_subc, List.set_set]

/-- The first token of a datagram command: it becomes the cookie and the
retransmit guard decides how to go on. -/
theorem split_body_cookie (K : Consts) (st : split_state) (t : List Char)
    (ht : is_token t = true) (hcap : st.cap = cap_t.args) (hu : st.cmd.umode ≠ 0)
    (hc0 : st.cmd.args.c = 0) (hck : st.cmd.cookie = none) :
    rtpp_command_split_body K t (st.store (some t)) =
      (let r := rtpp_command_guard_retrans { (st.store (some t)).cmd with cookie := some t } st.w
       if r.1 ≠ 0 then
         split_step.exit (split_exit.retrans { st.store (some t) with cmd := r.2.1, w := r.2.2 })
       else split_step.next { st.store (some t) with cmd := r.2.1, w := r.2.2 }) := by
  have hh := is_token_head t ht
  cases st with
  | mk cmd w cap ap =>
    simp only [] at hcap hu hc0 hck
    subst hcap
    simp only [rtpp_command_split_body, hh, if_true, split_state.store, hu, hc0, hck, ne_eq,
      not_false_eq_true, and_self]

/-! ## The loop on runs of tokens -/

theorem push_token_cap (st : split_state) (t : List Char) : (push_token st t).cap = st.cap := by
  cases st with
  | mk cmd w cap ap => cases cap <;> rfl

theorem feed_tokens_push_run (K : Consts) (rest : List (List Char)) :
    ∀ (ts : List (List Char)) (st : split_state),
      (∀ t ∈ ts, is_token t = true) →
      (st.cap = cap_t.args → cookie_off st ∧ AMPAMP ∉ ts) →
      st.ap + ts.length < K.RTPC_MAX_ARGC →
      feed_tokens K (ts ++ rest) st = feed_tokens K rest (push_tokens st ts) := by
  intro ts
  induction ts with
  | nil => intro st _ _ _; simp [push_tokens_nil]
  | cons t ts ih =>
    intro st htok hc hfit
    simp only [List.length_cons] at hfit
    have hb := split_body_push K st t (htok t (List.mem_cons_self t ts))
      (fun h => ⟨(hc h).1, fun he => (hc h).2 (he ▸ List.mem_cons_self t ts)⟩) (by omega)
    simp only [List.cons_append, feed_tokens, hb, push_tokens_cons]
    apply ih
    · intro u hu
      exact htok u (List.mem_cons_of_mem t hu)
    · intro h
      have hcap : st.cap = cap_t.args := by rwa [push_token_cap] at h
      refine ⟨cookie_off_push_token st t (hc hcap).1, fun hm => (hc hcap).2 ?_⟩
      exact List.mem_cons_of_mem t hm
    · have : (push_token st t).ap = st.ap + 1 := rfl
      omega

theorem feed_tokens_push_over (K : Consts) (rest : List (List Char)) :
    ∀ (ts : List (List Char)) (st : split_state),
      (∀ t ∈ ts, is_token t = true) →
      (st.cap = cap_t.args → cookie_off st ∧ AMPAMP ∉ ts) →
      st.ap < K.RTPC_MAX_ARGC →
      K.RTPC_MAX_ARGC ≤ st.ap + ts.length →
      feed_tokens K (ts ++ rest) st =
        split_exit.etoomany (push_tokens st (ts.take (K.RTPC_MAX_ARGC - st.ap))) := by
  intro ts
  induction ts with
  | nil => intro st _ _ h1 h2; simp at h2; omega
  | cons t ts ih =>
    intro st htok hc hlt hge
    simp only [List.length_cons] at hge
    have hpl : st.cap = cap_t.args → cookie_off st ∧ t ≠ AMPAMP :=
      fun h => ⟨(hc h).1, fun he => (hc h).2 (he ▸ List.mem_cons_self t ts)⟩
    obtain ⟨k, hk⟩ : ∃ k, K.RTPC_MAX_ARGC - st.ap = k + 1 :=
      ⟨K.RTPC_MAX_ARGC - st.ap - 1, by omega⟩
    rw [hk, List.take_succ_cons, push_tokens_cons]
    by_cases hfit : st.ap + 1 < K.RTPC_MAX_ARGC
    · have hb := split_body_push K st t (htok t (List.mem_cons_self t ts)) hpl hfit
      simp only [List.cons_append, feed_tokens, hb]
      have hap : (push_token st t).ap = st.ap + 1 := rfl
      have hk2 : K.RTPC_MAX_ARGC - (push_token st t).ap = k := by omega
      rw [← hk2]
      apply ih
      · intro u hu
        exact htok u (List.mem_cons_of_mem t hu)
      · intro h
        have hcap : st.cap = cap_t.args := by rwa [push_token_cap] at h
        exact ⟨cookie_off_push_token st t (hc hcap).1,
          fun hm => (hc hcap).2 (List.mem_cons_of_mem t hm)⟩
      · omega
      · omega
    · have hb := split_body_push_over K st t (htok t (List.mem_cons_self t ts)) hpl (by omega)
      have hk0 : k = 0 := by omega
      simp only [List.cons_append, feed_tokens, hb, hk0, List.take_zero, push_tokens_nil]

theorem main_amp_part (toks : List (List Char)) : main_part toks ++ amp_part toks = toks := by
  simp [main_part, amp_part]

theorem ampamp_not_mem_main_part (toks : List (List Char)) : AMPAMP ∉ main_part toks := by
  intro h
  have := List.mem_takeWhile_imp h
  simp at this

theorem amp_part_head (toks : List (List Char)) (a : List Char) (sub : List (List Char))
    (h : amp_part toks = a :: sub) : a = AMPAMP := by
  have h1 : (amp_part toks).head? = some a := by rw [h]; rfl
  have h2 := List.head?_dropWhile_not (fun t => t != AMPAMP) toks
  simp only [amp_part] at h1
  rw [h1] at h2
  simpa using h2

theorem switch_to_subc_cap (st : split_state) : (switch_to_subc st).cap = cap_t.subc_args := rfl

theorem switch_to_subc_ap (st : split_state) : (switch_to_subc st).ap = 0 := rfl

/-- The loop from a state that fills the main vector, with the cookie branch
closed, in closed form. -/
theorem feed_tokens_plain (K : Consts) (toks : List (List Char)) (st : split_state)
    (htok : ∀ t ∈ toks, is_token t = true) (hcap : st.cap = cap_t.args) (hc : cookie_off st)
    (hap : st.ap < K.RTPC_MAX_ARGC) :
    feed_tokens K toks st = plain_outcome K st toks := by
  have hsplit := main_amp_part toks
  have hmain : ∀ t ∈ main_part toks, is_token t = true := fun t ht =>
    htok t (by rw [← hsplit]; exact List.mem_append_left _ ht)
  have hamp : ∀ t ∈ amp_part toks, is_token t = true := fun t ht =>
    htok t (by rw [← hsplit]; exact List.mem_append_right _ ht)
  have hplain : st.cap = cap_t.args → cookie_off st ∧ AMPAMP ∉ main_part toks :=
    fun _ => ⟨hc, ampamp_not_mem_main_part toks⟩
  unfold plain_outcome
  by_cases hover : K.RTPC_MAX_ARGC ≤ st.ap + (main_part toks).length
  · rw [if_pos hover]
    conv_lhs => rw [← hsplit]
    exact feed_tokens_push_over K _ _ st hmain hplain hap hover
  · rw [if_neg hover]
    conv_lhs => rw [← hsplit]
    rw [feed_tokens_push_run K _ _ st hmain hplain (by omega)]
    cases hA : amp_part toks with
    | nil => simp [feed_tokens]
    | cons a sub =>
      have ha := amp_part_head toks a sub hA
      subst ha
      have hoff : cookie_off (push_tokens st (main_part toks)) := by
        revert hc
        cases st with
        | mk cmd w cap ap =>
          simp only [] at hcap
          subst hcap
          simp only [cookie_off, push_tokens]
          intro hc h
          exact hc ⟨h.1, by omega, h.2.2⟩
      have hb := split_body_ampamp K (push_tokens st (main_part toks))
        (by rw [push_tokens_cap]; exact hcap) hoff
      simp only [feed_tokens, hb]
      have hsub : ∀ t ∈ sub, is_token t = true := fun t ht =>
        hamp t (by rw [hA]; exact List.mem_cons_of_mem _ ht)
      have hnot : (switch_to_subc (push_tokens st (main_part toks))).cap = cap_t.args →
          cookie_off (switch_to_subc (push_tokens st (main_part toks))) ∧ AMPAMP ∉ sub := by
        intro h
        rw [switch_to_subc_cap] at h
        cases h
      by_cases hso : K.RTPC_MAX_ARGC ≤ sub.length
      · rw [if_pos hso]
        have := feed_tokens_push_over K [] sub _ hsub hnot
          (by rw [switch_to_subc_ap]; omega) (by rw [switch_to_subc_ap]; omega)
        simpa [switch_to_subc_ap] using this
      · rw [if_neg hso]
        have := feed_tokens_push_run K [] sub _ hsub hnot (by rw [switch_to_subc_ap]; omega)
        simpa [feed_tokens] using this

/-! ## The slots of a filled vector -/

theorem take_set_same {α : Type} (l : List α) (c : Nat) (x : α) :
    (l.set c x).take c = l.take c := by
  rw [List.set_take, List.set_eq_of_length_le]
  simp [List.length_take]

theorem take_succ_set {α : Type} (l : List α) (i : Nat) (x : α) (h : i < l.length) :
    (l.set i x).take (i + 1) = l.take i ++ [x] := by
  rw [List.take_succ, take_set_same, List.getElem?_set_self h]
  rfl

theorem length_store_tokens (ts : List (List Char)) :
    ∀ (v : List (Option (List Char))) (i : Nat), (store_tokens v i ts).length = v.length := by
  induction ts with
  | nil => intro v i; rfl
  | cons t ts ih => intro v i; simp [store_tokens, ih]

theorem take_store_tokens (ts : List (List Char)) :
    ∀ (v : List (Option (List Char))) (i : Nat), i + ts.length ≤ v.length →
      (store_tokens v i ts).take (i + ts.length) = v.take i ++ ts.map some := by
  induction ts with
  | nil => intro v i _; simp [store_tokens]
  | cons t ts ih =>
    intro v i h
    simp only [List.length_cons] at h
    have h1 := ih (v.set i (some t)) (i + 1) (by simp only [List.length_set]; omega)
    have h2 := take_succ_set v i (some t) (by omega)
    simp only [store_tokens, List.length_cons, List.map_cons]
    rw [show i + (ts.length + 1) = i + 1 + ts.length by omega, h1, h2]
    simp

/-- After `ts` was stored from slot 0 on and NULL behind it, the first
`ts.length` slots hold the tokens and the next slot is NULL. -/
theorem held_store_tokens (ts : List (List Char)) (v : List (Option (List Char)))
    (h : ts.length < v.length) :
    ((store_tokens v 0 ts).set ts.length none).take ts.length = ts.map some ∧
    ((store_tokens v 0 ts).set ts.length none)[ts.length]? = some none := by
  constructor
  · rw [take_set_same]
    have := take_store_tokens ts v 0 (by omega)
    simpa using this
  · rw [List.getElem?_set_self]
    rw [length_store_tokens]
    exact h

/-- When the vector is full the first `ts.length` slots hold the tokens. -/
theorem held_store_tokens_full (ts : List (List Char)) (v : List (Option (List Char)))
    (h : ts.length ≤ v.length) :
    (store_tokens v 0 ts).take ts.length = ts.map some := by
  have := take_store_tokens ts v 0 (by omega)
  simpa using this

/-! ## Reference tokens are tokens -/

theorem mem_splitOnP {α : Type} (p : α → Bool) :
    ∀ (s : List α), ∀ t ∈ s.splitOnP p, ∀ c ∈ t, c ∈ s ∧ p c = false := by
  intro s
  induction s with
  | nil =>
    intro t ht c hc
    simp at ht
    subst ht
    simp at hc
  | cons x xs ih =>
    intro t ht c hc
    rw [List.splitOnP_cons] at ht
    by_cases hp : p x = true
    · rw [if_pos hp] at ht
      rcases List.mem_cons.mp ht with rfl | ht
      · simp at hc
      · have := ih t ht c hc
        exact ⟨List.mem_cons_of_mem x this.1, this.2⟩
    · rw [if_neg hp] at ht
      cases hsp : xs.splitOnP p with
      | nil => exact absurd hsp (List.splitOnP_ne_nil p xs)
      | cons h tl =>
        rw [hsp] at ht ih
        simp only [List.modifyHead_cons] at ht
        rcases List.mem_cons.mp ht with rfl | ht
        · rcases List.mem_cons.mp hc with rfl | hc
          · exact ⟨List.mem_cons_self _ _, by simpa using hp⟩
          · have := ih h (List.mem_cons_self h tl) c hc
            exact ⟨List.mem_cons_of_mem x this.1, this.2⟩
        · have := ih t (List.mem_cons_of_mem h ht) c hc
          exact ⟨List.mem_cons_of_mem x this.1, this.2⟩

theorem ref_tokens_is_token (buf : List Char) :
    ∀ t ∈ ref_tokens (cstr buf), is_token t = true := by
  intro t ht
  simp only [ref_tokens, List.mem_filter] at ht
  have hne : t ≠ [] := by simpa using ht.2
  have hall := mem_splitOnP is_sep (cstr buf) t ht.1
  simp only [is_token, Bool.and_eq_true, List.all_eq_true]
  refine ⟨by simpa using hne, ?_⟩
  intro c hc
  have h1 := hall c hc
  have h2 : c ≠ NUL := by
    have := List.mem_takeWhile_imp (show c ∈ List.takeWhile (fun c => c != NUL) buf from h1.1)
    simpa using this
  simp [h1.2, h2]

/-! ## The tokenizing stage on a whole buffer -/

theorem tokenize_eq_feed (K : Consts) (cmd : rtpp_command) (w : World) :
    rtpp_command_split_tokenize K cmd w =
      some (feed_tokens K (ref_tokens (cstr cmd.buf)) (split_start cmd w)) :=
  loop_eq_feed_tokens K (cmd.buf.length + 2) cmd.buf _ (Nat.le_refl _)

/-- Stream transport: the loop ends as `plain_outcome` says. -/
theorem tokenize_stream (K : Consts) (cmd : rtpp_command) (w : World) (hu : cmd.umode = 0)
    (hK : 0 < K.RTPC_MAX_ARGC) :
    rtpp_command_split_tokenize K cmd w =
      some (plain_outcome K (split_start cmd w) (ref_tokens (cstr cmd.buf))) := by
  rw [tokenize_eq_feed]
  congr 1
  apply feed_tokens_plain K _ _ (ref_tokens_is_token cmd.buf) rfl
  · simp [cookie_off, split_start, hu]
  · exact hK

/-- No token at all: the loop stores NULL in the first slot and ends. -/
theorem tokenize_no_token (K : Consts) (cmd : rtpp_command) (w : World)
    (h : ref_tokens (cstr cmd.buf) = []) :
    rtpp_command_split_tokenize K cmd w =
      some (split_exit.eol ((split_start cmd w).store none)) := by
  rw [tokenize_eq_feed, h]
  rfl

theorem guard_retrans_hit (cmd : rtpp_command) (w : World) (ck reply : List Char)
    (hck : cmd.cookie = some ck) (h : w.rcache.lookup ck BUF_R_SIZE = some reply) :
    rtpp_command_guard_retrans cmd w =
      (1, { cmd with buf_r := reply },
       { w with sent := w.sent ++ [net_event.sendto cmd.controlfd reply reply.length cmd.raddr],
                csp := { w.csp with ncmds_rcvd := cnt_dec w.csp.ncmds_rcvd,
                                    ncmds_rcvd_ndups := cnt_inc w.csp.ncmds_rcvd_ndups } }) := by
  simp [rtpp_command_guard_retrans, hck, h]

theorem guard_retrans_miss (cmd : rtpp_command) (w : World) (ck : List Char)
    (hck : cmd.cookie = some ck) (h : w.rcache.lookup ck BUF_R_SIZE = none) :
    rtpp_command_guard_retrans cmd w =
      (0, { cmd with rcache_obj := true }, { w with rcache_rcnt := w.rcache_rcnt + 1 }) := by
  simp [rtpp_command_guard_retrans, hck, h]

/-- Datagram transport, cache hit on the first token. -/
theorem tokenize_dgram_hit (K : Consts) (cmd : rtpp_command) (w : World)
    (ck reply : List Char) (rest : List (List Char)) (hu : cmd.umode ≠ 0)
    (hc0 : cmd.args.c = 0) (hnc : cmd.cookie = none)
    (htoks : ref_tokens (cstr cmd.buf) = ck :: rest)
    (hhit : w.rcache.lookup ck BUF_R_SIZE = some reply) :
    rtpp_command_split_tokenize K cmd w =
      some (split_exit.retrans (retrans_state cmd w ck reply)) := by
  have htok : is_token ck = true :=
    ref_tokens_is_token cmd.buf ck (by rw [htoks]; exact List.mem_cons_self _ _)
  rw [tokenize_eq_feed, htoks]
  have hb := split_body_cookie K (split_start cmd w) ck htok rfl hu hc0 hnc
  have hg := guard_retrans_hit
    { ((split_start cmd w).store (some ck)).cmd with cookie := some ck } (split_start cmd w).w
    ck reply rfl hhit
  simp only [feed_tokens, hb, hg]
  simp [split_start, split_state.store, retrans_state]

/-- Datagram transport, cache miss on the first token. -/
theorem tokenize_dgram_miss (K : Consts) (cmd : rtpp_command) (w : World)
    (ck : List Char) (rest : List (List Char)) (hu : cmd.umode ≠ 0)
    (hc0 : cmd.args.c = 0) (hnc : cmd.cookie = none) (hK : 0 < K.RTPC_MAX_ARGC)
    (htoks : ref_tokens (cstr cmd.buf) = ck :: rest)
    (hmiss : w.rcache.lookup ck BUF_R_SIZE = none) :
    rtpp_command_split_tokenize K cmd w =
      some (plain_outcome K (cookie_state cmd w ck) rest) := by
  have hall := ref_tokens_is_token cmd.buf
  rw [htoks] at hall
  have htok : is_token ck = true := hall ck (List.mem_cons_self _ _)
  rw [tokenize_eq_feed, htoks]
  have hb := split_body_cookie K (split_start cmd w) ck htok rfl hu hc0 hnc
  have hg := guard_retrans_miss
    { ((split_start cmd w).store (some ck)).cmd with cookie := some ck } (split_start cmd w).w
    ck rfl hmiss
  simp only [feed_tokens, hb, hg]
  have hst : ({ (split_start cmd w).store (some ck) with
      cmd := { { ((split_start cmd w).store (some ck)).cmd with cookie := some ck } with
               rcache_obj := true },
      w := { (split_start cmd w).w with rcache_rcnt := (split_start cmd w).w.rcache_rcnt + 1 } }
      : split_state) = cookie_state cmd w ck := by
    simp [split_start, split_state.store, cookie_state]
  simp only [ne_eq, not_true_eq_false, if_false]
  rw [hst]
  congr 1
  apply feed_tokens_plain K rest _ (fun t ht => hall t (List.mem_cons_of_mem _ ht)) rfl
  · simp [cookie_off, cookie_state]
  · exact hK

/-! ## C1: a retransmit hit short-circuits the parser -/

theorem cnt_dec_inc (x : Nat) (h : x < 2 ^ 64) : cnt_dec (cnt_inc x) = x := by
  simp only [cnt_inc, cnt_dec]
  omega

/-- C1: in datagram mode, when the retransmit cache has an entry for the
first non-empty token of the buffer (the cookie), `rtpp_command_split` sends
the cached reply, and only that, to the source address of the command and
returns 1; pre-parse is not called; no argument is counted and the argument
vectors hold nothing but the cookie pointer left in slot 0 of the main one;
`ncmds_rcvd` (a 64-bit value) ends where it started, `ncmds_rcvd_ndups` has
gone through one increment, and `ncmds_repld`, `ncmds_succd`, `ncmds_errs`
and the cache are unchanged. -/
theorem C1_retransmit_hit (K : Consts) (E : Env) (w : World) (fd : Int) (dtime : Nat)
    (umode : Int) (raddr : Nat) (data ck reply : List Char)
    (hu : umode ≠ 0)
    (hck : (ref_tokens (cstr data)).head? = some ck)
    (hhit : w.rcache.lookup ck BUF_R_SIZE = some reply)
    (hcnt : w.csp.ncmds_rcvd < 2 ^ 64) :
    ∃ r, rtpp_command_split K E (command_read K fd dtime umode raddr data) w = some r ∧
      r.rval = 1 ∧ r.calls = [] ∧
      r.w.sent = w.sent ++ [net_event.sendto fd reply reply.length raddr] ∧
      r.cmd.cookie = some ck ∧
      r.cmd.args.c = 0 ∧ r.cmd.subc_args.c = 0 ∧
      r.cmd.args.v = (List.replicate K.RTPC_MAX_ARGC none).set 0 (some ck) ∧
      r.cmd.subc_args.v = List.replicate K.RTPC_MAX_ARGC none ∧
      r.w.csp.ncmds_rcvd = w.csp.ncmds_rcvd ∧
      r.w.csp.ncmds_rcvd_ndups = cnt_inc w.csp.ncmds_rcvd_ndups ∧
      r.w.csp.ncmds_repld = w.csp.ncmds_repld ∧
      r.w.csp.ncmds_succd = w.csp.ncmds_succd ∧
      r.w.csp.ncmds_errs = w.csp.ncmds_errs ∧
      r.w.rcache = w.rcache := by
  cases htoks : ref_tokens (cstr data) with
  | nil => rw [htoks] at hck; simp at hck
  | cons t rest =>
    rw [htoks] at hck
    simp only [List.head?_cons, Option.some.injEq] at hck
    subst hck
    have ht := tokenize_dgram_hit K (command_read K fd dtime umode raddr data) w t reply rest
      hu rfl rfl htoks hhit
    have hs : rtpp_command_split K E (command_read K fd dtime umode raddr data) w =
        some { rval := 1,
               cmd := (retrans_state (command_read K fd dtime umode raddr data) w t reply).cmd,
               w := (retrans_state (command_read K fd dtime umode raddr data) w t reply).w,
               calls := [] } := by
      simp only [rtpp_command_split, ht]
    refine ⟨_, hs, ?_, ?_, ?_, ?_, ?_, ?_, ?_, ?_, ?_, ?_, ?_, ?_, ?_, ?_⟩ <;>
      simp [retrans_state, command_read, rtpp_command_ctor, hu, cnt_dec_inc _ hcnt]

/-- C1 witness: the datagram "ck V" when the cache holds a reply for "ck". -/
theorem C1_retransmit_hit_witness :
    ∃ r, rtpp_command_split sample_consts sample_env
        (command_read sample_consts 3 0 1 7 "ck V".toList)
        { sample_world with
          rcache := [{ cookie := "ck".toList, reply := "ck 20040107".toList ++ [LF],
                       etime := 0 }] } = some r ∧
      r.rval = 1 ∧ r.calls = [] ∧
      r.w.sent = [] ++ [net_event.sendto 3 ("ck 20040107".toList ++ [LF])
        ("ck 20040107".toList ++ [LF]).length 7] ∧
      r.cmd.cookie = some "ck".toList ∧
      r.cmd.args.c = 0 ∧ r.cmd.subc_args.c = 0 ∧
      r.cmd.args.v = (List.replicate 20 none).set 0 (some "ck".toList) ∧
      r.cmd.subc_args.v = List.replicate 20 none ∧
      r.w.csp.ncmds_rcvd = 0 ∧
      r.w.csp.ncmds_rcvd_ndups = cnt_inc 0 ∧
      r.w.csp.ncmds_repld = 0 ∧
      r.w.csp.ncmds_succd = 0 ∧
      r.w.csp.ncmds_errs = 0 ∧
      r.w.rcache = [{ cookie := "ck".toList, reply := "ck 20040107".toList ++ [LF],
                      etime := 0 }] :=
  C1_retransmit_hit sample_consts sample_env
    { sample_world with
      rcache := [{ cookie := "ck".toList, reply := "ck 20040107".toList ++ [LF], etime := 0 }] }
    3 0 1 7 "ck V".toList "ck".toList ("ck 20040107".toList ++ [LF])
    (by decide) (by decide) (by decide) (by decide)

/-! ## C2: what `rtpc_doreply` sends and caches -/

theorem cstr_of_no_nul (s : List Char) (h : NUL ∉ s) : cstr s = s := by
  simp only [cstr]
  rw [List.takeWhile_eq_self_iff]
  intro x hx
  have : x ≠ NUL := fun he => h (he ▸ hx)
  simpa using this

/-- C2 counterexample: with a cookie of 254 characters and the payload "0\n"
the composed reply has 257 characters; `buf_r` keeps 255 of them (the cookie
and the space), that string is what the cache receives, and the send is
passed the length 257, more than the buffer holds, so the bytes that leave
are not the cookie, a space and the payload. -/
theorem C2_counterexample :
    (sample_long_cookie ++ SP :: reply_text_ok).length = 257 ∧
    (rtpc_doreply (sample_dgram_command sample_long_cookie) sample_world
        reply_text_ok 2 0).2.sent =
      [net_event.sendto 3 (sample_long_cookie ++ [SP]) 257 7] ∧
    (rtpc_doreply (sample_dgram_command sample_long_cookie) sample_world
        reply_text_ok 2 0).2.sent.map net_event.bytes = [none] ∧
    (rtpc_doreply (sample_dgram_command sample_long_cookie) sample_world
        reply_text_ok 2 0).2.rcache.map (fun e => e.reply) = [sample_long_cookie ++ [SP]] ∧
    sample_long_cookie ++ [SP] ≠ sample_long_cookie ++ SP :: reply_text_ok := by
  refine ⟨by decide, by decide, by decide, by decide, by decide⟩

theorem take_of_length_le_255 (s : List Char) (h : s.length ≤ 255) :
    s.take (BUF_R_SIZE - 1) = s := by
  apply List.take_of_length_le
  simpa [BUF_R_SIZE] using h

/-- C2 (amended): for a payload string of `len` characters (no NUL among
them), `rtpc_doreply` in stream mode writes exactly the `len` payload bytes
to the control descriptor and leaves the cache alone; in datagram mode with a
cookie the string put in `buf_r` and inserted into the cache under the
cookie, with the arrival time of the command, is the cookie, one space and
the payload, cut to 255 characters; and when cookie, space and payload fit in
255 characters, exactly these `strlen(cookie) + 1 + len` bytes are sent to
the source address of the command and that same string is what the cache
receives. -/
theorem C2_doreply_sends (cmd : rtpp_command) (w : World) (payload : List Char) (errd : Int) :
    (cmd.umode = 0 →
      (rtpc_doreply cmd w payload payload.length errd).2.sent =
        w.sent ++ [net_event.write cmd.controlfd payload payload.length] ∧
      (rtpc_doreply cmd w payload payload.length errd).2.rcache = w.rcache) ∧
    (∀ ck, cmd.umode ≠ 0 → cmd.cookie = some ck → NUL ∉ payload →
      (rtpc_doreply cmd w payload payload.length errd).2.rcache =
        w.rcache.insert ck ((ck ++ SP :: payload).take 255) cmd.dtime ∧
      (ck.length + 1 + payload.length ≤ 255 →
        (rtpc_doreply cmd w payload payload.length errd).2.sent =
          w.sent ++ [net_event.sendto cmd.controlfd (ck ++ SP :: payload)
            (ck.length + 1 + payload.length) cmd.raddr] ∧
        (rtpc_doreply cmd w payload payload.length errd).2.sent.map net_event.bytes =
          w.sent.map net_event.bytes ++ [some (ck ++ SP :: payload)] ∧
        (rtpc_doreply cmd w payload payload.length errd).2.rcache =
          w.rcache.insert ck (ck ++ SP :: payload) cmd.dtime)) := by
  constructor
  · intro hu
    by_cases he : errd = 0 <;> simp [rtpc_doreply, hu, he]
  · intro ck hu hck hnul
    have hc := cstr_of_no_nul payload hnul
    constructor
    · by_cases he : errd = 0 <;>
        simp [rtpc_doreply, hu, hck, he, snprintf_s_s, hc, BUF_R_SIZE]
    · intro hfit
      have hlen : (ck ++ SP :: payload).length = ck.length + 1 + payload.length := by
        simp; omega
      have ht := take_of_length_le_255 (ck ++ SP :: payload) (by omega)
      refine ⟨?_, ?_, ?_⟩
      · by_cases he : errd = 0 <;>
          simp [rtpc_doreply, hu, hck, he, snprintf_s_s, hc, ht] <;> omega
      · have hb : (net_event.sendto cmd.controlfd (ck ++ SP :: payload)
            (ck.length + 1 + payload.length) cmd.raddr).bytes = some (ck ++ SP :: payload) := by
          simp only [net_event.bytes, hlen, le_refl, if_true]
          rw [← hlen, List.take_length]
        have hb2 : (net_event.sendto cmd.controlfd (ck ++ SP :: payload)
            (ck.length + (payload.length + 1)) cmd.raddr).bytes = some (ck ++ SP :: payload) := by
          rw [show ck.length + (payload.length + 1) = ck.length + 1 + payload.length by omega]
          exact hb
        by_cases he : errd = 0 <;>
          simp [rtpc_doreply, hu, hck, he, snprintf_s_s, hc, ht, hb2]
      · by_cases he : errd = 0 <;>
          simp [rtpc_doreply, hu, hck, he, snprintf_s_s, hc, ht]

/-- C2 witness: the reply "0\n" in stream mode, and with the cookie "ck" in
datagram mode. -/
theorem C2_doreply_sends_witness :
    ((rtpc_doreply (command_read sample_consts 3 0 0 7 []) sample_world reply_text_ok
        reply_text_ok.length 0).2.sent =
        sample_world.sent ++ [net_event.write 3 reply_text_ok reply_text_ok.length] ∧
      (rtpc_doreply (command_read sample_consts 3 0 0 7 []) sample_world reply_text_ok
        reply_text_ok.length 0).2.rcache = sample_world.rcache) ∧
    ((rtpc_doreply (sample_dgram_command "ck".toList) sample_world reply_text_ok
        reply_text_ok.length 0).2.rcache =
        sample_world.rcache.insert "ck".toList
          (("ck".toList ++ SP :: reply_text_ok).take 255) 0 ∧
      ((rtpc_doreply (sample_dgram_command "ck".toList) sample_world reply_text_ok
          reply_text_ok.length 0).2.sent =
          sample_world.sent ++ [net_event.sendto 3 ("ck".toList ++ SP :: reply_text_ok)
            ("ck".toList.length + 1 + reply_text_ok.length) 7] ∧
        (rtpc_doreply (sample_dgram_command "ck".toList) sample_world reply_text_ok
          reply_text_ok.length 0).2.sent.map net_event.bytes =
          sample_world.sent.map net_event.bytes ++ [some ("ck".toList ++ SP :: reply_text_ok)] ∧
        (rtpc_doreply (sample_dgram_command "ck".toList) sample_world reply_text_ok
          reply_text_ok.length 0).2.rcache =
          sample_world.rcache.insert "ck".toList ("ck".toList ++ SP :: reply_text_ok) 0)) :=
  ⟨(C2_doreply_sends (command_read sample_consts 3 0 0 7 []) sample_world reply_text_ok 0).1
      (by decide),
   ((C2_doreply_sends (sample_dgram_command "ck".toList) sample_world reply_text_ok 0).2
      "ck".toList (by decide) (by decide) (by decide)).1,
   ((C2_doreply_sends (sample_dgram_command "ck".toList) sample_world reply_text_ok 0).2
      "ck".toList (by decide) (by decide) (by decide)).2 (by decide)⟩

/-! ## C3: retransmit idempotence -/

theorem split_dgram_hit (K : Consts) (E : Env) (cmd : rtpp_command) (w : World)
    (ck reply : List Char) (hu : cmd.umode ≠ 0) (hc0 : cmd.args.c = 0)
    (hnc : cmd.cookie = none) (hck : (ref_tokens (cstr cmd.buf)).head? = some ck)
    (hhit : w.rcache.lookup ck BUF_R_SIZE = some reply) :
    rtpp_command_split K E cmd w =
      some { rval := 1, cmd := (retrans_state cmd w ck reply).cmd,
             w := (retrans_state cmd w ck reply).w, calls := [] } := by
  cases htoks : ref_tokens (cstr cmd.buf) with
  | nil => rw [htoks] at hck; simp at hck
  | cons t rest =>
    rw [htoks] at hck
    simp only [List.head?_cons, Option.some.injEq] at hck
    subst hck
    have ht := tokenize_dgram_hit K cmd w t reply rest hu hc0 hnc htoks hhit
    simp only [rtpp_command_split, ht]

theorem doreply_dgram_fit (cmd : rtpp_command) (w : World) (payload ck : List Char)
    (errd : Int) (hu : cmd.umode ≠ 0) (hck : cmd.cookie = some ck) (hnul : NUL ∉ payload)
    (hfit : ck.length + 1 + payload.length ≤ 255) :
    (rtpc_doreply cmd w payload payload.length errd).2.sent =
      w.sent ++ [net_event.sendto cmd.controlfd (ck ++ SP :: payload)
        (ck ++ SP :: payload).length cmd.raddr] ∧
    (rtpc_doreply cmd w payload payload.length errd).2.rcache =
      w.rcache.insert ck (ck ++ SP :: payload) cmd.dtime := by
  have hc := cstr_of_no_nul payload hnul
  have hlen : (ck ++ SP :: payload).length = ck.length + 1 + payload.length := by
    simp; omega
  have ht := take_of_length_le_255 (ck ++ SP :: payload) (by omega)
  constructor <;> by_cases he : errd = 0 <;>
    simp [rtpc_doreply, hu, hck, he, snprintf_s_s, hc, ht]

theorem lookup_insert_same (rc : rtpp_cmd_rcache) (ck reply : List Char) (t : Nat)
    (h : reply.length ≤ 255) :
    rtpp_cmd_rcache.lookup (rtpp_cmd_rcache.insert rc ck reply t) ck BUF_R_SIZE = some reply := by
  simp [rtpp_cmd_rcache.lookup, rtpp_cmd_rcache.insert, List.find?, take_of_length_le_255 _ h]

theorem get_command_of_split_nonzero (K : Consts) (E : Env) (w : World) (fd : Int)
    (dtime : Nat) (umode : Int) (raddr : Nat) (data : List Char) (r : cmd_result)
    (h : rtpp_command_split K E (command_read K fd dtime umode raddr data) w = some r)
    (hr : r.rval ≠ 0) :
    ∃ w2, get_command K E w fd dtime umode raddr data = some (none, w2, r.calls) ∧
      w2.sent = r.w.sent ∧ w2.csp = r.w.csp ∧ w2.rcache = r.w.rcache := by
  refine ⟨{ r.w with rcache_rcnt := if r.cmd.rcache_obj then r.w.rcache_rcnt - 1
                                    else r.w.rcache_rcnt }, ?_, rfl, rfl, rfl⟩
  simp only [get_command, h, hr, ne_eq, not_false_eq_true, if_true]

theorem doreply_dgram_cut (cmd : rtpp_command) (w : World) (buf ck : List Char) (len : Nat)
    (errd : Int) (hu : cmd.umode ≠ 0) (hck : cmd.cookie = some ck) :
    (rtpc_doreply cmd w buf len errd).2.sent =
      w.sent ++ [net_event.sendto cmd.controlfd ((ck ++ SP :: cstr (buf.take len)).take 255)
        (ck.length + 1 + (cstr (buf.take len)).length) cmd.raddr] ∧
    (rtpc_doreply cmd w buf len errd).2.rcache =
      w.rcache.insert ck ((ck ++ SP :: cstr (buf.take len)).take 255) cmd.dtime := by
  have hlen : (ck ++ SP :: cstr (buf.take len)).length =
      ck.length + 1 + (cstr (buf.take len)).length := by
    simp only [List.length_append, List.length_cons]
    omega
  constructor <;> by_cases he : errd = 0 <;>
    simp [rtpc_doreply, hu, hck, he, snprintf_s_s, BUF_R_SIZE, hlen]

/-- C3: with the retransmit cache a map from a cookie to the string last
inserted for it, let a datagram command with cookie `ck` be answered through
`rtpc_doreply` (any buffer, length and `errd`), and let `bytes` be what
`buf_r` then holds: cookie, space and payload, cut to 255 characters.  For a
second datagram whose first token is `ck` again,
`rtpp_command_guard_retrans` returns 1 after sending exactly `bytes`, with
the length of `bytes`, to the sender of the second datagram; `get_command`
sends nothing else, calls nobody and hands back NULL, so there is no command
for `handle_command` to run on.  The original send was of the same buffer
`bytes`, but with the length of the uncut composition: the two sends have the
same content and the same length if and only if cookie, space and payload fit
in 255 characters; for a longer composition the original send was passed a
length that is larger than what the buffer holds and than what the
retransmission sends. -/
theorem C3_retransmit_idempotence (K : Consts) (E : Env) (cmd1 : rtpp_command) (w0 : World)
    (payload ck : List Char) (len : Nat) (errd : Int) (fd2 : Int) (dtime2 : Nat)
    (umode2 : Int) (raddr2 : Nat) (data2 : List Char)
    (h1u : cmd1.umode ≠ 0) (h1c : cmd1.cookie = some ck)
    (h2u : umode2 ≠ 0) (h2c : (ref_tokens (cstr data2)).head? = some ck) :
    ∃ bytes w2,
      bytes = (ck ++ SP :: cstr (payload.take len)).take 255 ∧
      (rtpc_doreply cmd1 w0 payload len errd).2.sent =
        w0.sent ++ [net_event.sendto cmd1.controlfd bytes
          (ck.length + 1 + (cstr (payload.take len)).length) cmd1.raddr] ∧
      (rtpp_command_guard_retrans
          { command_read K fd2 dtime2 umode2 raddr2 data2 with cookie := some ck }
          (rtpc_doreply cmd1 w0 payload len errd).2).1 = 1 ∧
      (rtpp_command_guard_retrans
          { command_read K fd2 dtime2 umode2 raddr2 data2 with cookie := some ck }
          (rtpc_doreply cmd1 w0 payload len errd).2).2.2.sent =
        (rtpc_doreply cmd1 w0 payload len errd).2.sent ++
          [net_event.sendto fd2 bytes bytes.length raddr2] ∧
      get_command K E (rtpc_doreply cmd1 w0 payload len errd).2
          fd2 dtime2 umode2 raddr2 data2 = some (none, w2, []) ∧
      w2.sent = (rtpc_doreply cmd1 w0 payload len errd).2.sent ++
          [net_event.sendto fd2 bytes bytes.length raddr2] ∧
      (bytes.length = ck.length + 1 + (cstr (payload.take len)).length ↔
        ck.length + 1 + (cstr (payload.take len)).length ≤ 255) := by
  obtain ⟨hs, hr⟩ := doreply_dgram_cut cmd1 w0 payload ck len errd h1u h1c
  have hlen : ((ck ++ SP :: cstr (payload.take len)).take 255).length ≤ 255 := by
    rw [List.length_take]
    omega
  have hlk : rtpp_cmd_rcache.lookup (rtpc_doreply cmd1 w0 payload len errd).2.rcache
      ck BUF_R_SIZE = some ((ck ++ SP :: cstr (payload.take len)).take 255) := by
    rw [hr]
    exact lookup_insert_same _ _ _ _ hlen
  have hg := guard_retrans_hit
    { command_read K fd2 dtime2 umode2 raddr2 data2 with cookie := some ck }
    (rtpc_doreply cmd1 w0 payload len errd).2 ck _ rfl hlk
  have hsp := split_dgram_hit K E (command_read K fd2 dtime2 umode2 raddr2 data2)
    (rtpc_doreply cmd1 w0 payload len errd).2 ck _ h2u rfl rfl h2c hlk
  obtain ⟨w2, hget, hw2, _, _⟩ := get_command_of_split_nonzero K E _ fd2 dtime2 umode2 raddr2
    data2 _ hsp (by simp)
  refine ⟨_, w2, rfl, hs, ?_, ?_, hget, ?_, ?_⟩
  · rw [hg]
  · rw [hg]
    simp [command_read, rtpp_command_ctor, h2u]
  · rw [hw2]
    simp [retrans_state, command_read, rtpp_command_ctor, h2u]
  · rw [List.length_take]
    simp only [List.length_append, List.length_cons]
    omega

/-- C3 witness: the reply "0\n" to a datagram with a cookie of 254
characters, and then a datagram with that cookie again.  The original send
is passed the length 257 with the 255 characters that `buf_r` holds; the
retransmission sends these 255 characters with the length 255. -/
theorem C3_retransmit_idempotence_witness :
    (rtpc_doreply (sample_dgram_command sample_long_cookie) sample_world
        reply_text_ok 2 0).2.sent =
      [net_event.sendto 3 (sample_long_cookie ++ [SP]) 257 7] ∧
    (rtpp_command_guard_retrans
        { command_read sample_consts 4 9 1 8 (sample_long_cookie ++ [SP, 'V']) with
          cookie := some sample_long_cookie }
        (rtpc_doreply (sample_dgram_command sample_long_cookie) sample_world
          reply_text_ok 2 0).2).2.2.sent =
      [net_event.sendto 3 (sample_long_cookie ++ [SP]) 257 7,
       net_event.sendto 4 (sample_long_cookie ++ [SP]) 255 8] ∧
    ((get_command sample_consts sample_env
        (rtpc_doreply (sample_dgram_command sample_long_cookie) sample_world
          reply_text_ok 2 0).2
        4 9 1 8 (sample_long_cookie ++ [SP, 'V'])).map (fun g => (g.1, g.2.2))) =
      some (none, []) := by
  obtain ⟨bytes, w2, hb, h1, _, h3, h4, _, _⟩ :=
    C3_retransmit_idempotence sample_consts sample_env
      (sample_dgram_command sample_long_cookie) sample_world reply_text_ok
      sample_long_cookie 2 0 4 9 1 8 (sample_long_cookie ++ [SP, 'V'])
      (by decide) (by decide) (by decide) (by decide)
  have hb2 : bytes = sample_long_cookie ++ [SP] := hb.trans (by decide)
  subst hb2
  refine ⟨h1.trans (by decide), ?_, ?_⟩
  · rw [h3, h1]
    decide
  · rw [h4]
    rfl

/-! ## The outcome of the loop in terms of the tokens -/

/-- What `plain_outcome` leaves in a state that starts the main vector at
slot 0 with empty vectors of `RTPC_MAX_ARGC` slots: the main vector holds the
tokens before the first "&&", the sub-command vector those behind it, each
cut at the size of the vector and terminated by NULL when it is not full;
nothing else of the command and nothing of the world changes; the loop is
left for `etoomany` exactly when one of the two parts has `RTPC_MAX_ARGC` or
more tokens. -/
theorem plain_outcome_summary (K : Consts) (c : rtpp_command) (w1 : World)
    (toks : List (List Char)) (hK : 0 < K.RTPC_MAX_ARGC) (hc0 : c.args.c = 0)
    (hs0 : c.subc_args.c = 0) (hv : c.args.v.length = K.RTPC_MAX_ARGC)
    (hsv : c.subc_args.v.length = K.RTPC_MAX_ARGC) :
    (plain_outcome K ⟨c, w1, cap_t.args, 0⟩ toks).st.w = w1 ∧
    (plain_outcome K ⟨c, w1, cap_t.args, 0⟩ toks).st.cmd =
      { c with args := (plain_outcome K ⟨c, w1, cap_t.args, 0⟩ toks).st.cmd.args,
               subc_args := (plain_outcome K ⟨c, w1, cap_t.args, 0⟩ toks).st.cmd.subc_args } ∧
    (plain_outcome K ⟨c, w1, cap_t.args, 0⟩ toks).st.cmd.args.c =
      min (main_part toks).length K.RTPC_MAX_ARGC ∧
    (plain_outcome K ⟨c, w1, cap_t.args, 0⟩ toks).st.cmd.args.held =
      ((main_part toks).take K.RTPC_MAX_ARGC).map some ∧
    ((main_part toks).length < K.RTPC_MAX_ARGC →
      (plain_outcome K ⟨c, w1, cap_t.args, 0⟩ toks).st.cmd.args.v[(main_part toks).length]? =
        some none) ∧
    (plain_outcome K ⟨c, w1, cap_t.args, 0⟩ toks).st.cmd.subc_args.c =
      (if (main_part toks).length < K.RTPC_MAX_ARGC
        then min (sub_part toks).length K.RTPC_MAX_ARGC else 0) ∧
    (plain_outcome K ⟨c, w1, cap_t.args, 0⟩ toks).st.cmd.subc_args.held =
      (if (main_part toks).length < K.RTPC_MAX_ARGC
        then ((sub_part toks).take K.RTPC_MAX_ARGC).map some else []) ∧
    ((main_part toks).length < K.RTPC_MAX_ARGC → amp_part toks ≠ [] →
      (sub_part toks).length < K.RTPC_MAX_ARGC →
      (plain_outcome K ⟨c, w1, cap_t.args, 0⟩ toks).st.cmd.subc_args.v[(sub_part toks).length]? =
        some none) ∧
    ((plain_outcome K ⟨c, w1, cap_t.args, 0⟩ toks).st.cap = cap_t.subc_args ↔
      (main_part toks).length < K.RTPC_MAX_ARGC ∧ amp_part toks ≠ []) ∧
    ((plain_outcome K ⟨c, w1, cap_t.args, 0⟩ toks =
        split_exit.etoomany (plain_outcome K ⟨c, w1, cap_t.args, 0⟩ toks).st) ↔
      K.RTPC_MAX_ARGC ≤ (main_part toks).length ∨
        K.RTPC_MAX_ARGC ≤ (sub_part toks).length) ∧
    ((plain_outcome K ⟨c, w1, cap_t.args, 0⟩ toks =
        split_exit.eol (plain_outcome K ⟨c, w1, cap_t.args, 0⟩ toks).st) ↔
      (main_part toks).length < K.RTPC_MAX_ARGC ∧
        (sub_part toks).length < K.RTPC_MAX_ARGC) := by
  by_cases hover : K.RTPC_MAX_ARGC ≤ (main_part toks).length
  · have hlt : ¬ (main_part toks).length < K.RTPC_MAX_ARGC := by omega
    have hmin : min (main_part toks).length K.RTPC_MAX_ARGC = K.RTPC_MAX_ARGC := by omega
    have hlen : ((main_part toks).take K.RTPC_MAX_ARGC).length = K.RTPC_MAX_ARGC := by
      rw [List.length_take]; omega
    have hheld := held_store_tokens_full ((main_part toks).take K.RTPC_MAX_ARGC) c.args.v
      (by omega)
    rw [hlen] at hheld
    have hP : plain_outcome K ⟨c, w1, cap_t.args, 0⟩ toks =
        split_exit.etoomany (push_tokens ⟨c, w1, cap_t.args, 0⟩
          ((main_part toks).take K.RTPC_MAX_ARGC)) := by
      simp [plain_outcome, hover]
    rw [hP]
    simp only [split_exit.st, push_tokens, hlen, hc0, Nat.zero_add, hmin, hlt, if_false,
      rtpp_command_args.held, hheld, hs0, List.take_zero]
    simp [hover]
  · have hlt : (main_part toks).length < K.RTPC_MAX_ARGC := by omega
    have hmin : min (main_part toks).length K.RTPC_MAX_ARGC = (main_part toks).length := by
      omega
    have htake : (main_part toks).take K.RTPC_MAX_ARGC = main_part toks :=
      List.take_of_length_le (by omega)
    have hheld := held_store_tokens (main_part toks) c.args.v (by omega)
    cases hA : amp_part toks with
    | nil =>
      have hsub : sub_part toks = [] := by simp [sub_part, hA]
      have hP : plain_outcome K ⟨c, w1, cap_t.args, 0⟩ toks =
          split_exit.eol ((push_tokens ⟨c, w1, cap_t.args, 0⟩ (main_part toks)).store none) := by
        simp [plain_outcome, hover, hA]
      rw [hP]
      simp only [split_exit.st, push_tokens, split_state.store, hc0, Nat.zero_add, hmin, hlt,
        if_true, rtpp_command_args.held, hheld, hs0, List.take_zero, hsub, htake,
        List.length_nil, List.map_nil]
      simp [hlt]
      omega
    | cons a sub =>
      have hsub : sub_part toks = sub := by simp [sub_part, hA]
      by_cases hso : K.RTPC_MAX_ARGC ≤ sub.length
      · have hlen : (sub.take K.RTPC_MAX_ARGC).length = K.RTPC_MAX_ARGC := by
          rw [List.length_take]; omega
        have hsheld := held_store_tokens_full (sub.take K.RTPC_MAX_ARGC) c.subc_args.v
          (by omega)
        rw [hlen] at hsheld
        have hP : plain_outcome K ⟨c, w1, cap_t.args, 0⟩ toks =
            split_exit.etoomany (push_tokens
              (switch_to_subc (push_tokens ⟨c, w1, cap_t.args, 0⟩ (main_part toks)))
              (sub.take K.RTPC_MAX_ARGC)) := by
          simp [plain_outcome, hover, hA, hso]
        rw [hP]
        have hmin2 : min sub.length K.RTPC_MAX_ARGC = K.RTPC_MAX_ARGC := by omega
        simp only [split_exit.st, push_tokens, switch_to_subc, split_state.store, hc0,
          Nat.zero_add, hmin, hlt, if_true, rtpp_command_args.held, hheld, hs0, hsub, htake,
          hlen, hsheld, hmin2]
        simp [hso, hlt]
      · have hslt : sub.length < K.RTPC_MAX_ARGC := by omega
        have hsheld := held_store_tokens sub c.subc_args.v (by omega)
        have hstake : sub.take K.RTPC_MAX_ARGC = sub := List.take_of_length_le (by omega)
        have hP : plain_outcome K ⟨c, w1, cap_t.args, 0⟩ toks =
            split_exit.eol ((push_tokens
              (switch_to_subc (push_tokens ⟨c, w1, cap_t.args, 0⟩ (main_part toks)))
              sub).store none) := by
          simp [plain_outcome, hover, hA, hso]
        rw [hP]
        have hmin2 : min sub.length K.RTPC_MAX_ARGC = sub.length := by omega
        simp only [split_exit.st, push_tokens, switch_to_subc, split_state.store, hc0,
          Nat.zero_add, hmin, hlt, if_true, rtpp_command_args.held, hheld, hs0, hsub, htake,
          hsheld, hmin2, hstake]
        simp [hslt, hlt]

/-! ## Token lists and their text -/

theorem tok_chars_of_is_token (t : List Char) (h : is_token t = true) : tok_chars t :=
  fun x hx => is_token_mem t h x hx

theorem join_tokens_cons_cons (t u : List Char) (r : List (List Char)) :
    join_tokens (t :: u :: r) = t ++ SP :: join_tokens (u :: r) := by
  simp [join_tokens, List.intercalate, List.intersperse]

theorem SP_is_sep : is_sep SP = true := by decide

/-- Tokens joined by single spaces are split into the same tokens again. -/
theorem ref_tokens_join_tokens (toks : List (List Char))
    (h : ∀ t ∈ toks, is_token t = true) : ref_tokens (cstr (join_tokens toks)) = toks := by
  induction toks with
  | nil => decide
  | cons t r ih =>
    have ht := h t (List.mem_cons_self t r)
    have htc := tok_chars_of_is_token t ht
    have hne := is_token_ne_nil t ht
    cases r with
    | nil =>
      have : join_tokens [t] = t := by simp [join_tokens, List.intercalate]
      rw [this, cstr_of_tok_chars t htc, ref_tokens_single t htc]
      simp [hne]
    | cons u r =>
      rw [join_tokens_cons_cons, cstr_tok_append t SP _ htc SP_is_sep,
        ref_tokens_tok_append t SP _ htc SP_is_sep,
        ih (fun x hx => h x (List.mem_cons_of_mem t hx))]
      simp [hne]

theorem main_part_of_not_mem (toks : List (List Char)) (h : AMPAMP ∉ toks) :
    main_part toks = toks ∧ amp_part toks = [] ∧ sub_part toks = [] := by
  have h1 : main_part toks = toks := by
    simp only [main_part]
    rw [List.takeWhile_eq_self_iff]
    intro t ht
    have : t ≠ AMPAMP := fun he => h (he ▸ ht)
    simpa using this
  have h2 : amp_part toks = [] := by
    have := main_amp_part toks
    rw [h1] at this
    simpa using this
  exact ⟨h1, h2, by simp [sub_part, h2]⟩

theorem main_part_append_ampamp (ts ss : List (List Char)) (h : AMPAMP ∉ ts) :
    main_part (ts ++ AMPAMP :: ss) = ts ∧ amp_part (ts ++ AMPAMP :: ss) = AMPAMP :: ss ∧
      sub_part (ts ++ AMPAMP :: ss) = ss := by
  induction ts with
  | nil => simp [main_part, amp_part, sub_part]
  | cons t ts ih =>
    have ht : t ≠ AMPAMP := fun he => h (he ▸ List.mem_cons_self t ts)
    have hts : AMPAMP ∉ ts := fun hm => h (List.mem_cons_of_mem t hm)
    have hb : (t != AMPAMP) = true := by simpa using ht
    obtain ⟨h1, h2, h3⟩ := ih hts
    simp only [main_part, amp_part, sub_part] at h1 h2 h3 ⊢
    simp only [List.cons_append, List.takeWhile_cons, List.dropWhile_cons, hb, if_true]
    exact ⟨by rw [h1], h2, h3⟩

theorem command_read_facts (K : Consts) (fd : Int) (dtime : Nat) (umode : Int) (raddr : Nat)
    (data : List Char) :
    (command_read K fd dtime umode raddr data).args.c = 0 ∧
    (command_read K fd dtime umode raddr data).subc_args.c = 0 ∧
    (command_read K fd dtime umode raddr data).args.v.length = K.RTPC_MAX_ARGC ∧
    (command_read K fd dtime umode raddr data).subc_args.v.length = K.RTPC_MAX_ARGC ∧
    (command_read K fd dtime umode raddr data).cookie = none ∧
    (command_read K fd dtime umode raddr data).umode = umode ∧
    (command_read K fd dtime umode raddr data).buf = data := by
  simp [command_read, rtpp_command_ctor]

/-! ## The tokenizing stage without a retransmission -/

theorem split_outcome_of_plain (K : Consts) (cmd c : rtpp_command) (w w1 : World)
    (cookie : Option (List Char)) (atoks : List (List Char)) (hK : 0 < K.RTPC_MAX_ARGC)
    (hc0 : c.args.c = 0) (hs0 : c.subc_args.c = 0) (hv : c.args.v.length = K.RTPC_MAX_ARGC)
    (hsv : c.subc_args.v.length = K.RTPC_MAX_ARGC)
    (hsent : w1.sent = w.sent) (hrc : w1.rcache = w.rcache)
    (hcsp : w1.csp = { w.csp with ncmds_rcvd := cnt_inc w.csp.ncmds_rcvd })
    (hfr : c = { cmd with args := c.args, subc_args := c.subc_args, cookie := cookie,
                          rcache_obj := if cookie.isSome then true else cmd.rcache_obj }) :
    split_outcome K cmd w cookie atoks (plain_outcome K ⟨c, w1, cap_t.args, 0⟩ atoks) := by
  obtain ⟨s1, s2, s3, s4, s5, s6, s7, s8, s9, s10, s11⟩ :=
    plain_outcome_summary K c w1 atoks hK hc0 hs0 hv hsv
  refine ⟨by rw [s1, hsent], by rw [s1, hrc], by rw [s1, hcsp], ?_, s3, s4, s5, s6, s7, s8, s9,
    s10, s11⟩
  rw [s2]
  have h1 := congrArg rtpp_command.buf hfr
  have h2 := congrArg rtpp_command.cca hfr
  have h3 := congrArg rtpp_command.dtime hfr
  have h4 := congrArg rtpp_command.raddr hfr
  have h5 := congrArg rtpp_command.sp hfr
  have h6 := congrArg rtpp_command.controlfd hfr
  have h7 := congrArg rtpp_command.cookie hfr
  have h8 := congrArg rtpp_command.umode hfr
  have h9 := congrArg rtpp_command.buf_r hfr
  have h10 := congrArg rtpp_command.rcache_obj hfr
  simp only [] at h1 h2 h3 h4 h5 h6 h7 h8 h9 h10
  rw [h1, h2, h3, h4, h5, h6, h7, h8, h9, h10]

/-- Without a retransmit hit the loop always ends, by `eol` or `etoomany`,
and leaves what `split_outcome` says for the cookie and the argument tokens
of the buffer. -/
theorem tokenize_no_hit (K : Consts) (w : World) (fd : Int) (dtime : Nat) (umode : Int)
    (raddr : Nat) (data : List Char) (hK : 0 < K.RTPC_MAX_ARGC)
    (hmiss : umode ≠ 0 → ∀ ck, (ref_tokens (cstr data)).head? = some ck →
      w.rcache.lookup ck BUF_R_SIZE = none) :
    ∃ e, rtpp_command_split_tokenize K (command_read K fd dtime umode raddr data) w = some e ∧
      split_outcome K (command_read K fd dtime umode raddr data) w
        (cookie_token umode (ref_tokens (cstr data)))
        (arg_tokens umode (ref_tokens (cstr data))) e := by
  obtain ⟨f1, f2, f3, f4, f5, f6, f7⟩ := command_read_facts K fd dtime umode raddr data
  by_cases hu : umode = 0
  · subst hu
    refine ⟨_, tokenize_stream K _ w f6 hK, ?_⟩
    rw [f7]
    simp only [cookie_token, arg_tokens, if_true]
    exact split_outcome_of_plain K _ _ w _ none _ hK f1 f2 f3 f4 rfl rfl rfl
      (by simp [command_read, rtpp_command_ctor])
  · cases htoks : ref_tokens (cstr data) with
    | nil =>
      have ht := tokenize_no_token K (command_read K fd dtime umode raddr data) w
        (by rw [f7]; exact htoks)
      have hp : split_exit.eol ((split_start (command_read K fd dtime umode raddr data) w).store
          none) = plain_outcome K (split_start (command_read K fd dtime umode raddr data) w)
            [] := by
        have hn : ¬ K.RTPC_MAX_ARGC ≤ 0 := by omega
        simp [plain_outcome, main_part, amp_part, split_start, push_tokens, store_tokens, hn]
      refine ⟨_, ht, ?_⟩
      rw [hp]
      simp only [cookie_token, arg_tokens, hu, if_false, List.tail_nil, List.head?_nil]
      exact split_outcome_of_plain K _ _ w _ none _ hK f1 f2 f3 f4 rfl rfl rfl
        (by simp [command_read, rtpp_command_ctor])
    | cons ck rest =>
      have hm := hmiss hu ck (by rw [htoks]; rfl)
      have ht := tokenize_dgram_miss K (command_read K fd dtime umode raddr data) w ck rest
        (by rw [f6]; exact hu) f1 f5 hK (by rw [f7]; exact htoks) hm
      refine ⟨_, ht, ?_⟩
      simp only [cookie_token, arg_tokens, hu, if_false, List.tail_cons, List.head?_cons]
      exact split_outcome_of_plain K _ _ w _ (some ck) _ hK
        (by simp [command_read, rtpp_command_ctor])
        (by simp [command_read, rtpp_command_ctor])
        (by simp [command_read, rtpp_command_ctor])
        (by simp [command_read, rtpp_command_ctor])
        rfl rfl rfl (by simp [command_read, rtpp_command_ctor])

theorem split_syntax_error_iff (K : Consts) (cmd : rtpp_command) (w : World)
    (cookie : Option (List Char)) (atoks : List (List Char)) (e : split_exit)
    (h : split_outcome K cmd w cookie atoks e) (he : e = split_exit.eol e.st) :
    split_syntax_error e.st = true ↔
      (main_part atoks = [] ∨ (cmd.umode ≠ 0 ∧ cookie = none) ∨
        (amp_part atoks ≠ [] ∧ sub_part atoks = [])) := by
  obtain ⟨hm, hs⟩ := h.eol_iff.mp he
  have hc := h.args_c
  have hsc := h.subc_c
  rw [if_pos hm] at hsc
  have hu : e.st.cmd.umode = cmd.umode := by
    have := congrArg rtpp_command.umode h.frame
    simpa using this
  have hck : e.st.cmd.cookie = cookie := by
    have := congrArg rtpp_command.cookie h.frame
    simpa using this
  have hcap := h.cap_subc
  simp only [split_syntax_error, Bool.or_eq_true, Bool.and_eq_true, decide_eq_true_eq,
    bne_iff_ne, beq_iff_eq, hu, hck, hc, hsc]
  have e1 : min (main_part atoks).length K.RTPC_MAX_ARGC < 1 ↔ main_part atoks = [] := by
    rw [← List.length_eq_zero]; omega
  have e2 : min (sub_part atoks).length K.RTPC_MAX_ARGC < 1 ↔ sub_part atoks = [] := by
    rw [← List.length_eq_zero]; omega
  rw [e1, e2, hcap]
  constructor
  · rintro ((h1 | h1) | h1)
    · exact Or.inl h1
    · exact Or.inr (Or.inl h1)
    · exact Or.inr (Or.inr ⟨h1.1.2, h1.2⟩)
  · rintro (h1 | h1 | h1)
    · exact Or.inl (Or.inl h1)
    · exact Or.inl (Or.inr h1)
    · exact Or.inr ⟨⟨hm, h1.1⟩, h1.2⟩

/-! ## C4: the sub-command split -/

/-- C4: in stream mode, for token lists `ts` and `ss`, both non-empty, of
non-empty C strings free of CR, LF, TAB and space, no token of `ts` being
"&&", and both shorter than `RTPC_MAX_ARGC`, the tokenizer of
`rtpp_command_split` run on the line "t1 .. tn && s1 .. sm" ends regularly
with `args.c = n`, the first `n` slots of `args` holding `ts` and the next
one NULL, `subc_args.c = m`, the first `m` slots of `subc_args` holding `ss`
and the next one NULL; the separating "&&" is in neither vector, and the
test for a syntax error does not fire. -/
theorem C4_subcommand_split (K : Consts) (w : World) (fd : Int) (dtime raddr : Nat)
    (ts ss : List (List Char)) (hts : ts ≠ []) (hss : ss ≠ [])
    (htok : ∀ t ∈ ts ++ ss, is_token t = true) (hamp : AMPAMP ∉ ts)
    (hn : ts.length < K.RTPC_MAX_ARGC) (hm : ss.length < K.RTPC_MAX_ARGC) :
    ∃ st, rtpp_command_split_tokenize K
        (command_read K fd dtime 0 raddr (join_tokens (ts ++ AMPAMP :: ss))) w =
        some (split_exit.eol st) ∧
      split_syntax_error st = false ∧
      st.cmd.args.c = ts.length ∧ st.cmd.args.held = ts.map some ∧
      st.cmd.args.v[ts.length]? = some none ∧ some AMPAMP ∉ st.cmd.args.held ∧
      st.cmd.subc_args.c = ss.length ∧ st.cmd.subc_args.held = ss.map some ∧
      st.cmd.subc_args.v[ss.length]? = some none := by
  have hall : ∀ t ∈ ts ++ AMPAMP :: ss, is_token t = true := by
    intro t ht
    rcases List.mem_append.mp ht with h | h
    · exact htok t (List.mem_append_left _ h)
    · rcases List.mem_cons.mp h with rfl | h
      · decide
      · exact htok t (List.mem_append_right _ h)
  obtain ⟨e, he, ho⟩ := tokenize_no_hit K w fd dtime 0 raddr (join_tokens (ts ++ AMPAMP :: ss))
    (by omega) (fun h => absurd rfl h)
  rw [ref_tokens_join_tokens _ hall] at ho
  simp only [arg_tokens, cookie_token, if_true] at ho
  obtain ⟨m1, m2, m3⟩ := main_part_append_ampamp ts ss hamp
  have heol := ho.eol_iff.mpr (by rw [m1, m3]; exact ⟨hn, hm⟩)
  have hse : ¬ (split_syntax_error e.st = true) := by
    rw [split_syntax_error_iff K _ w _ _ e ho heol, m1, m2, m3]
    simp [command_read, rtpp_command_ctor, hts, hss]
  have h1 := ho.args_c
  have h2 := ho.args_held
  have h3 := ho.args_null
  have h4 := ho.subc_c
  have h5 := ho.subc_held
  have h6 := ho.subc_null
  rw [m1] at h1 h2 h3 h4 h5 h6
  rw [m3] at h4 h5 h6
  rw [m2] at h6
  rw [if_pos hn] at h4 h5
  rw [List.take_of_length_le (by omega)] at h2 h5
  rw [show min ts.length K.RTPC_MAX_ARGC = ts.length by omega] at h1
  rw [show min ss.length K.RTPC_MAX_ARGC = ss.length by omega] at h4
  refine ⟨e.st, by rw [he, ← heol], by simpa using hse, h1, h2, h3 hn, ?_, h4, h5,
    h6 hn (by simp) hm⟩
  rw [h2]
  intro hmem
  rcases List.mem_map.mp hmem with ⟨t, ht, hte⟩
  have htA : t = AMPAMP := Option.some.inj hte
  exact hamp (htA ▸ ht)

/-- C4 witness: the line "tok1 tok2 && sub1 sub2" yields `args = [tok1,
tok2]` and `subc_args = [sub1, sub2]`. -/
theorem C4_subcommand_split_witness :
    ∃ st, rtpp_command_split_tokenize sample_consts
        (command_read sample_consts 3 0 0 7 "tok1 tok2 && sub1 sub2".toList) sample_world =
        some (split_exit.eol st) ∧
      split_syntax_error st = false ∧
      st.cmd.args.c = 2 ∧ st.cmd.args.held = [some "tok1".toList, some "tok2".toList] ∧
      st.cmd.args.v[2]? = some none ∧ some AMPAMP ∉ st.cmd.args.held ∧
      st.cmd.subc_args.c = 2 ∧
      st.cmd.subc_args.held = [some "sub1".toList, some "sub2".toList] ∧
      st.cmd.subc_args.v[2]? = some none :=
  C4_subcommand_split sample_consts sample_world 3 0 7 ["tok1".toList, "tok2".toList]
    ["sub1".toList, "sub2".toList] (by decide) (by decide) (by decide) (by decide) (by decide)
    (by decide)

/-! ## C5: tokenization is the reference split -/

/-- C5 counterexample: the bytes "a<NUL>b c" read from a stream.  The
maximal runs of characters other than CR, LF, TAB and space of the buffer are
"a<NUL>b" and "c", two tokens and no "&&" among them; the tokenizer stops at
the NUL byte and leaves the single argument "a", with `args.c = 1`. -/
theorem C5_counterexample :
    ref_tokens sample_nul_buffer = [['a', NUL, 'b'], ['c']] ∧
    AMPAMP ∉ ref_tokens sample_nul_buffer ∧
    (ref_tokens sample_nul_buffer).length < sample_consts.RTPC_MAX_ARGC ∧
    (rtpp_command_split_tokenize sample_consts
        (command_read sample_consts 3 0 0 7 sample_nul_buffer) sample_world).map
      (fun e => (e.st.cmd.args.c, e.st.cmd.args.held)) = some (1, [some ['a']]) := by
  refine ⟨by decide, by decide, by decide, by decide⟩

/-- C5 (amended): in stream mode, for every input buffer whose reference
tokens (the maximal non-empty runs of characters other than CR, LF, TAB and
space of the C string in the buffer, that is of the bytes before the first
NUL byte) contain no "&&" and number fewer than
`RTPC_MAX_ARGC`, the tokenizer of `rtpp_command_split` ends regularly with
the first `args.c` slots of `args` holding exactly these tokens in input
order, `args.c` being their number and the next slot NULL; no argument is
empty, nothing goes to `subc_args` and no cookie is set. -/
theorem C5_tokenization_reference (K : Consts) (w : World) (fd : Int) (dtime raddr : Nat)
    (data : List Char) (hamp : AMPAMP ∉ ref_tokens (cstr data))
    (hlen : (ref_tokens (cstr data)).length < K.RTPC_MAX_ARGC) :
    ∃ st, rtpp_command_split_tokenize K (command_read K fd dtime 0 raddr data) w =
        some (split_exit.eol st) ∧
      st.cmd.args.c = (ref_tokens (cstr data)).length ∧
      st.cmd.args.held = (ref_tokens (cstr data)).map some ∧
      st.cmd.args.v[(ref_tokens (cstr data)).length]? = some none ∧
      some [] ∉ st.cmd.args.held ∧
      st.cmd.subc_args.c = 0 ∧ st.cmd.cookie = none := by
  obtain ⟨e, he, ho⟩ := tokenize_no_hit K w fd dtime 0 raddr data (by omega)
    (fun h => absurd rfl h)
  simp only [arg_tokens, cookie_token, if_true] at ho
  obtain ⟨m1, m2, m3⟩ := main_part_of_not_mem _ hamp
  have hK : 0 < K.RTPC_MAX_ARGC := by omega
  have heol := ho.eol_iff.mpr (by rw [m1, m3]; exact ⟨hlen, hK⟩)
  have h1 := ho.args_c
  have h2 := ho.args_held
  have h3 := ho.args_null
  have h4 := ho.subc_c
  rw [m1] at h1 h2 h3 h4
  rw [m3] at h4
  rw [if_pos hlen] at h4
  rw [List.take_of_length_le (by omega)] at h2
  rw [show min (ref_tokens (cstr data)).length K.RTPC_MAX_ARGC =
    (ref_tokens (cstr data)).length by omega] at h1
  have hck : e.st.cmd.cookie = none := by
    have := congrArg rtpp_command.cookie ho.frame
    simpa using this
  refine ⟨e.st, by rw [he, ← heol], h1, h2, h3 hlen, ?_, by simpa using h4, hck⟩
  rw [h2]
  intro hmem
  rcases List.mem_map.mp hmem with ⟨t, ht, hte⟩
  have ht0 : t = [] := Option.some.inj hte
  exact is_token_ne_nil t (ref_tokens_is_token data t ht) ht0

/-- C5 witness: the buffer " a  b<TAB>c<CR><LF>" yields the arguments a, b
and c. -/
theorem C5_tokenization_reference_witness :
    ∃ st, rtpp_command_split_tokenize sample_consts
        (command_read sample_consts 3 0 0 7 sample_spaced_buffer) sample_world =
        some (split_exit.eol st) ∧
      st.cmd.args.c = 3 ∧
      st.cmd.args.held = [some ['a'], some ['b'], some ['c']] ∧
      st.cmd.args.v[3]? = some none ∧
      some [] ∉ st.cmd.args.held ∧
      st.cmd.subc_args.c = 0 ∧ st.cmd.cookie = none :=
  C5_tokenization_reference sample_consts sample_world 3 0 7 sample_spaced_buffer
    (by decide) (by decide)

/-! ## C6: the cookie -/

theorem main_part_cons_of_ne (t : List Char) (rest : List (List Char)) (h : t ≠ AMPAMP) :
    main_part (t :: rest) = t :: main_part rest := by
  have hb : (t != AMPAMP) = true := by simpa using h
  simp [main_part, List.takeWhile_cons, hb]

/-- C6 counterexample: on a stream the buffer "&& a" has "&&" as its first
non-empty token, yet slot 0 of `args` is NULL and no argument is counted; and
on a datagram with a cache miss whose cookie is followed by 21 tokens, `args`
has only 20 of them. -/
theorem C6_counterexample :
    (ref_tokens (cstr "&& a".toList)).head? = some AMPAMP ∧
    (rtpp_command_split_tokenize sample_consts
        (command_read sample_consts 3 0 0 7 "&& a".toList) sample_world).map
      (fun e => (e.st.cmd.args.v[0]?, e.st.cmd.args.c)) = some (some none, 0) ∧
    (ref_tokens (cstr sample_long_datagram)).tail = List.replicate 21 ['a'] ∧
    (rtpp_command_split_tokenize sample_consts
        (command_read sample_consts 3 0 1 7 sample_long_datagram) sample_world).map
      (fun e => (e.st.cmd.cookie, e.st.cmd.args.c, e.st.cmd.args.held)) =
      some (some "ck".toList, 20, List.replicate 20 (some ['a'])) := by
  refine ⟨by decide, by decide, by decide, by decide⟩

/-- C6 (amended): the vectors having at least one slot, in datagram mode with
a retransmit-cache miss the first non-empty token of the input becomes the
cookie of the command and is not stored in `args`: the first `args.c` slots
of `args` hold the tokens that follow it up to a "&&", at most
`RTPC_MAX_ARGC` of them, and `args.c` is their number, the cookie not
counted; in stream mode no cookie is set and the first non-empty token,
unless it is "&&", is `args[0]`. -/
theorem C6_cookie (K : Consts) (w : World) (fd : Int) (dtime : Nat) (umode : Int)
    (raddr : Nat) (data : List Char) (hK : 0 < K.RTPC_MAX_ARGC)
    (hmiss : umode ≠ 0 → ∀ ck, (ref_tokens (cstr data)).head? = some ck →
      w.rcache.lookup ck BUF_R_SIZE = none) :
    ∃ e, rtpp_command_split_tokenize K (command_read K fd dtime umode raddr data) w = some e ∧
      (umode ≠ 0 →
        e.st.cmd.cookie = (ref_tokens (cstr data)).head? ∧
        e.st.cmd.args.c =
          min (main_part (ref_tokens (cstr data)).tail).length K.RTPC_MAX_ARGC ∧
        e.st.cmd.args.held =
          ((main_part (ref_tokens (cstr data)).tail).take K.RTPC_MAX_ARGC).map some) ∧
      (umode = 0 →
        e.st.cmd.cookie = none ∧
        ∀ t, (ref_tokens (cstr data)).head? = some t → t ≠ AMPAMP →
          e.st.cmd.args.v[0]? = some (some t)) := by
  obtain ⟨e, he, ho⟩ := tokenize_no_hit K w fd dtime umode raddr data hK hmiss
  have hck : e.st.cmd.cookie = cookie_token umode (ref_tokens (cstr data)) := by
    have := congrArg rtpp_command.cookie ho.frame
    simpa using this
  refine ⟨e, he, ?_, ?_⟩
  · intro hu
    have h1 := ho.args_c
    have h2 := ho.args_held
    simp only [arg_tokens, cookie_token, hu, if_false] at h1 h2 hck
    exact ⟨hck, h1, h2⟩
  · intro hu
    have h1 := ho.args_c
    have h2 := ho.args_held
    simp only [arg_tokens, cookie_token, hu, if_true] at h1 h2 hck
    refine ⟨hck, ?_⟩
    intro t ht hne
    cases htoks : ref_tokens (cstr data) with
    | nil => rw [htoks] at ht; simp at ht
    | cons t1 rest =>
      rw [htoks] at ht h1 h2
      simp only [List.head?_cons, Option.some.injEq] at ht
      subst ht
      rw [main_part_cons_of_ne t1 rest hne] at h1 h2
      obtain ⟨k, hk⟩ : ∃ k, K.RTPC_MAX_ARGC = k + 1 := ⟨K.RTPC_MAX_ARGC - 1, by omega⟩
      rw [hk, List.take_succ_cons, List.map_cons] at h2
      have hc : 0 < e.st.cmd.args.c := by
        rw [h1]
        simp only [List.length_cons]
        omega
      have h0 : (e.st.cmd.args.held)[0]? = some (some t1) := by rw [h2]; simp
      simp only [rtpp_command_args.held, List.getElem?_take, hc, if_true] at h0
      exact h0

/-- C6 witness: the datagram "ck U a b" with an empty cache, and the stream
line "U a b". -/
theorem C6_cookie_witness :
    ∃ e, rtpp_command_split_tokenize sample_consts
        (command_read sample_consts 3 0 1 7 "ck U a b".toList) sample_world = some e ∧
      e.st.cmd.cookie = some "ck".toList ∧ e.st.cmd.args.c = 3 ∧
      e.st.cmd.args.held = [some ['U'], some ['a'], some ['b']] ∧
      ∃ e2, rtpp_command_split_tokenize sample_consts
        (command_read sample_consts 3 0 0 7 "U a b".toList) sample_world = some e2 ∧
      e2.st.cmd.cookie = none ∧ e2.st.cmd.args.v[0]? = some (some ['U']) := by
  obtain ⟨e, he, h1, _⟩ := C6_cookie sample_consts sample_world 3 0 1 7 "ck U a b".toList
    (by decide) (fun _ ck _ => by simp [rtpp_cmd_rcache.lookup, sample_world])
  obtain ⟨e2, he2, _, h2⟩ := C6_cookie sample_consts sample_world 3 0 0 7 "U a b".toList
    (by decide) (fun h => absurd rfl h)
  obtain ⟨a1, a2, a3⟩ := h1 (by decide)
  obtain ⟨b1, b2⟩ := h2 rfl
  exact ⟨e, he, a1, a2, a3, e2, he2, b1, b2 ['U'] (by decide) (by decide)⟩

/-! ## C7: when the tokenizing stage rejects -/

theorem reject_conditions_iff (K : Consts) (umode : Int) (toks : List (List Char)) :
    reject_conditions K umode toks = true ↔
      (main_part (arg_tokens umode toks) = [] ∨
        (umode ≠ 0 ∧ cookie_token umode toks = none) ∨
        (amp_part (arg_tokens umode toks) ≠ [] ∧ sub_part (arg_tokens umode toks) = []) ∨
        K.RTPC_MAX_ARGC ≤ (main_part (arg_tokens umode toks)).length ∨
        K.RTPC_MAX_ARGC ≤ (sub_part (arg_tokens umode toks)).length) := by
  simp only [reject_conditions, Bool.or_eq_true, Bool.and_eq_true, decide_eq_true_eq,
    bne_iff_ne, List.isEmpty_iff, Option.isNone_iff_eq_none, Bool.not_eq_true', ne_eq]
  have e1 : ∀ l : List (List Char), (l.isEmpty = false) ↔ ¬ l = [] := by
    intro l; cases l <;> simp
  rw [e1]
  tauto

theorem split_of_tokenize_eol (K : Consts) (E : Env) (cmd : rtpp_command) (w : World)
    (st : split_state) (h : rtpp_command_split_tokenize K cmd w = some (split_exit.eol st)) :
    rtpp_command_split K E cmd w =
      some (if split_syntax_error st = true then split_rejected K st
            else split_pre_parsed E st) := by
  simp only [rtpp_command_split, h, split_rejected, split_pre_parsed]
  by_cases hs : split_syntax_error st = true
  · simp [hs]
  · simp only [hs, if_false]
    by_cases hp : (E.rtpp_command_pre_parse st.cmd st.w).1 = 0 <;> simp [hp]

theorem split_of_tokenize_etoomany (K : Consts) (E : Env) (cmd : rtpp_command) (w : World)
    (st : split_state)
    (h : rtpp_command_split_tokenize K cmd w = some (split_exit.etoomany st)) :
    rtpp_command_split K E cmd w = some (split_rejected K st) := by
  simp only [rtpp_command_split, h, split_rejected]

/-- Without a retransmit hit: the split rejects the command with
`ECODE_PARSE_1` when one of the rejection conditions holds, and hands it to
pre-parse otherwise; the tokenizing stage itself sends nothing. -/
theorem split_no_hit (K : Consts) (E : Env) (w : World) (fd : Int) (dtime : Nat) (umode : Int)
    (raddr : Nat) (data : List Char) (hK : 0 < K.RTPC_MAX_ARGC)
    (hmiss : umode ≠ 0 → ∀ ck, (ref_tokens (cstr data)).head? = some ck →
      w.rcache.lookup ck BUF_R_SIZE = none) :
    ∃ st, (rtpp_command_split_tokenize K (command_read K fd dtime umode raddr data) w =
          some (split_exit.eol st) ∨
        rtpp_command_split_tokenize K (command_read K fd dtime umode raddr data) w =
          some (split_exit.etoomany st)) ∧
      st.w.sent = w.sent ∧ st.w.rcache = w.rcache ∧
      st.w.csp = { w.csp with ncmds_rcvd := cnt_inc w.csp.ncmds_rcvd } ∧
      rtpp_command_split K E (command_read K fd dtime umode raddr data) w =
        some (if reject_conditions K umode (ref_tokens (cstr data)) = true
              then split_rejected K st else split_pre_parsed E st) := by
  obtain ⟨e, he, ho⟩ := tokenize_no_hit K w fd dtime umode raddr data hK hmiss
  have hrj := reject_conditions_iff K umode (ref_tokens (cstr data))
  have hum : (command_read K fd dtime umode raddr data).umode = umode :=
    (command_read_facts K fd dtime umode raddr data).2.2.2.2.2.1
  cases e with
  | eol st =>
    have hb := ho.eol_iff.mp rfl
    have hse := split_syntax_error_iff K _ w _ _ _ ho rfl
    rw [hum] at hse
    simp only [split_exit.st] at hse
    refine ⟨st, Or.inl he, ho.sent, ho.rcache, ho.csp, ?_⟩
    rw [split_of_tokenize_eol K E _ w st he]
    have hiff : split_syntax_error st = true ↔
        reject_conditions K umode (ref_tokens (cstr data)) = true := by
      rw [hse, hrj]
      constructor
      · rintro (h | h | h)
        · exact Or.inl h
        · exact Or.inr (Or.inl h)
        · exact Or.inr (Or.inr (Or.inl h))
      · rintro (h | h | h | h | h)
        · exact Or.inl h
        · exact Or.inr (Or.inl h)
        · exact Or.inr (Or.inr h)
        · omega
        · omega
    by_cases hs : split_syntax_error st = true
    · rw [if_pos hs, if_pos (hiff.mp hs)]
    · rw [if_neg hs, if_neg (fun h => hs (hiff.mpr h))]
  | retrans st =>
    have h1 := ho.eol_iff
    have h2 := ho.etoomany_iff
    simp only [split_exit.st] at h1 h2
    have hn1 : ¬ ((main_part (arg_tokens umode (ref_tokens (cstr data)))).length <
          K.RTPC_MAX_ARGC ∧
        (sub_part (arg_tokens umode (ref_tokens (cstr data)))).length < K.RTPC_MAX_ARGC) :=
      fun h => by have := h1.mpr h; cases this
    have hn2 : ¬ (K.RTPC_MAX_ARGC ≤
          (main_part (arg_tokens umode (ref_tokens (cstr data)))).length ∨
        K.RTPC_MAX_ARGC ≤ (sub_part (arg_tokens umode (ref_tokens (cstr data)))).length) :=
      fun h => by have := h2.mpr h; cases this
    exact absurd ⟨by omega, by omega⟩ hn1
  | etoomany st =>
    have hb := ho.etoomany_iff.mp rfl
    refine ⟨st, Or.inr he, ho.sent, ho.rcache, ho.csp, ?_⟩
    rw [split_of_tokenize_etoomany K E _ w st he]
    have : reject_conditions K umode (ref_tokens (cstr data)) = true := by
      rw [hrj]
      exact Or.inr (Or.inr (Or.inr hb))
    rw [if_pos this]

theorem reply_error_counts (cmd : rtpp_command) (w : World) (ecode : Int) :
    (reply_error cmd w ecode).2.csp.ncmds_errs = cnt_inc w.csp.ncmds_errs ∧
    (reply_error cmd w ecode).2.csp.ncmds_repld = cnt_inc w.csp.ncmds_repld ∧
    (reply_error cmd w ecode).2.csp.ncmds_succd = w.csp.ncmds_succd := by
  simp only [reply_error, rtpc_doreply]
  by_cases hu : cmd.umode = 0
  · simp [hu]
  · cases hc : cmd.cookie <;> simp [hu, hc]

/-- C7: absent a retransmit hit (and the vectors having at least one slot),
`rtpp_command_split` rejects the command, that is, it sends the reply of
`reply_error(cmd, ECODE_PARSE_1)` as the only thing sent, counted as an
error, returns 1 and makes no call to `rtpp_command_pre_parse`, if and only
if the main argument vector is empty, or the transport is datagram and there
is no cookie token, or a "&&" has an empty sub-command behind it, or an
argument vector overflows; in every other case `rtpp_command_pre_parse` is
called exactly once, on the tokenized command, and the split returns non-zero
exactly when pre-parse does. -/
theorem C7_tokenizer_rejects_iff (K : Consts) (E : Env) (w : World) (fd : Int) (dtime : Nat)
    (umode : Int) (raddr : Nat) (data : List Char) (hK : 0 < K.RTPC_MAX_ARGC)
    (hmiss : umode ≠ 0 → ∀ ck, (ref_tokens (cstr data)).head? = some ck →
      w.rcache.lookup ck BUF_R_SIZE = none) :
    ∃ (st : split_state) (r : cmd_result),
      rtpp_command_split K E (command_read K fd dtime umode raddr data) w = some r ∧
      st.w.sent = w.sent ∧ st.w.rcache = w.rcache ∧
      (reject_conditions K umode (ref_tokens (cstr data)) = true →
        r.rval = 1 ∧ r.calls = [] ∧
        (r.cmd, r.w) = reply_error st.cmd st.w K.ECODE_PARSE_1 ∧
        r.w.csp.ncmds_errs = cnt_inc w.csp.ncmds_errs ∧
        r.w.csp.ncmds_repld = cnt_inc w.csp.ncmds_repld) ∧
      (reject_conditions K umode (ref_tokens (cstr data)) = false →
        r.calls = [call_event.rtpp_command_pre_parse st.cmd] ∧
        (r.rval ≠ 0 ↔ (E.rtpp_command_pre_parse st.cmd st.w).1 ≠ 0) ∧
        r.cmd = (E.rtpp_command_pre_parse st.cmd st.w).2.1 ∧
        r.w = (E.rtpp_command_pre_parse st.cmd st.w).2.2) := by
  obtain ⟨st, _, h1, h2, h3, h4⟩ := split_no_hit K E w fd dtime umode raddr data hK hmiss
  refine ⟨st, _, h4, h1, h2, ?_, ?_⟩
  · intro hr
    rw [if_pos hr]
    have hc := reply_error_counts st.cmd st.w K.ECODE_PARSE_1
    refine ⟨rfl, rfl, rfl, ?_, ?_⟩
    · simp only [split_rejected]; rw [hc.1, h3]
    · simp only [split_rejected]; rw [hc.2.1, h3]
  · intro hr
    rw [if_neg (by simp [hr])]
    refine ⟨rfl, ?_, rfl, rfl⟩
    simp only [split_pre_parsed]
    by_cases hp : (E.rtpp_command_pre_parse st.cmd st.w).1 = 0 <;> simp [hp]

/-- C7 witness: the stream line "a &&" is rejected, and the datagram "ck V",
for which the cache has no entry, goes to pre-parse. -/
theorem C7_tokenizer_rejects_iff_witness :
    (∃ (st : split_state) (r : cmd_result), rtpp_command_split sample_consts sample_env
        (command_read sample_consts 3 0 0 7 "a &&".toList) sample_world = some r ∧
      st.w.sent = sample_world.sent ∧
      r.rval = 1 ∧ r.calls = [] ∧
      (r.cmd, r.w) = reply_error st.cmd st.w sample_consts.ECODE_PARSE_1) ∧
    (∃ (st : split_state) (r : cmd_result), rtpp_command_split sample_consts sample_env
        (command_read sample_consts 3 0 1 7 "ck V".toList) sample_world = some r ∧
      r.calls = [call_event.rtpp_command_pre_parse st.cmd] ∧
      (r.rval ≠ 0 ↔ (sample_env.rtpp_command_pre_parse st.cmd st.w).1 ≠ 0)) := by
  obtain ⟨st, r, h1, h2, _, h3, _⟩ := C7_tokenizer_rejects_iff sample_consts sample_env
    sample_world 3 0 0 7 "a &&".toList (by decide) (fun h => absurd rfl h)
  obtain ⟨st2, r2, k1, _, _, _, k3⟩ := C7_tokenizer_rejects_iff sample_consts sample_env
    sample_world 3 0 1 7 "ck V".toList (by decide)
    (fun _ _ _ => by simp [rtpp_cmd_rcache.lookup, sample_world])
  obtain ⟨a1, a2, a3, _⟩ := h3 (by decide)
  obtain ⟨b1, b2, _⟩ := k3 (by decide)
  exact ⟨⟨st, r, h1, h2, a1, a2, a3⟩, ⟨st2, r2, k1, b1, b2⟩⟩

/-! ## C8: the parse error code of the tokenizing stage -/

/-- C8 counterexample: with `ECODE_PARSE_1 = 1`, the empty stream command,
the empty datagram (no cookie), the stream command "a &&" (empty sub-command)
and a stream command of 20 tokens (overflow) are all answered with the same
text "E1\n": the four conditions do not carry pairwise different codes. -/
theorem C8_counterexample :
    (rtpp_command_split sample_consts sample_env
        (command_read sample_consts 3 0 0 7 []) sample_world).map (fun r => r.w.sent) =
      some [net_event.write 3 reply_text_E1 3] ∧
    (rtpp_command_split sample_consts sample_env
        (command_read sample_consts 3 0 1 7 []) sample_world).map (fun r => r.w.sent) =
      some [net_event.sendto 3 reply_text_E1 3 7] ∧
    (rtpp_command_split sample_consts sample_env
        (command_read sample_consts 3 0 0 7 "a &&".toList) sample_world).map
        (fun r => r.w.sent) =
      some [net_event.write 3 reply_text_E1 3] ∧
    (rtpp_command_split sample_consts sample_env
        (command_read sample_consts 3 0 0 7 sample_twenty_tokens) sample_world).map
        (fun r => r.w.sent) =
      some [net_event.write 3 reply_text_E1 3] := by
  refine ⟨by decide, by decide, by decide, by decide⟩

/-- C8 (amended): absent a retransmit hit, the four failure conditions of the
tokenizing stage, an empty command, a missing cookie in datagram mode, an
empty sub-command after "&&" and an argument-vector overflow, are all
reported by the one reply of `reply_error(cmd, ECODE_PARSE_1)`: they carry
the same parse error code. -/
theorem C8_single_parse_code (K : Consts) (E : Env) (w : World) (fd : Int) (dtime : Nat)
    (umode : Int) (raddr : Nat) (data : List Char) (hK : 0 < K.RTPC_MAX_ARGC)
    (hmiss : umode ≠ 0 → ∀ ck, (ref_tokens (cstr data)).head? = some ck →
      w.rcache.lookup ck BUF_R_SIZE = none)
    (hcond : main_part (arg_tokens umode (ref_tokens (cstr data))) = [] ∨
      (umode ≠ 0 ∧ ref_tokens (cstr data) = []) ∨
      (amp_part (arg_tokens umode (ref_tokens (cstr data))) ≠ [] ∧
        sub_part (arg_tokens umode (ref_tokens (cstr data))) = []) ∨
      K.RTPC_MAX_ARGC ≤ (main_part (arg_tokens umode (ref_tokens (cstr data)))).length ∨
      K.RTPC_MAX_ARGC ≤ (sub_part (arg_tokens umode (ref_tokens (cstr data)))).length) :
    ∃ (st : split_state) (r : cmd_result),
      rtpp_command_split K E (command_read K fd dtime umode raddr data) w = some r ∧
      st.w.sent = w.sent ∧ r.rval = 1 ∧ r.calls = [] ∧
      (r.cmd, r.w) = reply_error st.cmd st.w K.ECODE_PARSE_1 := by
  obtain ⟨st, _, h1, _, _, h4⟩ := split_no_hit K E w fd dtime umode raddr data hK hmiss
  have hr : reject_conditions K umode (ref_tokens (cstr data)) = true := by
    rw [reject_conditions_iff]
    rcases hcond with h | h | h | h | h
    · exact Or.inl h
    · refine Or.inr (Or.inl ⟨h.1, ?_⟩)
      simp [cookie_token, h.1, h.2]
    · exact Or.inr (Or.inr (Or.inl h))
    · exact Or.inr (Or.inr (Or.inr (Or.inl h)))
    · exact Or.inr (Or.inr (Or.inr (Or.inr h)))
  rw [if_pos hr] at h4
  exact ⟨st, _, h4, h1, rfl, rfl, rfl⟩

/-- C8 witness: the datagram without any token, the missing-cookie case. -/
theorem C8_single_parse_code_witness :
    ∃ (st : split_state) (r : cmd_result),
      rtpp_command_split sample_consts sample_env
        (command_read sample_consts 3 0 1 7 [SP, LF]) sample_world = some r ∧
      st.w.sent = sample_world.sent ∧ r.rval = 1 ∧ r.calls = [] ∧
      (r.cmd, r.w) = reply_error st.cmd st.w sample_consts.ECODE_PARSE_1 :=
  C8_single_parse_code sample_consts sample_env sample_world 3 0 1 7 [SP, LF] (by decide)
    (fun _ _ _ => by simp [rtpp_cmd_rcache.lookup, sample_world])
    (Or.inr (Or.inl ⟨by decide, by decide⟩))

/-! ## C9: the capacity of the argument vectors -/

/-- C9 counterexample: with `RTPC_MAX_ARGC = 20`, a stream command of exactly
20 tokens without "&&" leaves the tokenizer by `etoomany` and is rejected
with the parse error reply, pre-parse not being called. -/
theorem C9_counterexample :
    sample_consts.RTPC_MAX_ARGC = 20 ∧
    ref_tokens (cstr sample_twenty_tokens) = List.replicate 20 ['a'] ∧
    (rtpp_command_split_tokenize sample_consts
        (command_read sample_consts 3 0 0 7 sample_twenty_tokens) sample_world).map
        (fun e => decide (e = split_exit.etoomany e.st)) = some true ∧
    (rtpp_command_split sample_consts sample_env
        (command_read sample_consts 3 0 0 7 sample_twenty_tokens) sample_world).map
        (fun r => (r.rval, r.calls, r.w.sent)) =
      some (1, [], [net_event.write 3 reply_text_E1 3]) := by
  refine ⟨by decide, by decide, by decide, by decide⟩

/-- C9 (amended): each argument vector holds at most `RTPC_MAX_ARGC - 1`
arguments, its last slot being kept for the terminating NULL.  In stream
mode the tokenizer leaves by `etoomany` exactly when the tokens before the
first "&&" or the tokens behind it number `RTPC_MAX_ARGC` or more; below
that bound `args` holds all tokens of the first part and `subc_args` all
tokens of the second; and every command without "&&" that has at least one
and fewer than `RTPC_MAX_ARGC` tokens is accepted by the tokenizing stage
with all of its tokens in `args`. -/
theorem C9_vector_capacity (K : Consts) (w : World) (fd : Int) (dtime raddr : Nat)
    (data : List Char) (hK : 0 < K.RTPC_MAX_ARGC) :
    ∃ e, rtpp_command_split_tokenize K (command_read K fd dtime 0 raddr data) w = some e ∧
      (e = split_exit.etoomany e.st ↔
        K.RTPC_MAX_ARGC ≤ (main_part (ref_tokens (cstr data))).length ∨
        K.RTPC_MAX_ARGC ≤ (sub_part (ref_tokens (cstr data))).length) ∧
      ((main_part (ref_tokens (cstr data))).length < K.RTPC_MAX_ARGC →
        e.st.cmd.args.c = (main_part (ref_tokens (cstr data))).length ∧
        e.st.cmd.args.held = (main_part (ref_tokens (cstr data))).map some) ∧
      ((main_part (ref_tokens (cstr data))).length < K.RTPC_MAX_ARGC →
        (sub_part (ref_tokens (cstr data))).length < K.RTPC_MAX_ARGC →
        e.st.cmd.subc_args.c = (sub_part (ref_tokens (cstr data))).length ∧
        e.st.cmd.subc_args.held = (sub_part (ref_tokens (cstr data))).map some) ∧
      (AMPAMP ∉ ref_tokens (cstr data) → 1 ≤ (ref_tokens (cstr data)).length →
        (ref_tokens (cstr data)).length < K.RTPC_MAX_ARGC →
        e = split_exit.eol e.st ∧ split_syntax_error e.st = false ∧
        e.st.cmd.args.held = (ref_tokens (cstr data)).map some) := by
  obtain ⟨e, he, ho⟩ := tokenize_no_hit K w fd dtime 0 raddr data hK (fun h => absurd rfl h)
  simp only [arg_tokens, cookie_token, if_true] at ho
  have h1 := ho.args_c
  have h2 := ho.args_held
  have h4 := ho.subc_c
  have h5 := ho.subc_held
  refine ⟨e, he, ho.etoomany_iff, ?_, ?_, ?_⟩
  · intro hm
    rw [List.take_of_length_le (by omega)] at h2
    exact ⟨by rw [h1]; omega, h2⟩
  · intro hm hs
    rw [if_pos hm] at h4 h5
    rw [List.take_of_length_le (by omega)] at h5
    exact ⟨by rw [h4]; omega, h5⟩
  · intro hamp hpos hlt
    obtain ⟨m1, m2, m3⟩ := main_part_of_not_mem _ hamp
    rw [m1] at h2
    rw [List.take_of_length_le (by omega)] at h2
    have heol := ho.eol_iff.mpr (by rw [m1, m3]; exact ⟨hlt, hK⟩)
    have hse : ¬ (split_syntax_error e.st = true) := by
      rw [split_syntax_error_iff K _ w _ _ e ho heol, m1, m2, m3]
      have hne : ref_tokens (cstr data) ≠ [] := by
        intro h; rw [h] at hpos; simp at hpos
      simp [command_read, rtpp_command_ctor, hne]
    exact ⟨heol, by simpa using hse, h2⟩

/-- C9 witness: with `RTPC_MAX_ARGC = 20`, a stream command of 19 tokens is
accepted with all 19 tokens in `args`. -/
theorem C9_vector_capacity_witness :
    ∃ e, rtpp_command_split_tokenize sample_consts
        (command_read sample_consts 3 0 0 7 sample_nineteen_tokens) sample_world = some e ∧
      e = split_exit.eol e.st ∧ split_syntax_error e.st = false ∧
      e.st.cmd.args.held = (ref_tokens (cstr sample_nineteen_tokens)).map some ∧
      (ref_tokens (cstr sample_nineteen_tokens)).length = 19 := by
  obtain ⟨e, he, _, _, _, h⟩ := C9_vector_capacity sample_consts sample_world 3 0 7
    sample_nineteen_tokens (by decide)
  obtain ⟨a1, a2, a3⟩ := h (by decide) (by decide) (by decide)
  exact ⟨e, he, a1, a2, a3, by decide⟩

/-! ## C10: the dispatcher on a failed session lookup -/

theorem parse_ok_plain (K : Consts) (E : Env) (cmd : rtpp_command) (w : World) (l : hc_locals)
    (hp : handle_command_parse K E cmd w = Except.ok l)
    (hop : cmd.cca.op ≠ rtpp_cmd_op.UPDATE ∧ cmd.cca.op ≠ rtpp_cmd_op.LOOKUP) :
    l.w = w ∧ l.calls = [] := by
  obtain ⟨h1, h2⟩ := hop
  unfold handle_command_parse at hp
  cases hop : cmd.cca.op <;> rw [hop] at hp <;> simp only [] at hp
  case UPDATE => exact absurd hop h1
  case LOOKUP => exact absurd hop h2
  all_goals (repeat' split at hp)
  all_goals (cases hp <;> exact ⟨rfl, rfl⟩)

theorem parse_ok_ul (K : Consts) (E : Env) (cmd : rtpp_command) (w : World) (l : hc_locals)
    (hp : handle_command_parse K E cmd w = Except.ok l)
    (hop : cmd.cca.op = rtpp_cmd_op.UPDATE ∨ cmd.cca.op = rtpp_cmd_op.LOOKUP) :
    l.w = (E.rtpp_command_ul_opts_parse cmd w).2 ∧
    l.calls = [call_event.rtpp_command_ul_opts_parse cmd] ∧
    (E.rtpp_command_ul_opts_parse cmd w).1 = some l.ulop := by
  unfold handle_command_parse at hp
  rcases hop with hop | hop <;> rw [hop] at hp <;> simp only [] at hp <;> split at hp <;>
    first
    | (cases hp; done)
    | (rename_i u hu; cases hp; exact ⟨rfl, rfl, hu⟩)

theorem parse_ok_op (K : Consts) (E : Env) (cmd : rtpp_command) (w : World) (l : hc_locals)
    (hp : handle_command_parse K E cmd w = Except.ok l) :
    cmd.cca.op ∈ [rtpp_cmd_op.DELETE, rtpp_cmd_op.RECORD, rtpp_cmd_op.PLAY, rtpp_cmd_op.NOPLAY,
      rtpp_cmd_op.COPY, rtpp_cmd_op.QUERY, rtpp_cmd_op.LOOKUP, rtpp_cmd_op.UPDATE] := by
  unfold handle_command_parse at hp
  cases hop : cmd.cca.op <;> rw [hop] at hp <;> simp only [] at hp <;> try simp
  all_goals (repeat' split at hp)
  all_goals cases hp

/-- C10: let the first switch of `handle_command` run through to the session
lookup and let the lookup fail (`handle_delete`, `handle_record` or
`find_stream` yields -1).  For DELETE, RECORD, PLAY, NOPLAY, COPY and QUERY
the function returns 0 after the single reply of
`reply_error(cmd, ECODE_SESUNKN)`, counted as an error, its only call being
the failed lookup.  For LOOKUP it calls `rtpp_command_ul_opts_free` on the
parsed options and then `ul_reply_port(cmd, NULL)` and nothing else.  For
UPDATE it goes on into `rtpp_command_ul_handle` with the index -1.  In no
case but UPDATE is `rtpp_command_ul_handle` among the calls. -/
theorem C10_lookup_miss (K : Consts) (E : Env) (cmd : rtpp_command) (w : World)
    (l : hc_locals) (hp : handle_command_parse K E cmd w = Except.ok l)
    (hmiss : lookup_fails E cmd l) :
    (cmd.cca.op ∈ [rtpp_cmd_op.DELETE, rtpp_cmd_op.RECORD, rtpp_cmd_op.PLAY,
        rtpp_cmd_op.NOPLAY, rtpp_cmd_op.COPY, rtpp_cmd_op.QUERY] →
      handle_command K E cmd w = handle_outcome.returned
        { rval := 0, cmd := (reply_error cmd w K.ECODE_SESUNKN).1,
          w := (reply_error cmd w K.ECODE_SESUNKN).2, calls := [lookup_call cmd l] } ∧
      (reply_error cmd w K.ECODE_SESUNKN).2.csp.ncmds_errs = cnt_inc w.csp.ncmds_errs) ∧
    (cmd.cca.op = rtpp_cmd_op.LOOKUP →
      handle_command K E cmd w = handle_outcome.returned
        { rval := 0, cmd := cmd,
          w := E.ul_reply_port cmd (E.rtpp_command_ul_opts_parse cmd w).2 none,
          calls := [call_event.rtpp_command_ul_opts_parse cmd,
                    call_event.find_stream cmd.cca.call_id cmd.cca.from_tag cmd.cca.to_tag,
                    call_event.rtpp_command_ul_opts_free l.ulop,
                    call_event.ul_reply_port none] }) ∧
    (cmd.cca.op = rtpp_cmd_op.UPDATE →
      handle_command K E cmd w = handle_outcome.returned
        { rval := 0, cmd := cmd,
          w := E.rtpp_command_ul_handle cmd (E.rtpp_command_ul_opts_parse cmd w).2 l.ulop (-1),
          calls := [call_event.rtpp_command_ul_opts_parse cmd,
                    call_event.find_stream cmd.cca.call_id cmd.cca.from_tag cmd.cca.to_tag,
                    call_event.rtpp_command_ul_handle l.ulop (-1)] }) ∧
    (∀ r ulop i, handle_command K E cmd w = handle_outcome.returned r →
      call_event.rtpp_command_ul_handle ulop i ∈ r.calls →
      cmd.cca.op = rtpp_cmd_op.UPDATE) := by
  have hsix : cmd.cca.op ∈ [rtpp_cmd_op.DELETE, rtpp_cmd_op.RECORD, rtpp_cmd_op.PLAY,
        rtpp_cmd_op.NOPLAY, rtpp_cmd_op.COPY, rtpp_cmd_op.QUERY] →
      handle_command K E cmd w = handle_outcome.returned
        { rval := 0, cmd := (reply_error cmd w K.ECODE_SESUNKN).1,
          w := (reply_error cmd w K.ECODE_SESUNKN).2, calls := [lookup_call cmd l] } := by
    intro hop
    have hpl := parse_ok_plain K E cmd w l hp (by
      constructor <;> intro h <;> rw [h] at hop <;> simp at hop)
    simp only [List.mem_cons, List.mem_singleton, List.not_mem_nil, or_false] at hop
    rcases hop with h | h | h | h | h | h <;>
      simp only [lookup_fails, h] at hmiss <;>
      simp [handle_command, hp, handle_command_lookup, h, hmiss, hc_return, hpl.1, hpl.2,
        lookup_call]
  have hlk : cmd.cca.op = rtpp_cmd_op.LOOKUP →
      handle_command K E cmd w = handle_outcome.returned
        { rval := 0, cmd := cmd,
          w := E.ul_reply_port cmd (E.rtpp_command_ul_opts_parse cmd w).2 none,
          calls := [call_event.rtpp_command_ul_opts_parse cmd,
                    call_event.find_stream cmd.cca.call_id cmd.cca.from_tag cmd.cca.to_tag,
                    call_event.rtpp_command_ul_opts_free l.ulop,
                    call_event.ul_reply_port none] } := by
    intro h
    obtain ⟨u1, u2, _⟩ := parse_ok_ul K E cmd w l hp (Or.inr h)
    simp only [lookup_fails, h] at hmiss
    simp [handle_command, hp, handle_command_lookup, h, hmiss, u1, u2]
  have hup : cmd.cca.op = rtpp_cmd_op.UPDATE →
      handle_command K E cmd w = handle_outcome.returned
        { rval := 0, cmd := cmd,
          w := E.rtpp_command_ul_handle cmd (E.rtpp_command_ul_opts_parse cmd w).2 l.ulop (-1),
          calls := [call_event.rtpp_command_ul_opts_parse cmd,
                    call_event.find_stream cmd.cca.call_id cmd.cca.from_tag cmd.cca.to_tag,
                    call_event.rtpp_command_ul_handle l.ulop (-1)] } := by
    intro h
    obtain ⟨u1, u2, _⟩ := parse_ok_ul K E cmd w l hp (Or.inl h)
    simp only [lookup_fails, h] at hmiss
    simp [handle_command, hp, handle_command_lookup, h, hmiss, u1, u2, handle_command_run]
  refine ⟨fun hop => ⟨hsix hop, (reply_error_counts cmd w K.ECODE_SESUNKN).1⟩, hlk, hup, ?_⟩
  intro r ulop i hr hmem
  have hall := parse_ok_op K E cmd w l hp
  simp only [List.mem_cons, List.mem_singleton, List.not_mem_nil, or_false] at hall
  rcases hall with h | h | h | h | h | h | h | h
  case inr.inr.inr.inr.inr.inr.inr => exact h
  case inr.inr.inr.inr.inr.inr.inl =>
    rw [hlk h] at hr
    cases hr
    simp at hmem
  all_goals
    rw [hsix (by simp [h])] at hr
    cases hr
    simp only [lookup_call, h, List.mem_singleton] at hmem
    cases hmem

/-- C10 witness: with no session in the store, "D cid ft" is answered by the
error reply for an unknown session after the one call of `handle_delete`,
and "U cid 1.2.3.4 5000 ft" goes on into `rtpp_command_ul_handle`. -/
theorem C10_lookup_miss_witness :
    (handle_command sample_consts sample_env sample_delete_command sample_world =
      handle_outcome.returned
        { rval := 0,
          cmd := (reply_error sample_delete_command sample_world
            sample_consts.ECODE_SESUNKN).1,
          w := (reply_error sample_delete_command sample_world sample_consts.ECODE_SESUNKN).2,
          calls := [lookup_call sample_delete_command (hc_locals_init sample_world)] } ∧
      (reply_error sample_delete_command sample_world
        sample_consts.ECODE_SESUNKN).2.csp.ncmds_errs = cnt_inc sample_world.csp.ncmds_errs) ∧
    handle_command sample_consts sample_env sample_update_command sample_world =
      handle_outcome.returned
        { rval := 0, cmd := sample_update_command,
          w := sample_env.rtpp_command_ul_handle sample_update_command
            (sample_env.rtpp_command_ul_opts_parse sample_update_command sample_world).2
            0 (-1),
          calls := [call_event.rtpp_command_ul_opts_parse sample_update_command,
                    call_event.find_stream sample_update_command.cca.call_id
                      sample_update_command.cca.from_tag sample_update_command.cca.to_tag,
                    call_event.rtpp_command_ul_handle 0 (-1)] } :=
  ⟨(C10_lookup_miss sample_consts sample_env sample_delete_command sample_world
      (hc_locals_init sample_world) rfl
      (by simp [lookup_fails, sample_delete_command, sample_stream_command, sample_env])).1
      (by decide),
   (C10_lookup_miss sample_consts sample_env sample_update_command sample_world
      { hc_locals_init sample_world with
        calls := [call_event.rtpp_command_ul_opts_parse sample_update_command] }
      rfl
      (by simp [lookup_fails, sample_update_command, sample_stream_command, sample_env])).2.2.1
      (by decide)⟩

/-! ## C11: the capability probe -/

theorem reply_number_one (cmd : rtpp_command) (w : World) :
    reply_number cmd w 1 = rtpc_doreply cmd w reply_text_one 2 0 := by
  have h : fmt_d 1 ++ [LF] = reply_text_one := by decide
  simp only [reply_number, h]
  rfl

theorem reply_number_zero (cmd : rtpp_command) (w : World) :
    reply_number cmd w 0 = rtpc_doreply cmd w reply_text_ok 2 0 := by
  have h : fmt_d 0 ++ [LF] = reply_text_ok := by decide
  simp only [reply_number, h]
  rfl

theorem doreply_counts (cmd : rtpp_command) (w : World) (buf : List Char) (len : Nat)
    (errd : Int) :
    (rtpc_doreply cmd w buf len errd).2.csp =
      { w.csp with
        ncmds_repld := cnt_inc w.csp.ncmds_repld,
        ncmds_succd := if errd = 0 then cnt_inc w.csp.ncmds_succd else w.csp.ncmds_succd,
        ncmds_errs := if errd = 0 then w.csp.ncmds_errs else cnt_inc w.csp.ncmds_errs } := by
  simp only [rtpc_doreply]
  by_cases hu : cmd.umode = 0
  · by_cases he : errd = 0 <;> simp [hu, he]
  · cases hc : cmd.cookie <;> by_cases he : errd = 0 <;> simp [hu, hc, he]

/-- C11: for a command whose feature id `args.v[1]` is the string `id`,
`handle_ver_feature` returns after exactly one reply, sent through
`rtpc_doreply` with `errd = 0` (a success): the text "1\n" if `id` is one of
the 16 datestamps of `proto_caps` and, in case `id` is 20081224, the
notification subsystem is enabled; the text "0\n" in every other case.
`handle_command` returns 0 with that reply and without any call. -/
theorem C11_ver_feature (K : Consts) (E : Env) (cmd : rtpp_command) (w : World)
    (id : List Char) (hid : cmd.argv 1 = some id) :
    proto_caps.length = 16 ∧
    ∃ r : rtpp_command × World,
      handle_ver_feature E cmd w = some r ∧
      r = rtpc_doreply cmd w
        (if id ∈ proto_caps ∧ (id = "20081224".toList → E.tnset_isenabled = true)
          then reply_text_one else reply_text_ok) 2 0 ∧
      r.2.csp.ncmds_succd = cnt_inc w.csp.ncmds_succd ∧
      r.2.csp.ncmds_errs = w.csp.ncmds_errs ∧
      (cmd.cca.op = rtpp_cmd_op.VER_FEATURE →
        handle_command K E cmd w = handle_outcome.returned (hc_return r [])) := by
  have hany : ∀ b : Bool, (proto_caps.any (fun x => id == x)) = b → (b = true ↔ id ∈ proto_caps) := by
    intro b hb
    rw [← hb, List.any_eq_true]
    constructor
    · rintro ⟨x, hx, he⟩
      have : id = x := by simpa using he
      exact this ▸ hx
    · intro h
      exact ⟨id, h, by simp⟩
  have hmain : handle_ver_feature E cmd w =
      some (rtpc_doreply cmd w
        (if id ∈ proto_caps ∧ (id = "20081224".toList → E.tnset_isenabled = true)
          then reply_text_one else reply_text_ok) 2 0) := by
    have e8 : "20081224".toList = ['2', '0', '0', '8', '1', '2', '2', '4'] := by decide
    rw [e8]
    unfold handle_ver_feature
    rw [hid]
    simp only [e8]
    cases hb : proto_caps.any (fun x => id == x)
    · have hmem : ¬ id ∈ proto_caps := fun h => Bool.noConfusion ((hany _ hb).mpr h)
      split <;> simp [hmem, reply_number_zero]
    · have hmem : id ∈ proto_caps := (hany _ hb).mp rfl
      by_cases h8 : id = ['2', '0', '0', '8', '1', '2', '2', '4']
      · cases hen : E.tnset_isenabled
        · simp [h8, hen, reply_number_zero]
        · simp [hen, hmem, reply_number_one]
      · simp [h8, hmem, reply_number_one]
  refine ⟨by decide, _, hmain, rfl, ?_, ?_, ?_⟩
  · rw [doreply_counts]
    simp
  · rw [doreply_counts]
    simp
  · intro hop
    simp [handle_command, handle_command_parse, hop, hmain]

/-- C11 witness: on a stream, with notifications disabled, "VF 20191015" is
answered "1\n", and "VF 19700101" and "VF 20081224" are answered "0\n". -/
theorem C11_ver_feature_witness :
    (handle_ver_feature sample_env (sample_ver_feature_command "20191015".toList)
        sample_world).map (fun r => r.2.sent) = some [net_event.write 3 reply_text_one 2] ∧
    (handle_ver_feature sample_env (sample_ver_feature_command "19700101".toList)
        sample_world).map (fun r => r.2.sent) = some [net_event.write 3 reply_text_ok 2] ∧
    (handle_ver_feature sample_env (sample_ver_feature_command "20081224".toList)
        sample_world).map (fun r => r.2.sent) = some [net_event.write 3 reply_text_ok 2] := by
  obtain ⟨r1, h1, e1, _⟩ := (C11_ver_feature sample_consts sample_env
    (sample_ver_feature_command "20191015".toList) sample_world "20191015".toList
    (by decide)).2
  obtain ⟨r2, h2, e2, _⟩ := (C11_ver_feature sample_consts sample_env
    (sample_ver_feature_command "19700101".toList) sample_world "19700101".toList
    (by decide)).2
  obtain ⟨r3, h3, e3, _⟩ := (C11_ver_feature sample_consts sample_env
    (sample_ver_feature_command "20081224".toList) sample_world "20081224".toList
    (by decide)).2
  rw [h1, h2, h3, e1, e2, e3]
  refine ⟨by decide, by decide, by decide⟩

/-! ## C15: the counters of a reply -/

/-- C15: every call of `rtpc_doreply`, on a stream or on a datagram socket,
with or without a cookie, adds one to `ncmds_repld` and one to exactly one of
`ncmds_succd` (when `errd = 0`) and `ncmds_errs` (when `errd` is not 0), the
other one and the two receive counters being left alone; the counters are 64
bits wide, so "adds one" is `cnt_inc`.  The equation
`ncmds_repld = ncmds_succd + ncmds_errs`, read in the 64-bit arithmetic of the
counters, is preserved, and it is preserved as an equation of natural numbers
as long as `ncmds_repld` does not wrap around. -/
theorem C15_reply_counters (cmd : rtpp_command) (w : World) (buf : List Char) (len : Nat)
    (errd : Int) :
    ((rtpc_doreply cmd w buf len errd).2.csp.ncmds_repld = cnt_inc w.csp.ncmds_repld) ∧
    (errd = 0 →
      (rtpc_doreply cmd w buf len errd).2.csp.ncmds_succd = cnt_inc w.csp.ncmds_succd ∧
      (rtpc_doreply cmd w buf len errd).2.csp.ncmds_errs = w.csp.ncmds_errs) ∧
    (errd ≠ 0 →
      (rtpc_doreply cmd w buf len errd).2.csp.ncmds_errs = cnt_inc w.csp.ncmds_errs ∧
      (rtpc_doreply cmd w buf len errd).2.csp.ncmds_succd = w.csp.ncmds_succd) ∧
    ((rtpc_doreply cmd w buf len errd).2.csp.ncmds_rcvd = w.csp.ncmds_rcvd) ∧
    ((rtpc_doreply cmd w buf len errd).2.csp.ncmds_rcvd_ndups = w.csp.ncmds_rcvd_ndups) ∧
    (w.csp.ncmds_repld = (w.csp.ncmds_succd + w.csp.ncmds_errs) % 2 ^ 64 →
      (rtpc_doreply cmd w buf len errd).2.csp.ncmds_repld =
        ((rtpc_doreply cmd w buf len errd).2.csp.ncmds_succd +
          (rtpc_doreply cmd w buf len errd).2.csp.ncmds_errs) % 2 ^ 64) ∧
    (w.csp.ncmds_repld = w.csp.ncmds_succd + w.csp.ncmds_errs →
      w.csp.ncmds_repld + 1 < 2 ^ 64 →
      (rtpc_doreply cmd w buf len errd).2.csp.ncmds_repld =
        (rtpc_doreply cmd w buf len errd).2.csp.ncmds_succd +
          (rtpc_doreply cmd w buf len errd).2.csp.ncmds_errs) := by
  rw [doreply_counts]
  by_cases he : errd = 0
  · simp only [he, if_true, cnt_inc]
    refine ⟨trivial, fun _ => ⟨trivial, trivial⟩, fun h => absurd rfl h, trivial, trivial, ?_, ?_⟩
    · intro h
      rw [h]
      omega
    · intro h hlt
      rw [h] at hlt ⊢
      rw [Nat.mod_eq_of_lt hlt, Nat.mod_eq_of_lt (by omega)]
      omega
  · simp only [he, if_false, cnt_inc]
    refine ⟨trivial, fun h => h.elim, fun _ => ⟨trivial, trivial⟩, trivial, trivial, ?_, ?_⟩
    · intro h
      rw [h]
      omega
    · intro h hlt
      rw [h] at hlt ⊢
      rw [Nat.mod_eq_of_lt hlt, Nat.mod_eq_of_lt (by omega)]
      omega

/-- C15 witness: an error reply to a datagram command with a cookie, from the
counters of `sample_world`, which satisfy the equation. -/
theorem C15_reply_counters_witness :
    sample_world.csp.ncmds_repld = sample_world.csp.ncmds_succd + sample_world.csp.ncmds_errs ∧
    sample_world.csp.ncmds_repld + 1 < 2 ^ 64 ∧
    (rtpc_doreply (sample_dgram_command ['c', 'k']) sample_world reply_text_E1 3 1).2.csp.ncmds_repld =
      (rtpc_doreply (sample_dgram_command ['c', 'k']) sample_world reply_text_E1 3 1).2.csp.ncmds_succd +
        (rtpc_doreply (sample_dgram_command ['c', 'k']) sample_world reply_text_E1 3 1).2.csp.ncmds_errs :=
  ⟨by decide, by decide,
    (C15_reply_counters (sample_dgram_command ['c', 'k']) sample_world reply_text_E1 3 1).2.2.2.2.2.2
      (by decide) (by decide)⟩

/-! ## C16, C17: DELETE and DELETE_ALL -/

theorem reply_ok_eq (cmd : rtpp_command) (w : World) :
    reply_ok cmd w = rtpc_doreply cmd w reply_text_ok 2 0 := by
  rw [reply_ok, reply_number_zero]

theorem delete_mods_all (ms : List Char) (weak : Int) (h : ∀ c ∈ ms, c = 'w' ∨ c = 'W') :
    delete_mods ms weak = some (if ms = [] then weak else 1) := by
  induction ms generalizing weak with
  | nil => simp [delete_mods]
  | cons c cs ih =>
    have hc : c = 'w' ∨ c = 'W' := h c (List.mem_cons_self c cs)
    have hcs : ∀ x ∈ cs, x = 'w' ∨ x = 'W' := fun x hx => h x (List.mem_cons_of_mem c hx)
    rw [delete_mods, if_pos hc, ih 1 hcs]
    by_cases he : cs = [] <;> simp [he]

theorem delete_mods_bad (ms : List Char) (weak : Int) (h : ¬ ∀ c ∈ ms, c = 'w' ∨ c = 'W') :
    delete_mods ms weak = none := by
  induction ms generalizing weak with
  | nil => exact absurd (fun c hc => absurd hc (List.not_mem_nil c)) h
  | cons c cs ih =>
    rw [delete_mods]
    by_cases hc : c = 'w' ∨ c = 'W'
    · rw [if_pos hc]
      apply ih
      intro hcs
      apply h
      intro x hx
      rcases List.mem_cons.mp hx with hx | hx
      · exact hx ▸ hc
      · exact hcs x hx
    · rw [if_neg hc]

/-- C16: for DELETE whose modifier string consists of 'w' and 'W' characters
only, `handle_command` makes exactly one call, of `handle_delete`, with
`weak = 1` when the modifier string is not empty and `weak = 0` when it is
empty, and returns 0; the reply is "0\n" sent as a success when
`handle_delete` did not return -1, and the error reply with `ECODE_SESUNKN`
when it did. -/
theorem C16_delete_weak (K : Consts) (E : Env) (cmd : rtpp_command) (w : World)
    (hop : cmd.cca.op = rtpp_cmd_op.DELETE)
    (hm : ∀ c ∈ cmd.mods, c = 'w' ∨ c = 'W') :
    handle_command K E cmd w =
      handle_outcome.returned
        (hc_return
          (if E.handle_delete cmd.cca (if cmd.mods = [] then 0 else 1) = -1
            then reply_error cmd w K.ECODE_SESUNKN
            else rtpc_doreply cmd w reply_text_ok 2 0)
          [call_event.handle_delete cmd.cca (if cmd.mods = [] then 0 else 1)]) := by
  have hd := delete_mods_all cmd.mods 0 hm
  by_cases hr : E.handle_delete cmd.cca (if cmd.mods = [] then 0 else 1) = -1
  · simp [handle_command, handle_command_parse, handle_command_lookup, hop, hd,
      hc_locals_init, hr]
  · simp [handle_command, handle_command_parse, handle_command_lookup, handle_command_run,
      hop, hd, hc_locals_init, hr, reply_ok_eq]

/-- C16 witness: "Dw cid ft" where the session exists: one call of
`handle_delete` with `weak = 1`, and the success reply "0\n". -/
theorem C16_delete_weak_witness :
    handle_command sample_consts (sample_env_found 0) sample_delete_weak_command sample_world =
      handle_outcome.returned
        (hc_return (rtpc_doreply sample_delete_weak_command sample_world reply_text_ok 2 0)
          [call_event.handle_delete sample_delete_weak_command.cca 1]) :=
  (C16_delete_weak sample_consts (sample_env_found 0) sample_delete_weak_command sample_world
    rfl (by decide)).trans (by decide)

/-- C17: for DELETE_ALL, whatever the rest of the command, `handle_command`
makes exactly two calls, the purge of the weak-reference session table and
then the purge of the call-id session hash table, sends the one reply "0\n"
as a success, and returns 0. -/
theorem C17_delete_all (K : Consts) (E : Env) (cmd : rtpp_command) (w : World)
    (hop : cmd.cca.op = rtpp_cmd_op.DELETE_ALL) :
    handle_command K E cmd w =
      handle_outcome.returned
        { rval := 0,
          cmd := (rtpc_doreply cmd w reply_text_ok 2 0).1,
          w := (rtpc_doreply cmd w reply_text_ok 2 0).2,
          calls := [call_event.sessions_wrt_purge, call_event.sessions_ht_purge] } ∧
    (rtpc_doreply cmd w reply_text_ok 2 0).2.sent.length = w.sent.length + 1 ∧
    (rtpc_doreply cmd w reply_text_ok 2 0).2.csp.ncmds_succd = cnt_inc w.csp.ncmds_succd ∧
    (rtpc_doreply cmd w reply_text_ok 2 0).2.csp.ncmds_errs = w.csp.ncmds_errs := by
  refine ⟨?_, ?_, ?_, ?_⟩
  · simp [handle_command, handle_command_parse, hop, hc_return, reply_ok_eq]
  · simp only [rtpc_doreply]
    by_cases hu : cmd.umode = 0
    · simp [hu]
    · cases hc : cmd.cookie <;> simp [hu, hc]
  · rw [doreply_counts]; simp
  · rw [doreply_counts]; simp

/-- C17 witness: "X" on a stream: the two purges, and "0\n" written to the
stream. -/
theorem C17_delete_all_witness :
    (rtpc_doreply sample_delete_all_command sample_world reply_text_ok 2 0).2.sent =
      [net_event.write 3 reply_text_ok 2] ∧
    handle_command sample_consts sample_env sample_delete_all_command sample_world =
      handle_outcome.returned
        { rval := 0,
          cmd := (rtpc_doreply sample_delete_all_command sample_world reply_text_ok 2 0).1,
          w := (rtpc_doreply sample_delete_all_command sample_world reply_text_ok 2 0).2,
          calls := [call_event.sessions_wrt_purge, call_event.sessions_ht_purge] } :=
  ⟨by decide, (C17_delete_all sample_consts sample_env sample_delete_all_command sample_world rfl).1⟩

/-! ## C18: PLAY -/

theorem parse_ok_play (K : Consts) (E : Env) (cmd : rtpp_command) (w : World) (l : hc_locals)
    (hop : cmd.cca.op = rtpp_cmd_op.PLAY)
    (hp : handle_command_parse K E cmd w = Except.ok l) :
    l.w = w ∧ l.calls = [] ∧ l.pname = cmd.argv 2 ∧ l.codecs = cmd.argv 3 ∧
    l.playcount = (if cmd.mods.headD NUL ≠ NUL then to_int32 (strtol10 cmd.mods).1 else 1) := by
  unfold handle_command_parse at hp
  rw [hop] at hp
  simp only [] at hp
  split at hp
  · rename_i h1
    split at hp
    · cases hp
    · cases hp
      refine ⟨rfl, rfl, rfl, rfl, ?_⟩
      rw [if_pos h1]
  · rename_i h1
    cases hp
    refine ⟨rfl, rfl, rfl, rfl, ?_⟩
    rw [if_neg h1]

/-- C18 counterexample: "P0 cid prompt 0,8 ft" and
"P4294967296 cid prompt 0,8 ft" on a found stream.  The codecs argument is
not "session", yet `handle_play` receives nothing: the play count is 0 (in
the second command after the conversion of 4294967296 to `int`) and
`handle_play` is not called; the calls are the lookup and `handle_noplay`,
and the reply is "0\n". -/
theorem C18_counterexample :
    handle_command sample_consts (sample_env_found 1) sample_play_zero_command sample_world =
      handle_outcome.returned
        (hc_return
          (rtpc_doreply { sample_play_zero_command with sp := some sample_session }
            sample_world reply_text_ok 2 0)
          [call_event.find_stream "cid".toList "ft".toList none,
           call_event.handle_noplay 0]) ∧
    handle_command sample_consts (sample_env_found 1) sample_play_wrap_command sample_world =
      handle_outcome.returned
        (hc_return
          (rtpc_doreply { sample_play_wrap_command with sp := some sample_session }
            sample_world reply_text_ok 2 0)
          [call_event.find_stream "cid".toList "ft".toList none,
           call_event.handle_noplay 0]) := by
  refine ⟨by decide, by decide⟩

/-- C18 (amended): PLAY whose modifiers parsed and whose stream was found
(`find_stream` returned `r`, not -1; the stream is the one at index
`NOT(r.1)` of the session).  The play count `l.playcount` is 1 without a
modifier, and else the value `strtol` reads from the modifier, converted to
the 32 bits of `int`.  The calls are the lookup, then `handle_noplay`, then
at most one `handle_play`.
 * Codecs argument "session", no codecs recorded for the stream: the reply is
   the error `ECODE_INVLARG_5` and `handle_play` is not called.
 * Codecs argument "session", codecs `c` recorded: `handle_play`, which is
   called when the play count is not 0, receives `c` and the recorded ptime.
 * Codecs argument any other string `arg`: `handle_play`, called when the
   play count is not 0, receives `arg` as it is and the ptime -1.
In the last two cases the reply is the error `ECODE_PLRFAIL` when
`handle_play` was called and returned a non-zero value, and the success
reply "0\n" otherwise. -/
theorem C18_play (K : Consts) (E : Env) (cmd : rtpp_command) (w : World) (l : hc_locals)
    (r : Int × Option rtpp_session)
    (hop : cmd.cca.op = rtpp_cmd_op.PLAY)
    (hp : handle_command_parse K E cmd w = Except.ok l)
    (hr : E.find_stream cmd.cca.call_id cmd.cca.from_tag cmd.cca.to_tag = r)
    (hf : r.1 ≠ -1) :
    (cmd.argv 3 = some "session".toList → (stream_at r.2 (NOT r.1)).codecs = none →
      handle_command K E cmd w =
        handle_outcome.returned
          (hc_return (reply_error { cmd with sp := r.2 } w K.ECODE_INVLARG_5)
            [call_event.find_stream cmd.cca.call_id cmd.cca.from_tag cmd.cca.to_tag,
             call_event.handle_noplay (NOT r.1)])) ∧
    (∀ c : List Char, cmd.argv 3 = some "session".toList →
      (stream_at r.2 (NOT r.1)).codecs = some c →
      handle_command K E cmd w =
        handle_outcome.returned
          (hc_return
            (if l.playcount ≠ 0 ∧
                E.handle_play (NOT r.1) (some c) (cmd.argv 2) l.playcount
                  (stream_at r.2 (NOT r.1)).ptime ≠ 0
              then reply_error { cmd with sp := r.2 } w K.ECODE_PLRFAIL
              else rtpc_doreply { cmd with sp := r.2 } w reply_text_ok 2 0)
            ([call_event.find_stream cmd.cca.call_id cmd.cca.from_tag cmd.cca.to_tag,
              call_event.handle_noplay (NOT r.1)] ++
             (if l.playcount ≠ 0
              then [call_event.handle_play (NOT r.1) (some c) (cmd.argv 2) l.playcount
                      (stream_at r.2 (NOT r.1)).ptime]
              else [])))) ∧
    (∀ arg : List Char, cmd.argv 3 = some arg → arg ≠ "session".toList →
      handle_command K E cmd w =
        handle_outcome.returned
          (hc_return
            (if l.playcount ≠ 0 ∧
                E.handle_play (NOT r.1) (some arg) (cmd.argv 2) l.playcount (-1) ≠ 0
              then reply_error { cmd with sp := r.2 } w K.ECODE_PLRFAIL
              else rtpc_doreply { cmd with sp := r.2 } w reply_text_ok 2 0)
            ([call_event.find_stream cmd.cca.call_id cmd.cca.from_tag cmd.cca.to_tag,
              call_event.handle_noplay (NOT r.1)] ++
             (if l.playcount ≠ 0
              then [call_event.handle_play (NOT r.1) (some arg) (cmd.argv 2) l.playcount (-1)]
              else [])))) ∧
    l.playcount = (if cmd.mods.headD NUL ≠ NUL then to_int32 (strtol10 cmd.mods).1 else 1) := by
  obtain ⟨hw, hc, hpn, hcd, hpc⟩ := parse_ok_play K E cmd w l hop hp
  have hN : NOT r.1 ≠ -1 := by
    unfold NOT
    split <;> decide
  have hrun : handle_command K E cmd w =
      handle_command_run K E { cmd with sp := r.2 } l (NOT r.1) r.2
        [call_event.find_stream cmd.cca.call_id cmd.cca.from_tag cmd.cca.to_tag] := by
    simp [handle_command, hp, handle_command_lookup, hop, hr, hf, hc, hN]
  have es : "session".toList = ['s', 'e', 's', 's', 'i', 'o', 'n'] := by decide
  simp only [es]
  refine ⟨?_, ?_, ?_, hpc⟩
  · intro hs hn
    rw [hrun]
    simp [handle_command_run, hop, hcd, hs, hn, hw]
  · intro c hs hn
    rw [hrun]
    by_cases h0 : l.playcount = 0
    · simp [handle_command_run, hop, hcd, hs, hn, hw, hpn, h0, reply_ok_eq]
    · by_cases hh : E.handle_play (NOT r.1) (some c) (cmd.argv 2) l.playcount
          (stream_at r.2 (NOT r.1)).ptime = 0
      · simp [handle_command_run, hop, hcd, hs, hn, hw, hpn, h0, hh, reply_ok_eq]
      · simp [handle_command_run, hop, hcd, hs, hn, hw, hpn, h0, hh]
  · intro arg ha hs
    rw [hrun]
    by_cases h0 : l.playcount = 0
    · simp [handle_command_run, hop, hcd, ha, hs, hw, hpn, h0, reply_ok_eq]
    · by_cases hh : E.handle_play (NOT r.1) (some arg) (cmd.argv 2) l.playcount (-1) = 0
      · simp [handle_command_run, hop, hcd, ha, hs, hw, hpn, h0, hh, reply_ok_eq]
      · simp [handle_command_run, hop, hcd, ha, hs, hw, hpn, h0, hh]

/-- C18 witness: "P cid prompt session ft" where `find_stream` returns 1, so
that the stream is `stream[0]`, which has the recorded codecs "0,8" and the
ptime 20: `handle_play` is called with these, once, and the reply is
"0\n". -/
theorem C18_play_witness :
    handle_command sample_consts (sample_env_found 1) sample_play_session_command sample_world =
      handle_outcome.returned
        (hc_return
          (rtpc_doreply { sample_play_session_command with sp := some sample_session }
            sample_world reply_text_ok 2 0)
          [call_event.find_stream "cid".toList "ft".toList none,
           call_event.handle_noplay 0,
           call_event.handle_play 0 (some "0,8".toList) (some "prompt".toList) 1 20]) :=
  ((C18_play sample_consts (sample_env_found 1) sample_play_session_command sample_world
    { hc_locals_init sample_world with
      playcount := 1, pname := some "prompt".toList, codecs := some "session".toList }
    (1, some sample_session) rfl rfl rfl (by decide)).2.1 "0,8".toList (by decide)
    (by decide)).trans (by decide)

/-! ## C19: malformed modifiers -/

theorem handle_info_opts_bad (ms : List Char) (load : Int)
    (h : ¬ ∀ c ∈ ms, c = 'b' ∨ c = 'B' ∨ c = 'l' ∨ c = 'L') :
    handle_info_opts ms load = none := by
  induction ms generalizing load with
  | nil => exact absurd (fun c hc => absurd hc (List.not_mem_nil c)) h
  | cons c cs ih =>
    have hcs : (c = 'b' ∨ c = 'B' ∨ c = 'l' ∨ c = 'L') →
        ¬ ∀ x ∈ cs, x = 'b' ∨ x = 'B' ∨ x = 'l' ∨ x = 'L' := by
      intro hc hall
      apply h
      intro x hx
      rcases List.mem_cons.mp hx with hx | hx
      · exact hx ▸ hc
      · exact hall x hx
    rw [handle_info_opts]
    by_cases h1 : c = 'b' ∨ c = 'B'
    · rw [if_pos h1]
      exact ih load (hcs (by tauto))
    · rw [if_neg h1]
      by_cases h2 : c = 'l' ∨ c = 'L'
      · rw [if_pos h2]
        exact ih 1 (hcs (by tauto))
      · rw [if_neg h2]

theorem get_stats_mods_bad (ms : List Char) (verbose : Int)
    (h : ¬ ∀ c ∈ ms, c = 'v' ∨ c = 'V') :
    get_stats_mods ms verbose = none := by
  induction ms generalizing verbose with
  | nil => exact absurd (fun c hc => absurd hc (List.not_mem_nil c)) h
  | cons c cs ih =>
    rw [get_stats_mods]
    by_cases hc : c = 'v' ∨ c = 'V'
    · rw [if_pos hc]
      apply ih
      intro hcs
      apply h
      intro x hx
      rcases List.mem_cons.mp hx with hx | hx
      · exact hx ▸ hc
      · exact hcs x hx
    · rw [if_neg hc]

theorem headD_nul_iff (s : List Char) (hs : NUL ∉ s) : s.headD NUL = NUL ↔ s = [] := by
  cases s with
  | nil => simp
  | cons c cs =>
    simp only [List.headD_cons]
    constructor
    · intro h
      exact absurd (h ▸ List.mem_cons_self c cs) hs
    · intro h
      cases h

theorem strtol10_rest_mem (s : List Char) (x : Char) (hx : x ∈ (strtol10 s).2) : x ∈ s := by
  have hs2 : ∀ y, y ∈ (if (((s.dropWhile c_isspace).head? == some '-' ||
      (s.dropWhile c_isspace).head? == some '+') = true)
      then (s.dropWhile c_isspace).tail else s.dropWhile c_isspace) → y ∈ s := by
    intro y hy
    have h2 : y ∈ s.dropWhile c_isspace := by
      split at hy
      · exact (List.tail_sublist _).subset hy
      · exact hy
    exact (List.dropWhile_sublist c_isspace).subset h2
  unfold strtol10 at hx
  simp only [] at hx
  generalize (if (((s.dropWhile c_isspace).head? == some '-' ||
    (s.dropWhile c_isspace).head? == some '+') = true)
    then (s.dropWhile c_isspace).tail else s.dropWhile c_isspace) = s2 at hx hs2
  by_cases he : (List.takeWhile Char.isDigit s2).isEmpty = true
  · rw [if_pos he] at hx
    exact hx
  · rw [if_neg he] at hx
    exact hs2 x ((List.dropWhile_sublist Char.isDigit).subset hx)

theorem strtol10_incomplete_iff (s : List Char) (hs : s ≠ []) :
    ((strtol10 s).2 = s ∨ (strtol10 s).2 ≠ []) ↔ is_int10 s = false := by
  unfold strtol10 is_int10
  simp only []
  generalize (if (((s.dropWhile c_isspace).head? == some '-' ||
    (s.dropWhile c_isspace).head? == some '+') = true)
    then (s.dropWhile c_isspace).tail else s.dropWhile c_isspace) = s2
  cases s2 with
  | nil => simp
  | cons d ds =>
    by_cases hd : d.isDigit = true
    · have hne : ¬ (List.takeWhile Char.isDigit (d :: ds)).isEmpty = true := by
        simp [List.takeWhile_cons, hd]
      rw [if_neg hne]
      simp only []
      constructor
      · intro h
        have hne2 : List.dropWhile Char.isDigit (d :: ds) ≠ [] := by
          rcases h with h | h
          · rw [h]; exact hs
          · exact h
        have : ¬ ∀ x ∈ d :: ds, Char.isDigit x = true := fun hall =>
          hne2 (List.dropWhile_eq_nil_iff.mpr hall)
        have hall : ¬ ((d :: ds).all Char.isDigit = true) := fun ha =>
          this (List.all_eq_true.mp ha)
        simp only [Bool.not_eq_true] at hall
        simp [hall]
      · intro h
        right
        intro hnil
        have hall := List.all_eq_true.mpr (List.dropWhile_eq_nil_iff.mp hnil)
        rw [hall] at h
        simp at h
    · have he : (List.takeWhile Char.isDigit (d :: ds)).isEmpty = true := by
        simp [List.takeWhile_cons, hd]
      rw [if_pos he]
      simp [hd]

theorem reply_error_sent (cmd : rtpp_command) (w : World) (ecode : Int) :
    (reply_error cmd w ecode).2.sent.length = w.sent.length + 1 := by
  simp only [reply_error, rtpc_doreply]
  by_cases hu : cmd.umode = 0
  · simp [hu]
  · cases hc : cmd.cookie <;> simp [hu, hc]

theorem record_mods_bad (K : Consts) (E : Env) (cmd : rtpp_command) (w : World)
    (hC : NUL ∉ cmd.mods)
    (hop : cmd.cca.op = rtpp_cmd_op.RECORD ∨ cmd.cca.op = rtpp_cmd_op.COPY)
    (h0 : cmd.mods ≠ []) (h1 : cmd.mods ≠ ['S']) (h2 : cmd.mods ≠ ['s']) :
    handle_command_parse K E cmd w =
      Except.error (handle_outcome.returned (hc_return
        (reply_error cmd w
          (if cmd.mods.head? = some 'S' ∨ cmd.mods.head? = some 's'
            then K.ECODE_PARSE_2 else K.ECODE_PARSE_3)) [])) := by
  cases hm : cmd.mods with
  | nil => exact absurd hm h0
  | cons c cs =>
    rw [hm] at hC h1 h2
    have hc : c ≠ NUL := fun h => hC (h ▸ List.mem_cons_self c cs)
    by_cases hS : c = 'S' ∨ c = 's'
    · have hcs : cs ≠ [] := by
        intro hnil
        rcases hS with hS | hS
        · exact h1 (by rw [hS, hnil])
        · exact h2 (by rw [hS, hnil])
      cases cs with
      | nil => exact absurd rfl hcs
      | cons d ds =>
        have hd : d ≠ NUL := fun h =>
          hC (h ▸ List.mem_cons_of_mem c (List.mem_cons_self d ds))
        rcases hop with hop | hop <;>
          simp [handle_command_parse, hop, hm, hS, hd]
    · rcases hop with hop | hop <;>
        simp [handle_command_parse, hop, hm, hS, hc]

/-- C19 counterexample: the PLAY modifier "<VT>5", a vertical tab before the
digit, is not an integer written in base 10, but `strtol` skips the white
space and converts the rest completely: no error reply is sent, the stream is
looked up and the prompt is played 5 times. -/
theorem C19_counterexample :
    is_decimal_integer sample_play_vt_command.mods = false ∧
    sample_play_vt_command.mods ≠ [] ∧
    handle_command sample_consts (sample_env_found 1) sample_play_vt_command sample_world =
      handle_outcome.returned
        (hc_return
          (rtpc_doreply { sample_play_vt_command with sp := some sample_session }
            sample_world reply_text_ok 2 0)
          [call_event.find_stream "cid".toList "ft".toList none,
           call_event.handle_noplay 0,
           call_event.handle_play 0 (some "0,8".toList) (some "prompt".toList) 5 (-1)]) := by
  decide

/-- C19 (amended): a modifier string (a C string) outside the grammar of its opcode
makes `handle_command` return 0 with the one error reply of that opcode's
parse code and without any call:
 * INFO, a character other than b, B, l, L: `ECODE_PARSE_7`;
 * DELETE, a character other than w, W: `ECODE_PARSE_4`;
 * GET_STATS, a character other than v, V: `ECODE_PARSE_5`;
 * RECORD and COPY, a modifier string that is neither empty nor "S" nor "s":
   `ECODE_PARSE_2` when it starts with S or s, `ECODE_PARSE_3` otherwise;
 * PLAY, a modifier string that is neither empty nor a complete base-10
   integer as `strtol` reads one (`is_int10`): `ECODE_PARSE_6`; an empty one
   and a complete integer are not rejected.
The error reply is one send, counted in `ncmds_errs`. -/
theorem C19_malformed_modifiers (K : Consts) (E : Env) (cmd : rtpp_command) (w : World)
    (hC : NUL ∉ cmd.mods) :
    (cmd.cca.op = rtpp_cmd_op.INFO →
      (¬ ∀ c ∈ cmd.mods, c = 'b' ∨ c = 'B' ∨ c = 'l' ∨ c = 'L') →
      handle_command K E cmd w =
        handle_outcome.returned (hc_return (reply_error cmd w K.ECODE_PARSE_7) [])) ∧
    (cmd.cca.op = rtpp_cmd_op.DELETE →
      (¬ ∀ c ∈ cmd.mods, c = 'w' ∨ c = 'W') →
      handle_command K E cmd w =
        handle_outcome.returned (hc_return (reply_error cmd w K.ECODE_PARSE_4) [])) ∧
    (cmd.cca.op = rtpp_cmd_op.GET_STATS →
      (¬ ∀ c ∈ cmd.mods, c = 'v' ∨ c = 'V') →
      handle_command K E cmd w =
        handle_outcome.returned (hc_return (reply_error cmd w K.ECODE_PARSE_5) [])) ∧
    (cmd.cca.op = rtpp_cmd_op.RECORD ∨ cmd.cca.op = rtpp_cmd_op.COPY →
      cmd.mods ≠ [] → cmd.mods ≠ ['S'] → cmd.mods ≠ ['s'] →
      handle_command K E cmd w =
        handle_outcome.returned (hc_return
          (reply_error cmd w
            (if cmd.mods.head? = some 'S' ∨ cmd.mods.head? = some 's'
              then K.ECODE_PARSE_2 else K.ECODE_PARSE_3)) [])) ∧
    (cmd.cca.op = rtpp_cmd_op.PLAY → cmd.mods ≠ [] → is_int10 cmd.mods = false →
      handle_command K E cmd w =
        handle_outcome.returned (hc_return (reply_error cmd w K.ECODE_PARSE_6) [])) ∧
    (cmd.cca.op = rtpp_cmd_op.PLAY → (cmd.mods = [] ∨ is_int10 cmd.mods = true) →
      ∃ l : hc_locals, handle_command_parse K E cmd w = Except.ok l) ∧
    (∀ ecode : Int,
      (reply_error cmd w ecode).2.sent.length = w.sent.length + 1 ∧
      (reply_error cmd w ecode).2.csp.ncmds_errs = cnt_inc w.csp.ncmds_errs ∧
      (reply_error cmd w ecode).2.csp.ncmds_succd = w.csp.ncmds_succd) := by
  have hrest : NUL ∉ (strtol10 cmd.mods).2 := fun h => hC (strtol10_rest_mem _ _ h)
  refine ⟨?_, ?_, ?_, ?_, ?_, ?_, ?_⟩
  · intro hop hbad
    simp [handle_command, handle_command_parse, hop, handle_info,
      handle_info_opts_bad cmd.mods 0 hbad]
  · intro hop hbad
    simp [handle_command, handle_command_parse, hop, delete_mods_bad cmd.mods 0 hbad]
  · intro hop hbad
    simp [handle_command, handle_command_parse, hop, get_stats_mods_bad cmd.mods 0 hbad]
  · intro hop h0 h1 h2
    simp only [handle_command, record_mods_bad K E cmd w hC hop h0 h1 h2]
  · intro hop h0 hbad
    have hh : cmd.mods.headD NUL ≠ NUL := fun h => h0 ((headD_nul_iff _ hC).mp h)
    have hinc := (strtol10_incomplete_iff cmd.mods h0).mpr hbad
    have hcond : (strtol10 cmd.mods).2 = cmd.mods ∨ (strtol10 cmd.mods).2.headD NUL ≠ NUL := by
      rcases hinc with h | h
      · exact Or.inl h
      · exact Or.inr (fun hn => h ((headD_nul_iff _ hrest).mp hn))
    have hparse : handle_command_parse K E cmd w =
        Except.error (handle_outcome.returned
          (hc_return (reply_error cmd w K.ECODE_PARSE_6) [])) := by
      unfold handle_command_parse
      rw [hop]
      simp only []
      rw [if_pos hh, if_pos hcond]
    simp only [handle_command, hparse]
  · intro hop hgood
    by_cases h0 : cmd.mods = []
    · have hh : ¬ cmd.mods.headD NUL ≠ NUL := by rw [h0]; simp
      unfold handle_command_parse
      rw [hop]
      simp only []
      rw [if_neg hh]
      exact ⟨_, rfl⟩
    · have hgood2 : is_int10 cmd.mods = true := by
        rcases hgood with h | h
        · exact absurd h h0
        · exact h
      have hh : cmd.mods.headD NUL ≠ NUL := fun h => h0 ((headD_nul_iff _ hC).mp h)
      have hcond : ¬ ((strtol10 cmd.mods).2 = cmd.mods ∨
          (strtol10 cmd.mods).2.headD NUL ≠ NUL) := by
        intro hor
        have hinc : (strtol10 cmd.mods).2 = cmd.mods ∨ (strtol10 cmd.mods).2 ≠ [] := by
          rcases hor with h | h
          · exact Or.inl h
          · refine Or.inr (fun hn => h ?_)
            rw [hn]
            rfl
        have := (strtol10_incomplete_iff cmd.mods h0).mp hinc
        rw [hgood2] at this
        cases this
      unfold handle_command_parse
      rw [hop]
      simp only []
      rw [if_pos hh, if_neg hcond]
      exact ⟨_, rfl⟩
  · intro ecode
    exact ⟨reply_error_sent cmd w ecode, (reply_error_counts cmd w ecode).1,
      (reply_error_counts cmd w ecode).2.2⟩

/-- C19 witness: "Ix" is answered E7 and "P3x cid prompt session ft" is
answered E6, both without a call, also where the session exists. -/
theorem C19_malformed_modifiers_witness :
    handle_command sample_consts (sample_env_found 1) sample_info_bad_command sample_world =
      handle_outcome.returned
        (hc_return (reply_error sample_info_bad_command sample_world 7) []) ∧
    handle_command sample_consts (sample_env_found 1) sample_play_bad_command sample_world =
      handle_outcome.returned
        (hc_return (reply_error sample_play_bad_command sample_world 6) []) :=
  ⟨(C19_malformed_modifiers sample_consts (sample_env_found 1) sample_info_bad_command
      sample_world (by decide)).1 rfl (by decide),
   (C19_malformed_modifiers sample_consts (sample_env_found 1) sample_play_bad_command
      sample_world (by decide)).2.2.2.2.1 rfl (by decide) (by decide)⟩

/-! ## C20: the single-file flag of RECORD and COPY -/

/-- C20 counterexample: where recording is not in the PCAP format
(`record_pcap = 0`), "RS cid ft" engages `handle_record` with the single-file
flag 0, and "Cs cid rec ft" on a found stream engages `handle_copy` with the
flag 0; and where the stream is not found, "Cs cid rec ft" does not engage
`handle_copy` at all. -/
theorem C20_counterexample :
    handle_command sample_consts sample_env_nopcap sample_record_single_command sample_world =
      handle_outcome.returned
        (hc_return (rtpc_doreply sample_record_single_command sample_world reply_text_ok 2 0)
          [call_event.handle_record sample_record_single_command.cca 0]) ∧
    handle_command sample_consts sample_env_nopcap sample_copy_single_command sample_world =
      handle_outcome.returned
        (hc_return
          (rtpc_doreply { sample_copy_single_command with sp := some sample_session }
            sample_world reply_text_ok 2 0)
          [call_event.find_stream "cid".toList "ft".toList none,
           call_event.handle_copy 0 (some "rec".toList) 0]) ∧
    handle_command sample_consts sample_env sample_copy_single_command sample_world =
      handle_outcome.returned
        (hc_return (reply_error sample_copy_single_command sample_world 8)
          [call_event.find_stream "cid".toList "ft".toList none]) := by
  decide

theorem parse_ok_record (K : Consts) (E : Env) (cmd : rtpp_command) (w : World)
    (hop : cmd.cca.op = rtpp_cmd_op.RECORD ∨ cmd.cca.op = rtpp_cmd_op.COPY)
    (hm : cmd.mods = ['S'] ∨ cmd.mods = ['s'] ∨ cmd.mods = []) :
    handle_command_parse K E cmd w =
      Except.ok { hc_locals_init w with
        recording_name := if cmd.cca.op = rtpp_cmd_op.COPY then cmd.argv 2 else none,
        record_single_file :=
          if cmd.mods = [] then 0 else if E.record_pcap = 0 then 0 else 1 } := by
  have hS : 'S' ≠ NUL := by decide
  have hs : 's' ≠ NUL := by decide
  have hNS : NUL ≠ 'S' := by decide
  have hNs : NUL ≠ 's' := by decide
  rcases hop with hop | hop <;> rcases hm with hm | hm | hm <;>
    simp [handle_command_parse, hop, hm, hc_locals_init, hS, hs, hNS, hNs]

/-- C20 (amended): for RECORD and COPY whose modifier is exactly "S" or "s"
the single-file flag is 1 when recording is in the PCAP format
(`record_pcap` is not 0) and 0 when it is not; with no modifier the flag
is 0.  RECORD calls `handle_record` with that flag, as its only call; COPY
calls `handle_copy` with that flag when the stream was found, and does not
call it when the stream was not found. -/
theorem C20_single_file (K : Consts) (E : Env) (cmd : rtpp_command) (w : World) (flag : Int)
    (hm : cmd.mods = ['S'] ∨ cmd.mods = ['s'] ∨ cmd.mods = [])
    (hflag : flag = if cmd.mods = [] then 0 else if E.record_pcap = 0 then 0 else 1) :
    (cmd.cca.op = rtpp_cmd_op.RECORD →
      handle_command K E cmd w =
        handle_outcome.returned
          (hc_return
            (if E.handle_record cmd.cca flag = -1 then reply_error cmd w K.ECODE_SESUNKN
              else rtpc_doreply cmd w reply_text_ok 2 0)
            [call_event.handle_record cmd.cca flag])) ∧
    (cmd.cca.op = rtpp_cmd_op.COPY →
      (E.find_stream cmd.cca.call_id cmd.cca.from_tag cmd.cca.to_tag).1 ≠ -1 →
      handle_command K E cmd w =
        handle_outcome.returned
          (hc_return
            (if E.handle_copy
                  (NOT (E.find_stream cmd.cca.call_id cmd.cca.from_tag cmd.cca.to_tag).1)
                  (cmd.argv 2) flag ≠ 0
              then reply_error
                { cmd with sp := (E.find_stream cmd.cca.call_id cmd.cca.from_tag
                    cmd.cca.to_tag).2 } w K.ECODE_CPYFAIL
              else rtpc_doreply
                { cmd with sp := (E.find_stream cmd.cca.call_id cmd.cca.from_tag
                    cmd.cca.to_tag).2 } w reply_text_ok 2 0)
            [call_event.find_stream cmd.cca.call_id cmd.cca.from_tag cmd.cca.to_tag,
             call_event.handle_copy
               (NOT (E.find_stream cmd.cca.call_id cmd.cca.from_tag cmd.cca.to_tag).1)
               (cmd.argv 2) flag])) ∧
    (cmd.cca.op = rtpp_cmd_op.COPY →
      (E.find_stream cmd.cca.call_id cmd.cca.from_tag cmd.cca.to_tag).1 = -1 →
      handle_command K E cmd w =
        handle_outcome.returned
          (hc_return (reply_error cmd w K.ECODE_SESUNKN)
            [call_event.find_stream cmd.cca.call_id cmd.cca.from_tag cmd.cca.to_tag])) := by
  refine ⟨?_, ?_, ?_⟩
  · intro hop
    have hp := parse_ok_record K E cmd w (Or.inl hop) hm
    rw [← hflag] at hp
    by_cases hr : E.handle_record cmd.cca flag = -1
    · simp [handle_command, hp, handle_command_lookup, hop, hc_locals_init, hr]
    · simp [handle_command, hp, handle_command_lookup, handle_command_run, hop,
        hc_locals_init, hr, reply_ok_eq]
  · intro hop hf
    have hp := parse_ok_record K E cmd w (Or.inr hop) hm
    rw [← hflag] at hp
    have hN : NOT (E.find_stream cmd.cca.call_id cmd.cca.from_tag cmd.cca.to_tag).1 ≠ -1 := by
      unfold NOT
      split <;> decide
    by_cases hr : E.handle_copy
        (NOT (E.find_stream cmd.cca.call_id cmd.cca.from_tag cmd.cca.to_tag).1)
        (cmd.argv 2) flag = 0
    · simp [handle_command, hp, handle_command_lookup, handle_command_run, hop,
        hc_locals_init, hf, hN, hr, reply_ok_eq]
    · simp [handle_command, hp, handle_command_lookup, handle_command_run, hop,
        hc_locals_init, hf, hN, hr]
  · intro hop hf
    have hp := parse_ok_record K E cmd w (Or.inr hop) hm
    rw [← hflag] at hp
    simp [handle_command, hp, handle_command_lookup, hop, hc_locals_init, hf]

/-- C20 witness: with PCAP recording configured, "RS cid ft" engages
`handle_record` with the single-file flag 1. -/
theorem C20_single_file_witness :
    handle_command sample_consts (sample_env_found 1) sample_record_single_command sample_world =
      handle_outcome.returned
        (hc_return (rtpc_doreply sample_record_single_command sample_world reply_text_ok 2 0)
          [call_event.handle_record sample_record_single_command.cca 1]) :=
  ((C20_single_file sample_consts (sample_env_found 1) sample_record_single_command
    sample_world 1 (by decide) (by decide)).1 rfl).trans (by decide)

/-! ## C12, C13, C14: the twin listener -/

theorem create_twinlistener_eq (T : TwinConsts) (S : SockEnv) (p : Nat)
    (ctap : create_twinlistener_args) :
    create_twinlistener T S p ctap =
      (twin_rval T (first_failure S (p % 2 ^ 16)), twin_final T S (p % 2 ^ 16) ctap) := by
  unfold create_twinlistener
  simp only []
  generalize p % 2 ^ 16 = q
  by_cases h0 : S.rtpp_socket_ctor 0 = false
  · simp [create_twinlistener_loop, create_twinlistener_round,
      create_twinlistener_release, create_twinlistener_args.fds,
      create_twinlistener_args.set_fds, first_failure, twin_rval, twin_final, h0]
  · by_cases hb0 : (S.bind 0 q).1 = 0
    · by_cases h1 : S.rtpp_socket_ctor 1 = false
      · simp [create_twinlistener_loop, create_twinlistener_round,
          create_twinlistener_release, create_twinlistener_args.fds,
          create_twinlistener_args.set_fds, first_failure, twin_rval, twin_final, h0, hb0, h1,
          round_tail]
      · by_cases hb1 : (S.bind 1 ((q + 1) % 65536)).1 = 0
        · simp [create_twinlistener_loop, create_twinlistener_round,
            create_twinlistener_release, create_twinlistener_args.fds,
            create_twinlistener_args.set_fds, first_failure, twin_rval, twin_final, h0, hb0,
            h1, hb1, round_tail]
        · by_cases he : (S.bind 1 ((q + 1) % 65536)).2 ≠ T.EADDRINUSE ∧
              (S.bind 1 ((q + 1) % 65536)).2 ≠ T.EACCES
          · simp [create_twinlistener_loop, create_twinlistener_round,
              create_twinlistener_release, create_twinlistener_args.fds,
              create_twinlistener_args.set_fds, first_failure, twin_rval, twin_final, h0, hb0,
              h1, hb1, he, round_tail, bind_elog]
          · simp [create_twinlistener_loop, create_twinlistener_round,
              create_twinlistener_release, create_twinlistener_args.fds,
              create_twinlistener_args.set_fds, first_failure, twin_rval, twin_final, h0, hb0,
              h1, hb1, he, round_tail, bind_elog]
    · by_cases he : (S.bind 0 q).2 ≠ T.EADDRINUSE ∧ (S.bind 0 q).2 ≠ T.EACCES
      · simp [create_twinlistener_loop, create_twinlistener_round,
          create_twinlistener_release, create_twinlistener_args.fds,
          create_twinlistener_args.set_fds, first_failure, twin_rval, twin_final, h0, hb0, he,
          bind_elog]
      · simp [create_twinlistener_loop, create_twinlistener_round,
          create_twinlistener_release, create_twinlistener_args.fds,
          create_twinlistener_args.set_fds, first_failure, twin_rval, twin_final, h0, hb0, he,
          bind_elog]

theorem first_failure_none_iff (S : SockEnv) (q : Nat) :
    first_failure S q = none ↔
      (S.rtpp_socket_ctor 0 = true ∧ (S.bind 0 q).1 = 0 ∧ S.rtpp_socket_ctor 1 = true ∧
        (S.bind 1 ((q + 1) % 2 ^ 16)).1 = 0) := by
  unfold first_failure
  by_cases h0 : S.rtpp_socket_ctor 0 = false
  · simp [h0]
  · by_cases hb0 : (S.bind 0 q).1 = 0
    · by_cases h1 : S.rtpp_socket_ctor 1 = false
      · simp [h0, hb0, h1]
      · by_cases hb1 : (S.bind 1 ((q + 1) % 65536)).1 = 0
        · simp [h0, hb0, h1, hb1]
        · simp [h0, hb0, h1, hb1]
    · simp [h0, hb0]

theorem round_tail_filter_bind (T : TwinConsts) (S : SockEnv) (j : Nat) :
    (round_tail T S j).filter sock_event.is_bind = [] := by
  unfold round_tail
  rw [List.filter_eq_nil_iff]
  intro e he
  simp only [List.mem_append, List.mem_cons, List.mem_singleton, List.not_mem_nil,
    or_false] at he
  rcases he with (he | he) | he
  · split at he
    · split at he
      · simp only [List.mem_cons, List.mem_singleton, List.not_mem_nil, or_false] at he
        rcases he with he | he <;> rw [he] <;> simp [sock_event.is_bind]
      · simp only [List.mem_singleton] at he
        rw [he]; simp [sock_event.is_bind]
    · cases he
  · split at he
    · simp only [List.mem_cons, List.mem_singleton, List.not_mem_nil, or_false] at he
      rcases he with he | he <;> rw [he] <;> simp [sock_event.is_bind]
    · simp only [List.mem_singleton] at he
      rw [he]; simp [sock_event.is_bind]
  · rcases he with he | he <;> rw [he] <;> simp [sock_event.is_bind]

theorem round_tail_count_decref (T : TwinConsts) (S : SockEnv) (j i : Nat) :
    (round_tail T S j).count (sock_event.decref i) = 0 := by
  unfold round_tail
  rw [List.count_eq_zero]
  intro he
  simp only [List.mem_append, List.mem_cons, List.mem_singleton, List.not_mem_nil,
    or_false] at he
  rcases he with (he | he) | he
  · split at he
    · split at he
      · simp at he
      · simp at he
    · cases he
  · split at he
    · simp at he
    · simp at he
  · rcases he with he | he <;> cases he

theorem round_tail_count_ctor (T : TwinConsts) (S : SockEnv) (j i : Nat) (ok : Bool) :
    (round_tail T S j).count (sock_event.rtpp_socket_ctor i ok) = 0 := by
  unfold round_tail
  rw [List.count_eq_zero]
  intro he
  simp only [List.mem_append, List.mem_cons, List.mem_singleton, List.not_mem_nil,
    or_false] at he
  rcases he with (he | he) | he
  · split at he
    · split at he
      · simp at he
      · simp at he
    · cases he
  · split at he
    · simp at he
    · simp at he
  · rcases he with he | he <;> cases he

theorem bind_elog_count_decref (T : TwinConsts) (errno : Int) (port i : Nat) :
    (bind_elog T errno port).count (sock_event.decref i) = 0 := by
  unfold bind_elog
  split <;> simp

theorem bind_elog_count_ctor (T : TwinConsts) (errno : Int) (port i : Nat) (ok : Bool) :
    (bind_elog T errno port).count (sock_event.rtpp_socket_ctor i ok) = 0 := by
  unfold bind_elog
  split <;> simp

theorem twin_rval_ok_iff (T : TwinConsts) (hd : T.distinct) (f : Option twin_failure) :
    twin_rval T f = T.RTPP_PTU_OK ↔ f = none := by
  obtain ⟨h1, h2, _⟩ := hd
  constructor
  · intro h
    cases f with
    | none => rfl
    | some x =>
      cases x with
      | socket_ctor i => exact absurd h.symm h2
      | bind i e =>
        simp only [twin_rval] at h
        by_cases hc : e ≠ T.EADDRINUSE ∧ e ≠ T.EACCES
        · rw [if_pos hc] at h
          exact absurd h.symm h2
        · rw [if_neg hc] at h
          exact absurd h.symm h1
  · intro h
    rw [h]
    rfl

/-- C13: for a 16-bit candidate port `p` (the three results being different
values), the result of `create_twinlistener` is determined by the first
failing step among: creation of the first socket, its bind to `p`, creation
of the second socket, its bind to the next port.  It is `RTPP_PTU_OK` if and
only if all four succeed; `RTPP_PTU_ONEMORE` if and only if the first failure
is a bind whose `errno` is `EADDRINUSE` or `EACCES`; `RTPP_PTU_BRKERR` if and
only if the first failure is a socket creation, or a bind with another
`errno`.  What `settos` and `setrbuf` answer changes neither the result nor
the slots nor the caller's port variable. -/
theorem C13_twinlistener_result (T : TwinConsts) (S : SockEnv) (p : Nat)
    (ctap : create_twinlistener_args) (hd : T.distinct) (hp : p < 2 ^ 16) :
    ((create_twinlistener T S p ctap).1 = T.RTPP_PTU_OK ↔
      (S.rtpp_socket_ctor 0 = true ∧ (S.bind 0 p).1 = 0 ∧ S.rtpp_socket_ctor 1 = true ∧
        (S.bind 1 ((p + 1) % 2 ^ 16)).1 = 0)) ∧
    ((create_twinlistener T S p ctap).1 = T.RTPP_PTU_ONEMORE ↔
      ∃ (i : Nat) (e : Int), first_failure S p = some (twin_failure.bind i e) ∧
        (e = T.EADDRINUSE ∨ e = T.EACCES)) ∧
    ((create_twinlistener T S p ctap).1 = T.RTPP_PTU_BRKERR ↔
      ((∃ i : Nat, first_failure S p = some (twin_failure.socket_ctor i)) ∨
       (∃ (i : Nat) (e : Int), first_failure S p = some (twin_failure.bind i e) ∧
          e ≠ T.EADDRINUSE ∧ e ≠ T.EACCES))) ∧
    (∀ (settos2 : Nat → Int → Int) (setrbuf2 : Nat → Int → Int),
      (create_twinlistener T { S with settos := settos2, setrbuf := setrbuf2 } p ctap).1 =
        (create_twinlistener T S p ctap).1 ∧
      (create_twinlistener T { S with settos := settos2, setrbuf := setrbuf2 } p ctap).2.ctap =
        (create_twinlistener T S p ctap).2.ctap) := by
  have hd2 := hd
  obtain ⟨h1, h2, h3⟩ := hd2
  refine ⟨?_, ?_, ?_, ?_⟩
  · rw [create_twinlistener_eq, Nat.mod_eq_of_lt hp]
    exact (twin_rval_ok_iff T hd _).trans (first_failure_none_iff S p)
  · rw [create_twinlistener_eq, Nat.mod_eq_of_lt hp]
    simp only []
    cases hf : first_failure S p with
    | none =>
      simp only [twin_rval]
      constructor
      · intro h; exact absurd h h1
      · rintro ⟨i, e, h, _⟩; cases h
    | some x =>
      cases x with
      | socket_ctor i =>
        simp only [twin_rval]
        constructor
        · intro h; exact absurd h.symm h3
        · rintro ⟨i, e, h, _⟩; cases h
      | bind i e =>
        simp only [twin_rval]
        by_cases hc : e ≠ T.EADDRINUSE ∧ e ≠ T.EACCES
        · rw [if_pos hc]
          constructor
          · intro h; exact absurd h.symm h3
          · rintro ⟨i2, e2, h, he⟩
            cases h
            rcases he with he | he
            · exact absurd he hc.1
            · exact absurd he hc.2
        · rw [if_neg hc]
          constructor
          · intro _
            refine ⟨i, e, rfl, ?_⟩
            by_contra hn
            exact hc ⟨fun h => hn (Or.inl h), fun h => hn (Or.inr h)⟩
          · intro _; rfl
  · rw [create_twinlistener_eq, Nat.mod_eq_of_lt hp]
    simp only []
    cases hf : first_failure S p with
    | none =>
      simp only [twin_rval]
      constructor
      · intro h; exact absurd h h2
      · rintro (⟨i, h⟩ | ⟨i, e, h, _⟩) <;> cases h
    | some x =>
      cases x with
      | socket_ctor i =>
        simp only [twin_rval]
        constructor
        · intro _; exact Or.inl ⟨i, rfl⟩
        · intro _; trivial
      | bind i e =>
        simp only [twin_rval]
        by_cases hc : e ≠ T.EADDRINUSE ∧ e ≠ T.EACCES
        · rw [if_pos hc]
          constructor
          · intro _; exact Or.inr ⟨i, e, rfl, hc⟩
          · intro _; rfl
        · rw [if_neg hc]
          constructor
          · intro h; exact absurd h h3
          · rintro (⟨i2, h⟩ | ⟨i2, e2, h, he⟩)
            · cases h
            · cases h
              exact absurd he hc
  · intro settos2 setrbuf2
    rw [create_twinlistener_eq, create_twinlistener_eq]
    have hff : first_failure { S with settos := settos2, setrbuf := setrbuf2 } (p % 2 ^ 16) =
        first_failure S (p % 2 ^ 16) := rfl
    refine ⟨by rw [hff], ?_⟩
    simp only [twin_final, hff]
    cases first_failure S (p % 2 ^ 16) with
    | none => rfl
    | some x =>
      cases x with
      | socket_ctor i => cases i <;> rfl
      | bind i e => cases i <;> rfl

/-- C13 witness: the candidate 35000 where port 35001 is in use and neither
TOS nor the receive buffer can be set: the result is `RTPP_PTU_ONEMORE`, the
first failure being the second bind, with `EADDRINUSE`. -/
theorem C13_twinlistener_result_witness :
    (create_twinlistener sample_twin_consts sample_sock_env_busy 35000 sample_twin_args).1 =
      sample_twin_consts.RTPP_PTU_ONEMORE ∧
    first_failure sample_sock_env_busy 35000 = some (twin_failure.bind 1 98) :=
  ⟨(C13_twinlistener_result sample_twin_consts sample_sock_env_busy 35000 sample_twin_args
      (by decide) (by decide)).2.1.mpr ⟨1, 98, by decide, Or.inl (by decide)⟩,
   by decide⟩

theorem twin_final_failure (T : TwinConsts) (S : SockEnv) (q : Nat)
    (ctap : create_twinlistener_args) (hf : first_failure S q ≠ none) :
    (twin_final T S q ctap).ctap = { fds0 := none, fds1 := none, port := ctap.port } ∧
    ∀ i : Nat,
      (twin_final T S q ctap).events.count (sock_event.decref i) =
        (twin_final T S q ctap).events.count (sock_event.rtpp_socket_ctor i true) ∧
      (twin_final T S q ctap).events.count (sock_event.decref i) ≤ 1 := by
  cases hff : first_failure S q with
  | none => exact absurd hff hf
  | some x =>
    cases x with
    | socket_ctor j =>
      cases j with
      | zero =>
        refine ⟨by simp only [twin_final, hff], fun i => ?_⟩
        simp [twin_final, hff]
      | succ j =>
        refine ⟨by simp only [twin_final, hff], fun i => ?_⟩
        simp only [twin_final, hff, List.count_append, round_tail_count_decref,
          round_tail_count_ctor]
        by_cases hi : i = 0
        · simp [hi]
        · have hi2 : ¬ 0 = i := fun h => hi h.symm
          simp [List.count_cons, hi, hi2]
    | bind j e =>
      cases j with
      | zero =>
        refine ⟨by simp only [twin_final, hff], fun i => ?_⟩
        simp only [twin_final, hff, List.count_append, bind_elog_count_decref,
          bind_elog_count_ctor]
        by_cases hi : i = 0
        · simp [hi]
        · have hi2 : ¬ 0 = i := fun h => hi h.symm
          simp [List.count_cons, hi, hi2]
      | succ j =>
        refine ⟨by simp only [twin_final, hff], fun i => ?_⟩
        simp only [twin_final, hff, List.count_append, round_tail_count_decref,
          round_tail_count_ctor, bind_elog_count_decref, bind_elog_count_ctor]
        by_cases hi : i = 0
        · simp [hi]
        · have hi2 : ¬ 0 = i := fun h => hi h.symm
          by_cases hj : i = 1
          · simp [hj]
          · have hj2 : ¬ 1 = i := fun h => hj h.symm
            simp [List.count_cons, hi, hi2, hj, hj2]

theorem twin_final_ok (T : TwinConsts) (S : SockEnv) (q : Nat)
    (ctap : create_twinlistener_args) (hf : first_failure S q = none) :
    (twin_final T S q ctap).ctap.fds0 = some 0 ∧ (twin_final T S q ctap).ctap.fds1 = some 1 ∧
    ∀ i : Nat, (twin_final T S q ctap).events.count (sock_event.decref i) = 0 := by
  refine ⟨by simp only [twin_final, hf], by simp only [twin_final, hf], fun i => ?_⟩
  simp only [twin_final, hf, List.count_append, round_tail_count_decref]
  simp

/-- C14: whenever `create_twinlistener` returns a result other than
`RTPP_PTU_OK`, both slots `fds[0]` and `fds[1]` are NULL, the caller's port
variable holds what it held before, and for every socket the reference was
dropped as often as the socket was created in the attempt, and at most once:
once for a socket that was created, never for one that was not.  Whenever it
returns `RTPP_PTU_OK` (the three results being different values), the slots
hold the two sockets and no reference was dropped. -/
theorem C14_twinlistener_cleanup (T : TwinConsts) (S : SockEnv) (p : Nat)
    (ctap : create_twinlistener_args) (hd : T.distinct) :
    ((create_twinlistener T S p ctap).1 ≠ T.RTPP_PTU_OK →
      (create_twinlistener T S p ctap).2.ctap.fds0 = none ∧
      (create_twinlistener T S p ctap).2.ctap.fds1 = none ∧
      (create_twinlistener T S p ctap).2.ctap.port = ctap.port ∧
      ∀ i : Nat,
        (create_twinlistener T S p ctap).2.events.count (sock_event.decref i) =
          (create_twinlistener T S p ctap).2.events.count
            (sock_event.rtpp_socket_ctor i true) ∧
        (create_twinlistener T S p ctap).2.events.count (sock_event.decref i) ≤ 1) ∧
    ((create_twinlistener T S p ctap).1 = T.RTPP_PTU_OK →
      (create_twinlistener T S p ctap).2.ctap.fds0 = some 0 ∧
      (create_twinlistener T S p ctap).2.ctap.fds1 = some 1 ∧
      ∀ i : Nat, (create_twinlistener T S p ctap).2.events.count (sock_event.decref i) = 0) := by
  rw [create_twinlistener_eq]
  refine ⟨?_, ?_⟩
  · intro h
    have hf : first_failure S (p % 2 ^ 16) ≠ none := fun hn => h (by rw [hn]; rfl)
    obtain ⟨hc, hcount⟩ := twin_final_failure T S (p % 2 ^ 16) ctap hf
    refine ⟨?_, ?_, ?_, hcount⟩
    · show (twin_final T S (p % 2 ^ 16) ctap).ctap.fds0 = none
      rw [hc]
    · show (twin_final T S (p % 2 ^ 16) ctap).ctap.fds1 = none
      rw [hc]
    · show (twin_final T S (p % 2 ^ 16) ctap).ctap.port = ctap.port
      rw [hc]
  · intro h
    exact twin_final_ok T S (p % 2 ^ 16) ctap ((twin_rval_ok_iff T hd _).mp h)

/-- C14 witness: the candidate 35000 where port 35001 is in use: both sockets
were created and each has its reference dropped once, the slots are NULL and
the caller's port variable is still 7. -/
theorem C14_twinlistener_cleanup_witness :
    (create_twinlistener sample_twin_consts sample_sock_env_busy 35000
        sample_twin_args).2.ctap = { fds0 := none, fds1 := none, port := 7 } ∧
    (create_twinlistener sample_twin_consts sample_sock_env_busy 35000
        sample_twin_args).2.events.count (sock_event.decref 1) = 1 ∧
    (create_twinlistener sample_twin_consts sample_sock_env_busy 35000
        sample_twin_args).2.events.count (sock_event.decref 1) =
      (create_twinlistener sample_twin_consts sample_sock_env_busy 35000
        sample_twin_args).2.events.count (sock_event.rtpp_socket_ctor 1 true) :=
  ⟨by decide, by decide,
    (((C14_twinlistener_cleanup sample_twin_consts sample_sock_env_busy 35000 sample_twin_args
      (by decide)).1 (by decide)).2.2.2 1).1⟩

/-! ## The decimal rendering has no NUL -/

theorem digitChar_ne_nul (n : Nat) : Nat.digitChar n ≠ NUL := by
  rcases Nat.lt_or_ge n 16 with h | h
  · interval_cases n <;> decide
  · have hs : Nat.digitChar n = '*' := by
      unfold Nat.digitChar
      simp only [show n ≠ 0 by omega, show n ≠ 1 by omega, show n ≠ 2 by omega,
        show n ≠ 3 by omega, show n ≠ 4 by omega, show n ≠ 5 by omega, show n ≠ 6 by omega,
        show n ≠ 7 by omega, show n ≠ 8 by omega, show n ≠ 9 by omega, show n ≠ 10 by omega,
        show n ≠ 11 by omega, show n ≠ 12 by omega, show n ≠ 13 by omega,
        show n ≠ 14 by omega, show n ≠ 15 by omega, if_false]
    rw [hs]
    decide

theorem toDigitsCore_no_nul (fuel : Nat) :
    ∀ (n : Nat) (ds : List Char), NUL ∉ ds → NUL ∉ Nat.toDigitsCore 10 fuel n ds := by
  induction fuel with
  | zero => intro n ds h; simpa [Nat.toDigitsCore] using h
  | succ fuel ih =>
    intro n ds h
    have hd : NUL ∉ Nat.digitChar (n % 10) :: ds := by
      intro hm
      rcases List.mem_cons.mp hm with hm | hm
      · exact digitChar_ne_nul _ hm.symm
      · exact h hm
    simp only [Nat.toDigitsCore]
    split
    · exact hd
    · exact ih _ _ hd

theorem nat_repr_no_nul (n : Nat) : NUL ∉ (Nat.repr n).toList := by
  simp only [Nat.repr, Nat.toDigits, List.asString, String.toList]
  exact toDigitsCore_no_nul _ _ _ (List.not_mem_nil _)

theorem fmt_d_no_nul (n : Int) : NUL ∉ fmt_d n := by
  unfold fmt_d
  cases n with
  | ofNat m => exact nat_repr_no_nul m
  | negSucc m =>
    show NUL ∉ ("-" ++ Nat.repr (m + 1)).toList
    simp only [String.toList, String.data_append, List.mem_append, not_or]
    exact ⟨by decide, nat_repr_no_nul _⟩

/-! ## C22: GET_VER -/

theorem doreply_sent_length (cmd : rtpp_command) (w : World) (buf : List Char) (len : Nat)
    (errd : Int) :
    (rtpc_doreply cmd w buf len errd).2.sent.length = w.sent.length + 1 := by
  simp only [rtpc_doreply]
  by_cases hu : cmd.umode = 0
  · simp [hu]
  · cases hc : cmd.cookie <;> simp [hu, hc]

theorem doreply_stream (cmd : rtpp_command) (w : World) (buf : List Char) (errd : Int)
    (hu : cmd.umode = 0) :
    (rtpc_doreply cmd w buf buf.length errd).2.sent =
      w.sent ++ [net_event.write cmd.controlfd buf buf.length] := by
  by_cases he : errd = 0 <;> simp [rtpc_doreply, hu, he]

/-- C22 counterexample: GET_VER in a datagram whose cookie has 254
characters, with `CPROTOVER = 20040107`.  The composed reply would have 264
characters; `buf_r` keeps the first 255, the cookie and the space, and none
of the number, so the datagram is not the cookie, a space, the number and a
newline. -/
theorem C22_counterexample :
    (handle_command sample_consts sample_env (sample_get_ver_dgram sample_long_cookie)
        sample_world) =
      handle_outcome.returned
        (hc_return
          (rtpc_doreply (sample_get_ver_dgram sample_long_cookie) sample_world
            ("20040107".toList ++ [LF]) 9 0) []) ∧
    (rtpc_doreply (sample_get_ver_dgram sample_long_cookie) sample_world
        ("20040107".toList ++ [LF]) 9 0).2.sent =
      [net_event.sendto 3 (sample_long_cookie ++ [SP]) 264 7] ∧
    sample_long_cookie ++ [SP] ≠ sample_long_cookie ++ SP :: ("20040107".toList ++ [LF]) := by
  refine ⟨by decide, by decide, by decide⟩

/-- C22 (amended): for GET_VER, `handle_command` returns 0 after exactly one
reply, made through `rtpc_doreply` with `errd = 0` (a success): the decimal
rendering of `CPROTOVER` followed by a newline; it calls no collaborator, so
the session store is neither consulted nor changed.  On a stream these bytes
are written as they are.  On datagram transport with the cookie `ck` the
datagram is `ck`, a space, the number and a newline, provided these are at
most 255 characters.  If `CPROTOVER` is 20040107, the text is the id of the
first entry of `proto_caps` and a newline. -/
theorem C22_get_ver (K : Consts) (E : Env) (cmd : rtpp_command) (w : World)
    (hop : cmd.cca.op = rtpp_cmd_op.GET_VER) :
    handle_command K E cmd w =
      handle_outcome.returned
        (hc_return
          (rtpc_doreply cmd w (fmt_d K.CPROTOVER ++ [LF]) (fmt_d K.CPROTOVER ++ [LF]).length 0)
          []) ∧
    (rtpc_doreply cmd w (fmt_d K.CPROTOVER ++ [LF])
        (fmt_d K.CPROTOVER ++ [LF]).length 0).2.sent.length = w.sent.length + 1 ∧
    (rtpc_doreply cmd w (fmt_d K.CPROTOVER ++ [LF])
        (fmt_d K.CPROTOVER ++ [LF]).length 0).2.csp.ncmds_succd = cnt_inc w.csp.ncmds_succd ∧
    (rtpc_doreply cmd w (fmt_d K.CPROTOVER ++ [LF])
        (fmt_d K.CPROTOVER ++ [LF]).length 0).2.csp.ncmds_errs = w.csp.ncmds_errs ∧
    (cmd.umode = 0 →
      (rtpc_doreply cmd w (fmt_d K.CPROTOVER ++ [LF])
          (fmt_d K.CPROTOVER ++ [LF]).length 0).2.sent =
        w.sent ++ [net_event.write cmd.controlfd (fmt_d K.CPROTOVER ++ [LF])
          (fmt_d K.CPROTOVER ++ [LF]).length]) ∧
    (∀ ck : List Char, cmd.umode ≠ 0 → cmd.cookie = some ck →
      ck.length + 1 + (fmt_d K.CPROTOVER ++ [LF]).length ≤ 255 →
      (rtpc_doreply cmd w (fmt_d K.CPROTOVER ++ [LF])
          (fmt_d K.CPROTOVER ++ [LF]).length 0).2.sent =
        w.sent ++ [net_event.sendto cmd.controlfd (ck ++ SP :: (fmt_d K.CPROTOVER ++ [LF]))
          (ck ++ SP :: (fmt_d K.CPROTOVER ++ [LF])).length cmd.raddr]) ∧
    (K.CPROTOVER = 20040107 →
      some (fmt_d K.CPROTOVER ++ [LF]) = proto_caps.head?.map (fun id => id ++ [LF])) := by
  have hnul : NUL ∉ fmt_d K.CPROTOVER ++ [LF] := by
    intro h
    rcases List.mem_append.mp h with h | h
    · exact fmt_d_no_nul _ h
    · revert h; decide
  refine ⟨?_, doreply_sent_length _ _ _ _ _, ?_, ?_, ?_, ?_, ?_⟩
  · simp [handle_command, handle_command_parse, hop, reply_number]
  · rw [doreply_counts]; simp
  · rw [doreply_counts]; simp
  · intro hu
    exact doreply_stream cmd w _ 0 hu
  · intro ck hu hck hfit
    exact (doreply_dgram_fit cmd w _ ck 0 hu hck hnul hfit).1
  · intro h
    rw [h]
    decide

/-- C22 witness: "ck V" in a datagram, with `CPROTOVER = 20040107`: the
datagram sent is "ck 20040107\n". -/
theorem C22_get_ver_witness :
    (handle_command sample_consts sample_env (sample_get_ver_dgram ['c', 'k'])
        sample_world) =
      handle_outcome.returned
        (hc_return
          (rtpc_doreply (sample_get_ver_dgram ['c', 'k']) sample_world
            ("20040107".toList ++ [LF]) 9 0) []) ∧
    (rtpc_doreply (sample_get_ver_dgram ['c', 'k']) sample_world
        ("20040107".toList ++ [LF]) 9 0).2.sent =
      [net_event.sendto 3 ("ck 20040107".toList ++ [LF]) 12 7] :=
  ⟨(C22_get_ver sample_consts sample_env (sample_get_ver_dgram ['c', 'k']) sample_world
      rfl).1.trans (by decide),
    by decide⟩

/-! ## C21: the INFO reply -/

theorem handle_info_opts_valid (opts : List Char) (load : Int)
    (hv : ∀ c ∈ opts, c = 'b' ∨ c = 'B' ∨ c = 'l' ∨ c = 'L') :
    handle_info_opts opts load = some (if info_wants_load opts = true then 1 else load) := by
  induction opts generalizing load with
  | nil => simp [handle_info_opts, info_wants_load]
  | cons c cs ih =>
    have hcs : ∀ x ∈ cs, x = 'b' ∨ x = 'B' ∨ x = 'l' ∨ x = 'L' :=
      fun x hx => hv x (List.mem_cons_of_mem c hx)
    have hc := hv c (List.mem_cons_self c cs)
    rw [handle_info_opts]
    by_cases h1 : c = 'b' ∨ c = 'B'
    · rw [if_pos h1, ih load hcs]
      have hl : (c == 'l' || c == 'L') = false := by
        rcases h1 with h | h <;> rw [h] <;> decide
      simp only [info_wants_load, List.any_cons, hl, Bool.false_or]
    · rw [if_neg h1]
      have h2 : c = 'l' ∨ c = 'L' := by tauto
      rw [if_pos h2, ih 1 hcs]
      have hl : (c == 'l' || c == 'L') = true := by
        rcases h2 with h | h <;> rw [h] <;> decide
      simp [info_wants_load, List.any_cons, hl]

theorem to_int32_sub_mod (a b : Nat) :
    to_int32 (((a % 2 ^ 64 : Nat) : Int) - (b : Int)) = to_int32 ((a : Int) - (b : Int)) := by
  unfold to_int32
  push_cast
  omega

theorem handle_info_valid (K : Consts) (E : Env) (cmd : rtpp_command) (w : World)
    (opts : List Char) (hv : ∀ c ∈ opts, c = 'b' ∨ c = 'B' ∨ c = 'l' ∨ c = 'L') :
    handle_info K E cmd w opts =
      rtpc_doreply cmd w (info_text E (info_wants_load opts))
        (info_text E (info_wants_load opts)).length 0 := by
  have hb : ∀ b : Bool,
      (if (if b = true then (1 : Int) else 0) ≠ 0 then
        "sessions created: ".toList ++ fmt_llu (E.getlvalbyname "nsess_created".toList % 2 ^ 64) ++
          [LF] ++
        "active sessions: ".toList ++
          fmt_d (to_int32 (((E.getlvalbyname "nsess_created".toList % 2 ^ 64 : Nat) : Int) -
            (E.getlvalbyname "nsess_destroyed".toList : Int))) ++ [LF] ++
        "active streams: ".toList ++ fmt_d E.rtp_streams_length ++ [LF] ++
        "packets received: ".toList ++ fmt_llu (E.getlvalbyname "npkts_rcvd".toList % 2 ^ 64) ++
          [LF] ++
        "packets transmitted: ".toList ++
          fmt_llu ((E.getlvalbyname "npkts_relayed".toList +
            E.getlvalbyname "npkts_played".toList) % 2 ^ 64) ++ [LF] ++
        "average load: ".toList ++ E.aload_text ++ [LF]
      else
        "sessions created: ".toList ++ fmt_llu (E.getlvalbyname "nsess_created".toList % 2 ^ 64) ++
          [LF] ++
        "active sessions: ".toList ++
          fmt_d (to_int32 (((E.getlvalbyname "nsess_created".toList % 2 ^ 64 : Nat) : Int) -
            (E.getlvalbyname "nsess_destroyed".toList : Int))) ++ [LF] ++
        "active streams: ".toList ++ fmt_d E.rtp_streams_length ++ [LF] ++
        "packets received: ".toList ++ fmt_llu (E.getlvalbyname "npkts_rcvd".toList % 2 ^ 64) ++
          [LF] ++
        "packets transmitted: ".toList ++
          fmt_llu ((E.getlvalbyname "npkts_relayed".toList +
            E.getlvalbyname "npkts_played".toList) % 2 ^ 64) ++ [LF]) = info_text E b := by
    intro b
    rw [to_int32_sub_mod]
    cases b <;> simp [info_text, info_lines, lines_text]
  unfold handle_info
  rw [handle_info_opts_valid opts 0 hv]
  simp only []
  rw [hb]
  have hpos : 0 < (info_text E (info_wants_load opts)).length := by
    cases info_wants_load opts <;> simp [info_text, info_lines, lines_text]
  rw [if_pos hpos]

theorem info_wants_load_filter (opts : List Char) :
    info_wants_load (opts.filter (fun c => c != 'b' && c != 'B')) = info_wants_load opts := by
  induction opts with
  | nil => rfl
  | cons c cs ih =>
    unfold info_wants_load at ih ⊢
    by_cases hb : (c != 'b' && c != 'B') = true
    · simp only [List.filter_cons, hb, if_true, List.any_cons, ih]
    · have hl : (c == 'l' || c == 'L') = false := by
        have : c = 'b' ∨ c = 'B' := by
          by_contra hn
          apply hb
          simp only [Bool.and_eq_true, bne_iff_ne, ne_eq]
          exact ⟨fun h => hn (Or.inl h), fun h => hn (Or.inr h)⟩
        rcases this with h | h <;> rw [h] <;> decide
      simp only [List.filter_cons, hb, List.any_cons, hl, Bool.false_or]
      simpa using ih

/-- C21: for INFO with a modifier string of b, B, l and L characters,
`handle_info` makes exactly one reply, a success (`errd = 0`), whose body is
`info_text`: the lines "sessions created: C", "active sessions: A",
"active streams: S", "packets received: R" and "packets transmitted: T" in
this order, each ended by a newline, with C = `nsess_created`, A =
`nsess_created - nsess_destroyed` as a signed 32-bit int, S the length of the
table of RTP streams, R = `npkts_rcvd`, T = `npkts_relayed + npkts_played`
(C, R and T as 64-bit unsigned values), and then the line "average load: .."
if and only if the modifiers contain 'l' or 'L'.  On a stream the bytes
written are this body.  Dropping the b and B modifiers changes nothing.
`handle_command` returns 0 with this reply and no call. -/
theorem C21_info_body (K : Consts) (E : Env) (cmd : rtpp_command) (w : World)
    (opts : List Char) (hv : ∀ c ∈ opts, c = 'b' ∨ c = 'B' ∨ c = 'l' ∨ c = 'L') :
    handle_info K E cmd w opts =
      rtpc_doreply cmd w (info_text E (info_wants_load opts))
        (info_text E (info_wants_load opts)).length 0 ∧
    (info_wants_load opts = true ↔ ('l' ∈ opts ∨ 'L' ∈ opts)) ∧
    (handle_info K E cmd w opts).2.sent.length = w.sent.length + 1 ∧
    (handle_info K E cmd w opts).2.csp.ncmds_succd = cnt_inc w.csp.ncmds_succd ∧
    (handle_info K E cmd w opts).2.csp.ncmds_errs = w.csp.ncmds_errs ∧
    (cmd.umode = 0 →
      (handle_info K E cmd w opts).2.sent =
        w.sent ++ [net_event.write cmd.controlfd (info_text E (info_wants_load opts))
          (info_text E (info_wants_load opts)).length]) ∧
    handle_info K E cmd w (opts.filter (fun c => c != 'b' && c != 'B')) =
      handle_info K E cmd w opts ∧
    (cmd.cca.op = rtpp_cmd_op.INFO → opts = cmd.mods →
      handle_command K E cmd w =
        handle_outcome.returned (hc_return (handle_info K E cmd w opts) [])) := by
  have hmain := handle_info_valid K E cmd w opts hv
  have hvf : ∀ c ∈ opts.filter (fun c => c != 'b' && c != 'B'),
      c = 'b' ∨ c = 'B' ∨ c = 'l' ∨ c = 'L' :=
    fun c hc => hv c (List.mem_filter.mp hc).1
  refine ⟨hmain, ?_, ?_, ?_, ?_, ?_, ?_, ?_⟩
  · simp only [info_wants_load, List.any_eq_true, Bool.or_eq_true, beq_iff_eq]
    constructor
    · rintro ⟨c, hc, h | h⟩
      · exact Or.inl (h ▸ hc)
      · exact Or.inr (h ▸ hc)
    · rintro (h | h)
      · exact ⟨'l', h, Or.inl rfl⟩
      · exact ⟨'L', h, Or.inr rfl⟩
  · rw [hmain]; exact doreply_sent_length _ _ _ _ _
  · rw [hmain, doreply_counts]; simp
  · rw [hmain, doreply_counts]; simp
  · intro hu
    rw [hmain]
    exact doreply_stream cmd w _ 0 hu
  · rw [handle_info_valid K E cmd w _ hvf, info_wants_load_filter, hmain]
  · intro hop ho
    rw [ho]
    simp [handle_command, handle_command_parse, hop]

/-- C21 witness: "IbL" on a stream, with 12 sessions created and 5 destroyed,
7 streams, 1000 packets received, 900 relayed and 50 played: one write of the
six lines. -/
theorem C21_info_body_witness :
    (handle_info sample_consts sample_env_stats sample_info_command sample_world
        sample_info_command.mods).2.sent =
      [net_event.write 3
        ("sessions created: 12".toList ++ [LF] ++ "active sessions: 7".toList ++ [LF] ++
         "active streams: 7".toList ++ [LF] ++ "packets received: 1000".toList ++ [LF] ++
         "packets transmitted: 950".toList ++ [LF] ++ "average load: 0.250000".toList ++ [LF])
        129] :=
  ((C21_info_body sample_consts sample_env_stats sample_info_command sample_world
    sample_info_command.mods (by decide)).2.2.2.2.2.1 rfl).trans (by decide)

/-! ## C25: one reply per command -/

theorem replied_once_doreply (cmd : rtpp_command) (w : World) (sp : Option rtpp_session)
    (buf : List Char) (len : Nat) (errd : Int) (calls : List call_event) :
    replied_once cmd w
      (handle_outcome.returned
        (hc_return (rtpc_doreply { cmd with sp := sp } w buf len errd) calls)) :=
  ⟨calls, sp, buf, len, errd, rfl⟩

theorem replied_once_error (cmd : rtpp_command) (w : World) (sp : Option rtpp_session)
    (ecode : Int) (calls : List call_event) :
    replied_once cmd w
      (handle_outcome.returned (hc_return (reply_error { cmd with sp := sp } w ecode) calls)) :=
  replied_once_doreply cmd w sp _ _ 1 calls

theorem replied_once_number (cmd : rtpp_command) (w : World) (sp : Option rtpp_session)
    (n : Int) (calls : List call_event) :
    replied_once cmd w
      (handle_outcome.returned (hc_return (reply_number { cmd with sp := sp } w n) calls)) :=
  replied_once_doreply cmd w sp _ _ 0 calls

theorem replied_once_ok (cmd : rtpp_command) (w : World) (sp : Option rtpp_session)
    (calls : List call_event) :
    replied_once cmd w
      (handle_outcome.returned (hc_return (reply_ok { cmd with sp := sp } w) calls)) :=
  replied_once_number cmd w sp 0 calls

theorem replied_once_info (K : Consts) (E : Env) (cmd : rtpp_command) (w : World)
    (opts : List Char) (calls : List call_event) :
    replied_once cmd w
      (handle_outcome.returned (hc_return (handle_info K E cmd w opts) calls)) := by
  by_cases hv : ∀ c ∈ opts, c = 'b' ∨ c = 'B' ∨ c = 'l' ∨ c = 'L'
  · rw [handle_info_valid K E cmd w opts hv]
    exact replied_once_doreply cmd w cmd.sp _ _ 0 calls
  · have he : handle_info K E cmd w opts = reply_error cmd w K.ECODE_PARSE_7 := by
      unfold handle_info
      rw [handle_info_opts_bad opts 0 hv]
    rw [he]
    exact replied_once_error cmd w cmd.sp _ calls

theorem replied_once_ver_feature (E : Env) (cmd : rtpp_command) (w : World)
    (calls : List call_event) (h1 : cmd.argv 1 ≠ none) :
    ∃ r : rtpp_command × World, handle_ver_feature E cmd w = some r ∧
      replied_once cmd w (handle_outcome.returned (hc_return r calls)) := by
  unfold handle_ver_feature
  cases ha : cmd.argv 1 with
  | none => exact absurd ha h1
  | some id =>
    simp only []
    split
    · exact ⟨_, rfl, replied_once_number cmd w cmd.sp 0 calls⟩
    · exact ⟨_, rfl, replied_once_number cmd w cmd.sp _ calls⟩

theorem parse_error_form (K : Consts) (E : Env) (cmd : rtpp_command) (w : World)
    (r : handle_outcome)
    (hop : cmd.cca.op = rtpp_cmd_op.DELETE ∨ cmd.cca.op = rtpp_cmd_op.RECORD ∨
      cmd.cca.op = rtpp_cmd_op.COPY ∨ cmd.cca.op = rtpp_cmd_op.PLAY ∨
      cmd.cca.op = rtpp_cmd_op.NOPLAY)
    (hp : handle_command_parse K E cmd w = Except.error r) :
    ∃ ecode : Int, r = handle_outcome.returned (hc_return (reply_error cmd w ecode) []) := by
  unfold handle_command_parse at hp
  rcases hop with hop | hop | hop | hop | hop <;> rw [hop] at hp <;> simp only [] at hp
  all_goals (repeat' split at hp)
  all_goals first
    | (cases hp; exact ⟨_, rfl⟩)
    | cases hp

theorem run_replied_once (K : Consts) (E : Env) (cmd : rtpp_command) (w : World)
    (l : hc_locals) (sp : Option rtpp_session) (i : Int) (spa : Option rtpp_session)
    (calls : List call_event) (hw : l.w = w)
    (hop : cmd.cca.op = rtpp_cmd_op.DELETE ∨ cmd.cca.op = rtpp_cmd_op.RECORD ∨
      cmd.cca.op = rtpp_cmd_op.COPY ∨ cmd.cca.op = rtpp_cmd_op.PLAY ∨
      cmd.cca.op = rtpp_cmd_op.NOPLAY)
    (hc : cmd.cca.op = rtpp_cmd_op.PLAY → l.codecs ≠ none) :
    replied_once cmd w (handle_command_run K E { cmd with sp := sp } l i spa calls) := by
  have hop2 : ({ cmd with sp := sp } : rtpp_command).cca.op = cmd.cca.op := rfl
  unfold handle_command_run
  rw [hop2, hw]
  rcases hop with hop | hop | hop | hop | hop <;> rw [hop] <;> simp only []
  all_goals (repeat' split)
  all_goals first
    | exact replied_once_ok cmd w sp _
    | exact replied_once_error cmd w sp _ _
    | exact absurd (by assumption) (hc hop)

theorem lookup_cmd_form (E : Env) (cmd : rtpp_command) (l : hc_locals) :
    ∃ sp : Option rtpp_session, (handle_command_lookup E cmd l).2.2.1 = { cmd with sp := sp } := by
  unfold handle_command_lookup
  split
  · exact ⟨cmd.sp, rfl⟩
  · exact ⟨cmd.sp, rfl⟩
  · simp only []
    split
    · exact ⟨_, rfl⟩
    · exact ⟨cmd.sp, rfl⟩

theorem replied_once_facts (cmd : rtpp_command) (w : World) (o : handle_outcome)
    (h : replied_once cmd w o) :
    ∃ r : cmd_result, o = handle_outcome.returned r ∧ r.rval = 0 ∧
      r.w.csp.ncmds_repld = cnt_inc w.csp.ncmds_repld ∧
      r.w.sent.length = w.sent.length + 1 ∧
      r.w.csp.ncmds_rcvd = w.csp.ncmds_rcvd := by
  obtain ⟨calls, sp, buf, len, errd, ho⟩ := h
  refine ⟨_, ho, rfl, ?_, doreply_sent_length _ _ _ _ _, ?_⟩
  · show (rtpc_doreply _ w buf len errd).2.csp.ncmds_repld = _
    rw [doreply_counts]
  · show (rtpc_doreply _ w buf len errd).2.csp.ncmds_rcvd = _
    rw [doreply_counts]

/-- Where an argument that goes to `strcmp` is missing, `handle_command` does
not return: "VF" without a feature id, and "P cid prompt" without a codecs
argument on a found stream, after the calls of the lookup and of
`handle_noplay`. -/
theorem null_argument_outcome :
    handle_command sample_consts sample_env
        (sample_stream_command rtpp_cmd_op.VER_FEATURE [['V', 'F']]) sample_world =
      handle_outcome.crashed
        (sample_stream_command rtpp_cmd_op.VER_FEATURE [['V', 'F']]) sample_world [] ∧
    handle_command sample_consts (sample_env_found 1)
        (sample_stream_command rtpp_cmd_op.PLAY [['P'], "cid".toList, "prompt".toList])
        sample_world =
      handle_outcome.crashed
        { sample_stream_command rtpp_cmd_op.PLAY [['P'], "cid".toList, "prompt".toList] with
          sp := some sample_session }
        sample_world
        [call_event.find_stream "cid".toList "ft".toList none, call_event.handle_noplay 0] := by
  refine ⟨by decide, by decide⟩

/-- C25: for every command whose opcode is GET_VER, VER_FEATURE, DELETE_ALL,
INFO, DELETE, RECORD, COPY, PLAY or NOPLAY and that carries the arguments its
opcode reads as strings (the feature id `args.v[1]` of VER_FEATURE and the
codecs argument `args.v[3]` of PLAY are not NULL), whatever its other fields
and whatever the collaborators answer, `handle_command` returns (it does not
abort), returns 0, and what it leaves is what exactly one call of
`rtpc_doreply` on the world at entry leaves: one thing is sent and
`ncmds_repld` is one more (as a 64-bit counter). -/
theorem C25_one_reply (K : Consts) (E : Env) (cmd : rtpp_command) (w : World)
    (hop : cmd.cca.op = rtpp_cmd_op.GET_VER ∨ cmd.cca.op = rtpp_cmd_op.VER_FEATURE ∨
      cmd.cca.op = rtpp_cmd_op.DELETE_ALL ∨ cmd.cca.op = rtpp_cmd_op.INFO ∨
      cmd.cca.op = rtpp_cmd_op.DELETE ∨ cmd.cca.op = rtpp_cmd_op.RECORD ∨
      cmd.cca.op = rtpp_cmd_op.COPY ∨ cmd.cca.op = rtpp_cmd_op.PLAY ∨
      cmd.cca.op = rtpp_cmd_op.NOPLAY)
    (hid : cmd.cca.op = rtpp_cmd_op.VER_FEATURE → cmd.argv 1 ≠ none)
    (hcodecs : cmd.cca.op = rtpp_cmd_op.PLAY → cmd.argv 3 ≠ none) :
    replied_once cmd w (handle_command K E cmd w) ∧
    ∃ r : cmd_result, handle_command K E cmd w = handle_outcome.returned r ∧ r.rval = 0 ∧
      r.w.csp.ncmds_repld = cnt_inc w.csp.ncmds_repld ∧
      r.w.sent.length = w.sent.length + 1 := by
  have hmain : replied_once cmd w (handle_command K E cmd w) := by
    rcases hop with hop | hop | hop | hop | hop5
    · have h : handle_command K E cmd w =
          handle_outcome.returned (hc_return (reply_number cmd w K.CPROTOVER) []) := by
        simp [handle_command, handle_command_parse, hop]
      rw [h]
      exact replied_once_number cmd w cmd.sp _ _
    · obtain ⟨r, hr, hrep⟩ := replied_once_ver_feature E cmd w [] (hid hop)
      have h : handle_command K E cmd w = handle_outcome.returned (hc_return r []) := by
        simp [handle_command, handle_command_parse, hop, hr]
      rw [h]
      exact hrep
    · have h : handle_command K E cmd w =
          handle_outcome.returned (hc_return (reply_ok cmd w)
            [call_event.sessions_wrt_purge, call_event.sessions_ht_purge]) := by
        simp [handle_command, handle_command_parse, hop]
      rw [h]
      exact replied_once_ok cmd w cmd.sp _
    · have h : handle_command K E cmd w =
          handle_outcome.returned (hc_return (handle_info K E cmd w cmd.mods) []) := by
        simp [handle_command, handle_command_parse, hop]
      rw [h]
      exact replied_once_info K E cmd w _ _
    · have hne : cmd.cca.op ≠ rtpp_cmd_op.UPDATE ∧ cmd.cca.op ≠ rtpp_cmd_op.LOOKUP := by
        rcases hop5 with h | h | h | h | h <;> rw [h] <;> exact ⟨by decide, by decide⟩
      cases hp : handle_command_parse K E cmd w with
      | error r =>
        obtain ⟨e, rfl⟩ := parse_error_form K E cmd w r hop5 hp
        simp only [handle_command, hp]
        exact replied_once_error cmd w cmd.sp e []
      | ok l =>
        obtain ⟨hw, _⟩ := parse_ok_plain K E cmd w l hp hne
        obtain ⟨sp, hsp⟩ := lookup_cmd_form E cmd l
        have hlc : cmd.cca.op = rtpp_cmd_op.PLAY → l.codecs ≠ none := by
          intro hplay
          rw [(parse_ok_play K E cmd w l hplay hp).2.2.2.1]
          exact hcodecs hplay
        simp only [handle_command, hp, hsp]
        split
        · have hl : ¬ ({ cmd with sp := sp } : rtpp_command).cca.op = rtpp_cmd_op.LOOKUP :=
            hne.2
          rw [if_neg hl, hw]
          exact replied_once_error cmd w sp _ _
        · exact run_replied_once K E cmd w l sp _ _ _ hw hop5 hlc
  obtain ⟨r, h1, h2, h3, h4, _⟩ := replied_once_facts cmd w _ hmain
  exact ⟨hmain, r, h1, h2, h3, h4⟩

/-- C25 witness: "P0 cid prompt 0,8 ft" on a found stream, where
`handle_play` is not called: one reply. -/
theorem C25_one_reply_witness :
    replied_once sample_play_zero_command sample_world
      (handle_command sample_consts (sample_env_found 1) sample_play_zero_command
        sample_world) :=
  (C25_one_reply sample_consts (sample_env_found 1) sample_play_zero_command sample_world
    (by decide) (by decide) (by decide)).1

/-! ## C26: the port handed back by the twin listener -/

/-- C26: for every 16-bit candidate port `p` on which `create_twinlistener`
returns `RTPP_PTU_OK` (the three results being different values), the value
stored in the caller's port variable is `p` when `p < 65534`; for the
candidates 65534 and 65535 the `uint16_t` variable has wrapped around before
`port - 2` is computed in `int`, and the value stored is `p - 65536`, that is
-2 and -1. -/
theorem C26_port_stored (T : TwinConsts) (S : SockEnv) (p : Nat)
    (ctap : create_twinlistener_args) (hd : T.distinct) (hp : p < 2 ^ 16)
    (hok : (create_twinlistener T S p ctap).1 = T.RTPP_PTU_OK) :
    (create_twinlistener T S p ctap).2.ctap.port =
      (if p < 65534 then (p : Int) else (p : Int) - 65536) := by
  rw [create_twinlistener_eq, Nat.mod_eq_of_lt hp] at hok ⊢
  have hf : first_failure S p = none := (twin_rval_ok_iff T hd _).mp hok
  simp only [twin_final, hf]
  have hp2 : p < 65536 := hp
  by_cases h : p < 65534
  · rw [if_pos h]
    have e : ((p + 1) % 2 ^ 16 + 1) % 2 ^ 16 = p + 2 := by omega
    rw [e]
    push_cast
    omega
  · rw [if_neg h]
    have e : ((p + 1) % 2 ^ 16 + 1) % 2 ^ 16 = p + 2 - 65536 := by omega
    rw [e]
    omega

/-- C26 witness: with every step succeeding, the candidate 65534 is accepted,
the sockets are bound to 65534 and 65535, and the caller's port variable is
left at -2; the candidate 35000 leaves it at 35000. -/
theorem C26_port_stored_witness :
    (create_twinlistener sample_twin_consts sample_sock_env 65534 sample_twin_args).1 =
      sample_twin_consts.RTPP_PTU_OK ∧
    (create_twinlistener sample_twin_consts sample_sock_env 65534
        sample_twin_args).2.events.filter sock_event.is_bind =
      [sock_event.bind 0 65534, sock_event.bind 1 65535] ∧
    (create_twinlistener sample_twin_consts sample_sock_env 65534
        sample_twin_args).2.ctap.port = -2 ∧
    (create_twinlistener sample_twin_consts sample_sock_env 35000
        sample_twin_args).2.ctap.port = 35000 :=
  ⟨by decide, by decide,
    (C26_port_stored sample_twin_consts sample_sock_env 65534 sample_twin_args (by decide)
      (by decide) (by decide)).trans (by decide),
    (C26_port_stored sample_twin_consts sample_sock_env 35000 sample_twin_args (by decide)
      (by decide) (by decide)).trans (by decide)⟩

/-! ## C27: the length of a datagram reply -/

/-- C27: in datagram mode with the cookie `ck`, `rtpc_doreply` composes the
cookie, a space and the payload string in `buf_r`, which keeps at most 255
characters of them, and passes to the send call the length that `snprintf`
returns, the length of the untruncated composition.  That length is the
number of characters stored when the composition has at most 255 characters;
when it has more, 255 characters are stored and the length passed is
larger. -/
theorem C27_send_length (cmd : rtpp_command) (w : World) (buf : List Char) (len : Nat)
    (errd : Int) (ck : List Char) (hu : cmd.umode ≠ 0) (hck : cmd.cookie = some ck) :
    (rtpc_doreply cmd w buf len errd).2.sent =
      w.sent ++ [net_event.sendto cmd.controlfd
        ((ck ++ SP :: cstr (buf.take len)).take 255)
        (ck ++ SP :: cstr (buf.take len)).length cmd.raddr] ∧
    ((ck ++ SP :: cstr (buf.take len)).length ≤ 255 →
      ((ck ++ SP :: cstr (buf.take len)).take 255).length =
        (ck ++ SP :: cstr (buf.take len)).length) ∧
    (255 < (ck ++ SP :: cstr (buf.take len)).length →
      ((ck ++ SP :: cstr (buf.take len)).take 255).length = 255 ∧
      ((ck ++ SP :: cstr (buf.take len)).take 255).length <
        (ck ++ SP :: cstr (buf.take len)).length) := by
  refine ⟨?_, ?_, ?_⟩
  · by_cases he : errd = 0 <;> simp [rtpc_doreply, hu, hck, he, snprintf_s_s, BUF_R_SIZE]
  · intro h
    rw [List.length_take]
    omega
  · intro h
    rw [List.length_take]
    omega

/-- C27 witness: a datagram command whose cookie has 254 characters, answered
"0\n": `buf_r` holds the 255 characters of the cookie and the space, and the
send call is passed the length 257. -/
theorem C27_send_length_witness :
    (rtpc_doreply (sample_dgram_command sample_long_cookie) sample_world
        reply_text_ok 2 0).2.sent =
      [net_event.sendto 3 (sample_long_cookie ++ [SP]) 257 7] ∧
    (sample_long_cookie ++ [SP]).length = 255 :=
  ⟨((C27_send_length (sample_dgram_command sample_long_cookie) sample_world reply_text_ok 2 0
      sample_long_cookie (by decide) rfl).1).trans (by decide),
    by decide⟩

/-! ## C28: the stores of the tokenizer -/

theorem guard_retrans_args (cmd : rtpp_command) (w : World) :
    (rtpp_command_guard_retrans cmd w).2.1.args = cmd.args ∧
    (rtpp_command_guard_retrans cmd w).2.1.subc_args = cmd.subc_args := by
  unfold rtpp_command_guard_retrans
  split <;> exact ⟨rfl, rfl⟩

theorem split_inv_start (K : Consts) (cmd : rtpp_command) (w : World)
    (hK : 0 < K.RTPC_MAX_ARGC)
    (ha : cmd.args.c = 0 ∧ cmd.args.v.length = K.RTPC_MAX_ARGC)
    (hs : cmd.subc_args.c = 0 ∧ cmd.subc_args.v.length = K.RTPC_MAX_ARGC) :
    split_inv K { cmd := cmd, w := w, cap := cap_t.args, ap := 0 } :=
  ⟨hK, ha.2, hs.2, fun _ => ⟨ha.1.symm, hs.1⟩, fun h => by cases h⟩

theorem split_body_inv (K : Consts) (tok : List Char) (st st1 : split_state)
    (hi : split_inv K st)
    (hb : rtpp_command_split_body K tok (st.store (some tok)) = split_step.next st1) :
    split_inv K st1 := by
  cases st with
  | mk cmd w cap ap =>
    cases cap with
    | args =>
      simp only [split_inv, true_implies, reduceCtorEq, false_implies, and_true] at hi
      obtain ⟨h1, h2, h3, h4a, h4b⟩ := hi
      simp only [rtpp_command_split_body, split_state.store, true_and] at hb
      split at hb
      · split at hb
        · split at hb
          · cases hb
          · cases hb
            have hg := guard_retrans_args
              { cmd with args := { cmd.args with v := cmd.args.v.set ap (some tok) },
                         cookie := some tok } w
            simp only [split_inv, hg.1, hg.2, List.length_set, true_implies, reduceCtorEq,
              false_implies, and_true]
            exact ⟨h1, h2, h3, h4a, h4b⟩
        · split at hb
          · cases hb
            simp only [split_inv, List.length_set, true_implies, reduceCtorEq,
              false_implies, true_and]
            refine ⟨by omega, h2, h3, h4b.symm, by omega, ?_⟩
            rw [← h4a, List.get?_eq_getElem?, List.getElem?_set_self (by simp; omega)]
          · split at hb
            · cases hb
            · cases hb
              rename_i hlt
              simp only [split_state.inc_c] at hlt
              simp only [split_inv, split_state.inc_c, List.length_set, true_implies,
                reduceCtorEq, false_implies, and_true]
              exact ⟨by omega, h2, h3, by omega, h4b⟩
      · cases hb
        simp only [split_inv, List.length_set, true_implies, reduceCtorEq, false_implies,
          and_true]
        exact ⟨h1, h2, h3, h4a, h4b⟩
    | subc_args =>
      simp only [split_inv, true_implies, reduceCtorEq, false_implies, true_and] at hi
      obtain ⟨h1, h2, h3, h5a, h5b, h5c⟩ := hi
      simp only [rtpp_command_split_body, split_state.store, reduceCtorEq, false_and,
        if_false] at hb
      split at hb
      · split at hb
        · cases hb
        · cases hb
          rename_i hlt
          simp only [split_state.inc_c] at hlt
          simp only [split_inv, split_state.inc_c, List.length_set, true_implies,
            reduceCtorEq, false_implies, true_and]
          exact ⟨by omega, h2, h3, by omega, h5b, h5c⟩
      · cases hb
        simp only [split_inv, List.length_set, true_implies, reduceCtorEq, false_implies,
          true_and]
        exact ⟨h1, h2, h3, h5a, h5b, h5c⟩

theorem split_body_not_eol (K : Consts) (tok : List Char) (st st1 : split_state) :
    rtpp_command_split_body K tok st ≠ split_step.exit (split_exit.eol st1) := by
  intro h
  simp only [rtpp_command_split_body] at h
  split_ifs at h <;> cases h

theorem split_inv_eol (K : Consts) (st : split_state) (hi : split_inv K st) :
    vectors_terminated K (st.store none) := by
  cases st with
  | mk cmd w cap ap =>
    cases cap with
    | args =>
      simp only [split_inv, true_implies, reduceCtorEq, false_implies, and_true] at hi
      obtain ⟨h1, h2, h3, h4a, h4b⟩ := hi
      simp only [vectors_terminated, split_state.store, reduceCtorEq, false_implies, and_true]
      refine ⟨by omega, ?_⟩
      rw [← h4a, List.get?_eq_getElem?, List.getElem?_set_self (by omega)]
    | subc_args =>
      simp only [split_inv, true_implies, reduceCtorEq, false_implies, true_and] at hi
      obtain ⟨h1, h2, h3, h5a, h5b, h5c⟩ := hi
      simp only [vectors_terminated, split_state.store, true_implies]
      refine ⟨h5b, h5c, by omega, ?_⟩
      rw [← h5a, List.get?_eq_getElem?, List.getElem?_set_self (by omega)]

theorem iter_stores_at_ap (cp : Option (List Char)) (st : split_state) (s : cap_t × Nat)
    (hs : s ∈ rtpp_command_split_iter_stores cp st) : s = (st.cap, st.ap) := by
  unfold rtpp_command_split_iter_stores at hs
  repeat' split at hs
  all_goals simp at hs
  all_goals exact hs

theorem split_loop_inv (K : Consts) (fuel : Nat) :
    ∀ (cp : Option (List Char)) (st : split_state), split_inv K st →
      (∀ s ∈ rtpp_command_split_stores K fuel cp st, s.2 < K.RTPC_MAX_ARGC) ∧
      (∀ st1 : split_state,
        rtpp_command_split_loop K fuel cp st = some (split_exit.eol st1) →
        vectors_terminated K st1) := by
  induction fuel with
  | zero =>
    intro cp st _
    refine ⟨fun s hs => ?_, fun st1 h => ?_⟩
    · simp [rtpp_command_split_stores] at hs
    · simp [rtpp_command_split_loop] at h
  | succ fuel ih =>
    intro cp st hi
    have hhead : ∀ s ∈ rtpp_command_split_iter_stores cp st, s.2 < K.RTPC_MAX_ARGC := by
      intro s hs
      rw [iter_stores_at_ap cp st s hs]
      exact hi.1
    simp only [rtpp_command_split_stores, rtpp_command_split_loop]
    cases hr : rtpp_strsep cp split_delims with
    | mk o cp1 =>
      cases o with
      | none =>
        have hit : rtpp_command_split_iter K cp st =
            (split_step.exit (split_exit.eol (st.store none)), cp1) := by
          simp [rtpp_command_split_iter, hr]
        rw [hit]
        refine ⟨fun s hs => ?_, fun st1 h => ?_⟩
        · simp only [List.append_nil] at hs
          exact hhead s hs
        · simp only [Option.some.injEq, split_exit.eol.injEq] at h
          rw [← h]
          exact split_inv_eol K st hi
      | some tok =>
        have hit : rtpp_command_split_iter K cp st =
            (rtpp_command_split_body K tok (st.store (some tok)), cp1) := by
          simp [rtpp_command_split_iter, hr]
        rw [hit]
        cases hb : rtpp_command_split_body K tok (st.store (some tok)) with
        | next st2 =>
          have hi2 := split_body_inv K tok st st2 hi hb
          obtain ⟨ih1, ih2⟩ := ih cp1 st2 hi2
          refine ⟨fun s hs => ?_, fun st1 h => ih2 st1 h⟩
          rcases List.mem_append.mp hs with hs | hs
          · exact hhead s hs
          · exact ih1 s hs
        | exit e =>
          refine ⟨fun s hs => ?_, fun st1 h => ?_⟩
          · simp only [List.append_nil] at hs
            exact hhead s hs
          · simp only [Option.some.injEq] at h
            rw [h] at hb
            exact absurd hb (split_body_not_eol K tok _ st1)

theorem split_stores_fuel (K : Consts) (fuel : Nat) :
    ∀ (cp : Option (List Char)) (st : split_state) (e : split_exit),
      rtpp_command_split_loop K fuel cp st = some e →
      ∀ m : Nat, fuel ≤ m →
        rtpp_command_split_stores K m cp st = rtpp_command_split_stores K fuel cp st := by
  induction fuel with
  | zero =>
    intro cp st e h
    simp [rtpp_command_split_loop] at h
  | succ fuel ih =>
    intro cp st e h m hm
    obtain ⟨m1, rfl⟩ : ∃ m1, m = m1 + 1 := ⟨m - 1, by omega⟩
    simp only [rtpp_command_split_stores]
    simp only [rtpp_command_split_loop] at h
    cases hit : rtpp_command_split_iter K cp st with
    | mk step cp1 =>
      rw [hit] at h
      cases step with
      | next st1 =>
        simp only [] at h ⊢
        rw [ih cp1 st1 e h m1 (by omega)]
      | exit e1 => rfl

/-- C28: for every input buffer `data`, read on a stream or from a datagram
(`RTPC_MAX_ARGC` being at least 1), the tokenizing loop of
`rtpp_command_split` ends, every store it makes into an argument vector is at
an index strictly below `RTPC_MAX_ARGC` (and more fuel adds no store to the
list), and whenever the loop ends by `rtpp_strsep` returning NULL, rather
than by a retransmit hit or at `etoomany`, each vector is terminated at its
count: `args.v[args.c]` is NULL with `args.c < RTPC_MAX_ARGC`, and so is
`subc_args` when a "&&" was seen. -/
theorem C28_stores_in_bounds (K : Consts) (controlfd : Int) (dtime : Nat) (umode : Int)
    (raddr : Nat) (data : List Char) (w : World) (hK : 0 < K.RTPC_MAX_ARGC) :
    (∃ e : split_exit,
      rtpp_command_split_tokenize K (command_read K controlfd dtime umode raddr data) w =
        some e) ∧
    (∀ s ∈ rtpp_command_split_tokenize_stores K
        (command_read K controlfd dtime umode raddr data) w, s.2 < K.RTPC_MAX_ARGC) ∧
    (∀ m : Nat, data.length + 2 ≤ m →
      rtpp_command_split_stores K m (some data)
          { cmd := command_read K controlfd dtime umode raddr data,
            w := { w with csp := { w.csp with ncmds_rcvd := cnt_inc w.csp.ncmds_rcvd } },
            cap := cap_t.args, ap := 0 } =
        rtpp_command_split_tokenize_stores K
          (command_read K controlfd dtime umode raddr data) w) ∧
    (∀ st : split_state,
      rtpp_command_split_tokenize K (command_read K controlfd dtime umode raddr data) w =
        some (split_exit.eol st) →
      vectors_terminated K st) := by
  have hi := split_inv_start K (command_read K controlfd dtime umode raddr data)
    { w with csp := { w.csp with ncmds_rcvd := cnt_inc w.csp.ncmds_rcvd } } hK
    ⟨rfl, by simp [command_read, rtpp_command_ctor]⟩
    ⟨rfl, by simp [command_read, rtpp_command_ctor]⟩
  obtain ⟨h1, h2⟩ := split_loop_inv K (data.length + 2) (some data) _ hi
  have htot := tokenize_eq_feed K (command_read K controlfd dtime umode raddr data) w
  refine ⟨⟨_, htot⟩, h1, ?_, h2⟩
  intro m hm
  exact split_stores_fuel K (data.length + 2) (some data) _ _ htot m hm

/-- C28 witness: the stream line "U a && b" with `RTPC_MAX_ARGC = 20`: the
stores are at the indices 0, 1, 2 of `args` (twice at 2, the token "&&" and
then NULL) and 0, 1 of `subc_args`. -/
theorem C28_stores_in_bounds_witness :
    rtpp_command_split_tokenize_stores sample_consts
        (command_read sample_consts 3 0 0 7 "U a && b".toList) sample_world =
      [(cap_t.args, 0), (cap_t.args, 1), (cap_t.args, 2), (cap_t.args, 2),
       (cap_t.subc_args, 0), (cap_t.subc_args, 1)] ∧
    (∀ s ∈ rtpp_command_split_tokenize_stores sample_consts
        (command_read sample_consts 3 0 0 7 "U a && b".toList) sample_world, s.2 < 20) :=
  ⟨by decide,
    (C28_stores_in_bounds sample_consts 3 0 0 7 "U a && b".toList sample_world
      (by decide)).2.1⟩

/-! ## C23: the finalizer of `rtpp_pcount` -/

theorem pcount_fin_of_live (dbg : Bool) (pub : rtpp_pcount) (hlive : pub.live) :
    rtpp_pcount_fin dbg pub =
      some { get_stats := method_ptr.fin pcount_method.get_stats,
             reg_drop := method_ptr.fin pcount_method.reg_drop,
             reg_ignr := method_ptr.fin pcount_method.reg_ignr,
             reg_reld := method_ptr.fin pcount_method.reg_reld } := by
  have h1 := hlive pcount_method.get_stats
  have h2 := hlive pcount_method.reg_drop
  have h3 := hlive pcount_method.reg_ignr
  have h4 := hlive pcount_method.reg_reld
  simp only [rtpp_pcount.slot] at h1 h2 h3 h4
  simp [rtpp_pcount_fin, h1.1, h1.2, h2.1, h2.2, h3.1, h3.2, h4.1, h4.2]

theorem call_tfin_trapped (tp : Nat) (pub : rtpp_pcount) (m : pcount_method) (s : fin_world)
    (h : pub.slot m = method_ptr.fin m) :
    CALL_TFIN tp pub m s =
      some { events := s.events ++ [fin_event.fprintf_stderr tp m, fin_event.autotrap],
             naborts := s.naborts + 1 } := by
  unfold CALL_TFIN
  rw [h]
  cases m <;>
    simp [call_method_ptr, rtpp_pcount_get_stats_fin, rtpp_pcount_reg_drop_fin,
      rtpp_pcount_reg_ignr_fin, rtpp_pcount_reg_reld_fin, RTPP_AUTOTRAP]

/-- C23: let the four method slots of an object be live, that is neither NULL
nor already the trap thunk of their method.  Then `rtpp_pcount_fin` runs
through (with or without `RTPP_DBG_ASSERT` checking) and leaves in every slot
the trap thunk of that slot's method, which is not the value the slot held
before.  Afterwards a dispatch of any of the four methods prints the
diagnostic for that method and traps exactly once, and the four dispatches
that `rtpp_pcount_fintest` makes trap four times in total.
`rtpp_pcount_fintest` itself, whose object has the four slots at the address
1, runs through and its assertion `(_naborts - naborts_s) == 4` holds. -/
theorem C23_pcount_fin (dbg : Bool) (pub : rtpp_pcount) (tp : Nat) (s : fin_world)
    (hlive : pub.live) :
    ∃ pub1 : rtpp_pcount,
      rtpp_pcount_fin dbg pub = some pub1 ∧
      (∀ m : pcount_method, pub1.slot m = method_ptr.fin m ∧ pub1.slot m ≠ pub.slot m) ∧
      (∀ (m : pcount_method) (s0 : fin_world),
        ∃ s1 : fin_world,
          CALL_TFIN tp pub1 m s0 = some s1 ∧
          s1.events = s0.events ++ [fin_event.fprintf_stderr tp m, fin_event.autotrap] ∧
          count_traps s1.events = count_traps s0.events + 1 ∧
          s1.naborts = s0.naborts + 1) ∧
      (∃ s4 : fin_world,
        ((((CALL_TFIN tp pub1 pcount_method.get_stats s).bind
            (CALL_TFIN tp pub1 pcount_method.reg_drop)).bind
            (CALL_TFIN tp pub1 pcount_method.reg_ignr)).bind
            (CALL_TFIN tp pub1 pcount_method.reg_reld)) = some s4 ∧
        count_traps s4.events = count_traps s.events + 4 ∧
        s4.naborts = s.naborts + 4 ∧
        rtpp_pcount_fintest dbg tp s = some (s4, true)) := by
  have hfin := pcount_fin_of_live dbg pub hlive
  have hP : ∀ (m : pcount_method) (s0 : fin_world),
      CALL_TFIN tp
          (rtpp_pcount.mk (method_ptr.fin pcount_method.get_stats)
            (method_ptr.fin pcount_method.reg_drop) (method_ptr.fin pcount_method.reg_ignr)
            (method_ptr.fin pcount_method.reg_reld)) m s0 =
        some (fin_world.mk
          (s0.events ++ [fin_event.fprintf_stderr tp m, fin_event.autotrap])
          (s0.naborts + 1)) :=
    fun m s0 => call_tfin_trapped tp _ m s0 (by cases m <;> rfl)
  refine ⟨_, hfin, ?_, ?_, ?_⟩
  · intro m
    have hm : ({ get_stats := method_ptr.fin pcount_method.get_stats,
                 reg_drop := method_ptr.fin pcount_method.reg_drop,
                 reg_ignr := method_ptr.fin pcount_method.reg_ignr,
                 reg_reld := method_ptr.fin pcount_method.reg_reld } : rtpp_pcount).slot m =
        method_ptr.fin m := by
      cases m <;> rfl
    exact ⟨hm, fun h => (hlive m).2 (h ▸ hm)⟩
  · intro m s0
    refine ⟨_, hP m s0, rfl, ?_, rfl⟩
    simp [count_traps, List.count_append]
  · refine ⟨fin_world.mk (s.events ++
        [fin_event.fprintf_stderr tp pcount_method.get_stats, fin_event.autotrap,
         fin_event.fprintf_stderr tp pcount_method.reg_drop, fin_event.autotrap,
         fin_event.fprintf_stderr tp pcount_method.reg_ignr, fin_event.autotrap,
         fin_event.fprintf_stderr tp pcount_method.reg_reld, fin_event.autotrap])
      (s.naborts + 4), ?_, ?_, rfl, ?_⟩
    · simp only [hP, Option.some_bind, List.append_assoc]
      simp only [List.cons_append, List.nil_append, Option.some.injEq, fin_world.mk.injEq,
        true_and]
      omega
    · simp [count_traps, List.count_append]
    · have hlive1 : (rtpp_pcount.mk (method_ptr.addr 1) (method_ptr.addr 1) (method_ptr.addr 1)
          (method_ptr.addr 1)).live := by
        intro m
        cases m <;> exact ⟨by simp [rtpp_pcount.slot], by simp [rtpp_pcount.slot]⟩
      simp only [rtpp_pcount_fintest, RTPP_OBJ_DECREF, pcount_fin_of_live dbg _ hlive1,
        and_self, if_true, Option.map_some']
      simp only [hP, List.append_assoc]
      simp only [List.cons_append, List.nil_append, Option.some.injEq, Prod.mk.injEq,
        fin_world.mk.injEq, true_and, decide_eq_true_eq]
      refine ⟨by omega, by omega⟩

/-- C23 witness: an object with live methods: after `rtpp_pcount_fin` the
slots hold the four thunks, and the finalizer test, entered with three aborts
counted, ends with seven and a true assertion. -/
theorem C23_pcount_fin_witness :
    rtpp_pcount_fin true sample_pcount =
      some { get_stats := method_ptr.fin pcount_method.get_stats,
             reg_drop := method_ptr.fin pcount_method.reg_drop,
             reg_ignr := method_ptr.fin pcount_method.reg_ignr,
             reg_reld := method_ptr.fin pcount_method.reg_reld } ∧
    (rtpp_pcount_fintest true 500 sample_fin_world).map (fun r => (r.1.naborts, r.2)) =
      some (7, true) ∧
    (∃ pub1 : rtpp_pcount, rtpp_pcount_fin true sample_pcount = some pub1 ∧
      ∀ m : pcount_method, pub1.slot m = method_ptr.fin m) := by
  refine ⟨by decide, by decide, ?_⟩
  obtain ⟨pub1, h1, h2, _⟩ := C23_pcount_fin true sample_pcount 500 sample_fin_world
    (by intro m; cases m <;> exact ⟨by decide, by decide⟩)
  exact ⟨pub1, h1, fun m => (h2 m).1⟩

end Rtpproxy
